import Mathlib

/-!
# HAL embedded MCP: GPIO helper, UART line receiver and command dispatcher

A shallow embedding of the register-access (AVR, non-HTTP) build of the
repository and proofs of its specified properties.

Conventions of the embedding.

* A C string is the list of its characters before the terminating NUL
  (`CStr`).  Fixed-size `char` arrays that the code fills byte by byte (the
  UART accumulator and mailbox) are lists of their cells, NULs included, and
  `cstrOf` reads the C string stored in such an array.
* Global variables become fields of explicit state records; a function that
  changes them takes the record and returns the new one.
* `printf` appends to an output stream, a list of characters.
-/

namespace HalMcp

/-! ## Basic types (`common.h`, `gpioLib.h`) -/

/-- A C string: its characters before the terminating NUL. -/
abbrev CStr := List Char

/-- The NUL character. -/
def NUL : Char := Char.ofNat 0

/-- The double quote character. -/
def DQUOTE : Char := Char.ofNat 34

/-- Return type enumeration of `common.h`. -/
inductive eRetType_t where
  | RET_TYPE_SUCCESS
  | RET_TYPE_FAIL
  | RET_TYPE_NULL_POINTER
  | RET_TYPE_INVALID_PARAMETER
  | RET_TYPE_MEMORY_ERROR
  | RET_TYPE_NOT_FOUND
  | RET_TYPE_ALREADY_EXISTS
  | RET_TYPE_NOT_INITIALIZED
  | RET_TYPE_INVALID_STATE
  | RET_TYPE_NOT_AVAILABLE
  deriving DecidableEq, Repr

open eRetType_t

/-- The integer value of a result code (`(int)eRet`). -/
def eRetType_t.toNat : eRetType_t → Nat
  | RET_TYPE_SUCCESS => 0
  | RET_TYPE_FAIL => 1
  | RET_TYPE_NULL_POINTER => 2
  | RET_TYPE_INVALID_PARAMETER => 3
  | RET_TYPE_MEMORY_ERROR => 4
  | RET_TYPE_NOT_FOUND => 5
  | RET_TYPE_ALREADY_EXISTS => 6
  | RET_TYPE_NOT_INITIALIZED => 7
  | RET_TYPE_INVALID_STATE => 8
  | RET_TYPE_NOT_AVAILABLE => 9

/-- GPIO direction. -/
inductive eGpioDirection_t where
  | GPIO_DIR_INPUT
  | GPIO_DIR_OUTPUT
  deriving DecidableEq, Repr

/-- GPIO pull configuration. -/
inductive eGpioPull_t where
  | GPIO_PULL_NONE
  | GPIO_PULL_UP
  | GPIO_PULL_DOWN
  deriving DecidableEq, Repr

open eGpioDirection_t eGpioPull_t

/-! ## C library functions used by the code -/

/-- The C string held in a character array: the cells before the first NUL. -/
def cstrOf : List Char → CStr
  | [] => []
  | c :: cs => if c = NUL then [] else c :: cstrOf cs

/-- C `strncpy(dest, src, n)` on character arrays: the first `n` cells of
`dest` receive the C string in `src` cut to `n` characters and padded with
NULs; the cells of `dest` from `n` on are kept. -/
def strncpy (dest src : List Char) (n : Nat) : List Char :=
  let s := (cstrOf src).take n
  s ++ List.replicate (n - s.length) NUL ++ dest.drop n

/-! ## Formatted input and output (`stdio.h`) -/

/-- C `isspace` in the C locale: space, and the controls tab to carriage
return (codes 9 to 13). -/
def isspace (c : Char) : Bool :=
  c = ' ' || (9 ≤ c.toNat && c.toNat ≤ 13)

/-- C `isdigit`. -/
def isdigit (c : Char) : Bool :=
  48 ≤ c.toNat && c.toNat ≤ 57

/-- The characters `printf` writes for `%d` with a non-negative argument. -/
def fmtNat (n : Nat) : List Char := Nat.toDigits 10 n

/-- The characters `printf` writes for `%d`. -/
def fmtInt : Int → List Char
  | Int.ofNat n => fmtNat n
  | Int.negSucc n => '-' :: fmtNat (n + 1)

/-- Value of a run of decimal digits. -/
def decimalValue (ds : List Char) : Nat :=
  ds.foldl (fun n c => 10 * n + (c.toNat - 48)) 0

/-- The `%Ns` conversion of `sscanf` with field width `width`: white space is
skipped, then the longest run of at most `width` non-space characters is the
token.  The result is the token and the unread rest, or `none` when the input
ends before a token starts (input failure). -/
def scanString (width : Nat) (s : CStr) : Option (CStr × CStr) :=
  match s.dropWhile isspace with
  | [] => none
  | c :: cs =>
    let tok := ((c :: cs).takeWhile (fun d => !isspace d)).take width
    some (tok, (c :: cs).drop tok.length)

/-- The text a `%d` conversion or `atoi` accepts, and its value before it is
stored: white space is skipped, then an optional sign and at least one digit
are read.  `none` is a matching or input failure. -/
def scanDecimal (s : CStr) : Option Int :=
  let body (neg : Bool) (r : CStr) : Option Int :=
    match r.takeWhile isdigit with
    | [] => none
    | d :: ds =>
      some (if neg then - (Int.ofNat (decimalValue (d :: ds)))
            else Int.ofNat (decimalValue (d :: ds)))
  match s.dropWhile isspace with
  | '-' :: r => body true r
  | '+' :: r => body false r
  | r => body false r

/-- Constant `INT_MAX` of the AVR build (`int` has 16 bits). -/
def INT_MAX : Int := 32767

/-- Constant `INT_MIN` of the AVR build. -/
def INT_MIN : Int := -32768

/-- What is stored when a value is assigned to the 16-bit `int` of the AVR
build: the value reduced modulo 65536 into `INT_MIN .. INT_MAX`. -/
def toIntAvr (v : Int) : Int :=
  (v + 32768) % 65536 - 32768

/-- What is stored when a value is assigned to the 32-bit `int` of the PC
builds: the value reduced modulo 4294967296 into the range of that type. -/
def toIntPc (v : Int) : Int :=
  (v + 2147483648) % 4294967296 - 2147483648

/-- The `%d` conversion of `sscanf` on the AVR build: the value read is stored
in an `int`, so a value outside `INT_MIN .. INT_MAX` wraps around. -/
def scanInt (s : CStr) : Option Int :=
  (scanDecimal s).map toIntAvr

/-- The `%d` conversion of `sscanf` and `fscanf` on the PC builds, stored in a
32-bit `int`. -/
def scanIntPc (s : CStr) : Option Int :=
  (scanDecimal s).map toIntPc

/-- Model of the call `sscanf(pcParams, "%31s %d", acPin, &iVal)`: the returned
count (EOF is -1), the content of `acPin` and of `iVal` after the call
(`iVal` keeps its initial 0 when it is not assigned; `acPin` is only
meaningful when the count is at least 1). -/
def sscanf_31s_d (pcParams : CStr) : Int × CStr × Int :=
  match scanString 31 pcParams with
  | none => (-1, [], 0)
  | some (pin, rest) =>
    match scanInt rest with
    | none => (1, pin, 0)
    | some v => (2, pin, v)

/-- Model of the call `sscanf(pcParams, "%31s", acPin)`: the returned count
and the content of `acPin`. -/
def sscanf_31s (pcParams : CStr) : Int × CStr :=
  match scanString 31 pcParams with
  | none => (-1, [])
  | some (pin, _) => (1, pin)

/-! ## Pin configuration table (`config/gpio_config.h`, `gpio_config.c`) -/

/-- One entry of `g_psGpioPinConfigs` on the AVR build. -/
structure sGpioPinConfig_t where
  pcPinName : CStr
  eDirection : eGpioDirection_t
  ePull : eGpioPull_t
  u8AvrPort : Nat
  u8AvrPin : Nat
  deriving DecidableEq

/-- Pin configuration passed to `configure` (`gpioLib.h`); the name pointer
may be NULL. -/
structure sGpioConfig_t where
  pcPinName : Option CStr
  eDirection : eGpioDirection_t
  ePull : eGpioPull_t
  deriving DecidableEq

/-- The table of `gpio_config.c`, without its NULL-name sentinel. -/
def g_psGpioPinConfigs_repo : List sGpioPinConfig_t :=
  [ { pcPinName := "LED1".toList, eDirection := GPIO_DIR_OUTPUT,
      ePull := GPIO_PULL_NONE, u8AvrPort := 1, u8AvrPin := 5 },
    { pcPinName := "BUTTON1".toList, eDirection := GPIO_DIR_INPUT,
      ePull := GPIO_PULL_UP, u8AvrPort := 1, u8AvrPin := 5 } ]

/-! ## AVR driver (`implementations/avr/gpioPlatform_avr.c`) -/

/-- Maximum number of stored pins. -/
def MAX_PINS : Nat := 32

/-- Size of the name array of a stored pin. -/
def MAX_PIN_NAME_LEN : Nat := 32

/-- The I/O registers the driver touches, by port index (0 = A .. 5 = F). -/
inductive AvrReg where
  | DDR (port : Nat)
  | PORT (port : Nat)
  | PIN (port : Nat)
  deriving DecidableEq

/-- Which of the optional ports the device header defines (`DDRA`, `DDRE`,
`DDRF`); ports B, C and D always exist. -/
structure AvrChip where
  hasDDRA : Bool
  hasDDRE : Bool
  hasDDRF : Bool
  deriving DecidableEq

/-- Internal pin state `sPinState_t`.  `acPinName` is the C string in the
32-byte name array; the three register pointers are register names. -/
structure sPinState_t where
  acPinName : CStr
  bConfigured : Bool
  pu8DdrReg : AvrReg
  pu8PortReg : AvrReg
  pu8PinReg : AvrReg
  u8PinMask : Nat
  eDirection : eGpioDirection_t
  ePull : eGpioPull_t
  bValue : Bool
  bSimulatedValue : Bool
  deriving DecidableEq

/-- The driver's statics and the register file.  `g_psPins` lists the
`g_u8PinCount` stored entries of the array (the count is the length of the
list; cells beyond it are never read). -/
structure AvrState where
  g_psPins : List sPinState_t
  g_bInitialized : Bool
  regs : AvrReg → Nat

/-- Write of an 8-bit register. -/
def regWrite (regs : AvrReg → Nat) (r : AvrReg) (v : Nat) : AvrReg → Nat :=
  fun q => if q = r then v % 256 else regs q

/-- Port index whose registers `vGetAvrPortRegisters` selects: the ports the
device lacks and every unknown index fall to the default, port B. -/
def avrPortOf (chip : AvrChip) (u8PortIndex : Nat) : Nat :=
  if u8PortIndex = 0 then (if chip.hasDDRA then 0 else 1)
  else if u8PortIndex = 1 then 1
  else if u8PortIndex = 2 then 2
  else if u8PortIndex = 3 then 3
  else if u8PortIndex = 4 then (if chip.hasDDRE then 4 else 1)
  else if u8PortIndex = 5 then (if chip.hasDDRF then 5 else 1)
  else 1

/-- The three pointers set by `vGetAvrPortRegisters` (DDR, PORT, PIN). -/
def vGetAvrPortRegisters (chip : AvrChip) (u8PortIndex : Nat) :
    AvrReg × AvrReg × AvrReg :=
  (AvrReg.DDR (avrPortOf chip u8PortIndex), AvrReg.PORT (avrPortOf chip u8PortIndex),
    AvrReg.PIN (avrPortOf chip u8PortIndex))

/-- Index of the first stored pin named `pcPinName`, scanning from index
`i` (the loop of `psFindPin`). -/
def psFindPinFrom (pcPinName : CStr) : List sPinState_t → Nat → Option Nat
  | [], _ => none
  | p :: ps, i => if p.acPinName = pcPinName then some i else psFindPinFrom pcPinName ps (i + 1)

/-- Function `psFindPin`: the index of the found pin, `none` when no stored
pin has that name. -/
def psFindPin (st : AvrState) (pcPinName : CStr) : Option Nat :=
  psFindPinFrom pcPinName st.g_psPins 0

/-- Function `bGpioAVRGetSimulated`. -/
def bGpioAVRGetSimulated (pcPinName : CStr) (st : AvrState) : Bool :=
  if !st.g_bInitialized then false
  else
    match psFindPin st pcPinName with
    | some i =>
      match st.g_psPins.get? i with
      | some psPin => psPin.bSimulatedValue
      | none => false
    | none => false

/-- Function `vGpioAVRSetSimulated`. -/
def vGpioAVRSetSimulated (pcPinName : CStr) (bValue : Bool) (st : AvrState) : AvrState :=
  if !st.g_bInitialized then st
  else
    match psFindPin st pcPinName with
    | some i =>
      { st with g_psPins := st.g_psPins.modify (fun psPin => { psPin with bSimulatedValue := bValue }) i }
    | none => st

/-- Body of the loop of `vGpioAVRInit` for one table entry. -/
def avrInitPin (chip : AvrChip) (st : AvrState) (cfg : sGpioPinConfig_t) : AvrState :=
  let pu8Ddr := (vGetAvrPortRegisters chip cfg.u8AvrPort).1
  let pu8Port := (vGetAvrPortRegisters chip cfg.u8AvrPort).2.1
  let pu8Pin := (vGetAvrPortRegisters chip cfg.u8AvrPort).2.2
  let u8PinMask := (1 <<< cfg.u8AvrPin) % 256
  let regs1 :=
    if cfg.eDirection = GPIO_DIR_OUTPUT then
      let r := regWrite st.regs pu8Ddr (st.regs pu8Ddr ||| u8PinMask)
      regWrite r pu8Port (r pu8Port &&& (255 ^^^ u8PinMask))
    else
      let r := regWrite st.regs pu8Ddr (st.regs pu8Ddr &&& (255 ^^^ u8PinMask))
      if cfg.ePull = GPIO_PULL_UP then
        regWrite r pu8Port (r pu8Port ||| u8PinMask)
      else
        regWrite r pu8Port (r pu8Port &&& (255 ^^^ u8PinMask))
  let pins1 :=
    if st.g_psPins.length < MAX_PINS then
      st.g_psPins ++
        [{ acPinName := cfg.pcPinName.take (MAX_PIN_NAME_LEN - 1)
           bConfigured := true
           pu8DdrReg := pu8Ddr
           pu8PortReg := pu8Port
           pu8PinReg := pu8Pin
           u8PinMask := u8PinMask
           eDirection := cfg.eDirection
           ePull := cfg.ePull
           bValue := false
           bSimulatedValue := if cfg.ePull = GPIO_PULL_UP then true else false }]
    else st.g_psPins
  { st with g_psPins := pins1, regs := regs1 }

/-- Function `vGpioAVRInit` over the configuration table `cfgs`. -/
def vGpioAVRInit (chip : AvrChip) (cfgs : List sGpioPinConfig_t) (st : AvrState) : AvrState :=
  if st.g_bInitialized then st
  else cfgs.foldl (avrInitPin chip) { st with g_bInitialized := true }

/-- Function `eGpioAVRConfigure`; `none` is a NULL descriptor. -/
def eGpioAVRConfigure (psConfig : Option sGpioConfig_t) (st : AvrState) :
    eRetType_t × AvrState :=
  match psConfig with
  | none => (RET_TYPE_NULL_POINTER, st)
  | some cfg =>
    match cfg.pcPinName with
    | none => (RET_TYPE_NULL_POINTER, st)
    | some name =>
      if !st.g_bInitialized then (RET_TYPE_NOT_INITIALIZED, st)
      else
        match (psFindPin st name).bind (fun i => st.g_psPins.get? i) with
        | some psPin => if psPin.bConfigured then (RET_TYPE_SUCCESS, st) else (RET_TYPE_FAIL, st)
        | none => (RET_TYPE_FAIL, st)

/-- Function `eGpioAVRRead`.  `pcPinName = none` is a NULL name; `pbValue` is
`none` for a NULL pointer and otherwise the content of the pointed cell, and
the second component of the result is that cell after the call. -/
def eGpioAVRRead (pcPinName : Option CStr) (pbValue : Option Bool) (st : AvrState) :
    eRetType_t × Option Bool × AvrState :=
  match pcPinName, pbValue with
  | none, _ => (RET_TYPE_NULL_POINTER, pbValue, st)
  | _, none => (RET_TYPE_NULL_POINTER, pbValue, st)
  | some name, some _ =>
    if !st.g_bInitialized then (RET_TYPE_NOT_INITIALIZED, pbValue, st)
    else
      match psFindPin st name with
      | none => (RET_TYPE_FAIL, pbValue, st)
      | some i =>
        match st.g_psPins.get? i with
        | none => (RET_TYPE_FAIL, pbValue, st)
        | some psPin =>
          if !psPin.bConfigured then (RET_TYPE_FAIL, pbValue, st)
          else
            let v : Bool :=
              if psPin.eDirection = GPIO_DIR_INPUT then
                decide ((st.regs psPin.pu8PinReg &&& psPin.u8PinMask) ≠ 0)
              else
                decide ((st.regs psPin.pu8PortReg &&& psPin.u8PinMask) ≠ 0)
            (RET_TYPE_SUCCESS, some v,
              { st with g_psPins := st.g_psPins.modify (fun q => { q with bValue := v }) i })

/-- Function `eGpioAVRWrite`; `none` is a NULL name. -/
def eGpioAVRWrite (pcPinName : Option CStr) (bValue : Bool) (st : AvrState) :
    eRetType_t × AvrState :=
  match pcPinName with
  | none => (RET_TYPE_NULL_POINTER, st)
  | some name =>
    if !st.g_bInitialized then (RET_TYPE_NOT_INITIALIZED, st)
    else
      match psFindPin st name with
      | none => (RET_TYPE_FAIL, st)
      | some i =>
        match st.g_psPins.get? i with
        | none => (RET_TYPE_FAIL, st)
        | some psPin =>
          if !psPin.bConfigured then (RET_TYPE_FAIL, st)
          else if psPin.eDirection ≠ GPIO_DIR_OUTPUT then (RET_TYPE_INVALID_STATE, st)
          else
            let regs1 :=
              if bValue then
                regWrite st.regs psPin.pu8PortReg (st.regs psPin.pu8PortReg ||| psPin.u8PinMask)
              else
                regWrite st.regs psPin.pu8PortReg
                  (st.regs psPin.pu8PortReg &&& (255 ^^^ psPin.u8PinMask))
            (RET_TYPE_SUCCESS,
              { st with
                g_psPins := st.g_psPins.modify (fun q => { q with bValue := bValue }) i
                regs := regs1 })

/-- The driver's statics at program start, over a register file. -/
def avrStateInit (regs : AvrReg → Nat) : AvrState :=
  { g_psPins := [], g_bInitialized := false, regs := regs }

/-! ## Interface registry (`gpioLib.h`, `gpioLib.c`) -/

/-- The driver capability table `sGpioInterface_t`: four optional function
pointers (`none` is NULL).  Pointer arguments are options (`none` is NULL); the
output cell of `read` is passed as its content and returned after the call. -/
structure sGpioInterface_t where
  vHalGpioInitFunc : Option (AvrState → AvrState)
  eHalGpioConfigureFunc : Option (Option sGpioConfig_t → AvrState → eRetType_t × AvrState)
  eHalGpioReadFunc :
    Option (Option CStr → Option Bool → AvrState → eRetType_t × Option Bool × AvrState)
  eHalGpioWriteFunc : Option (Option CStr → Bool → AvrState → eRetType_t × AvrState)

/-- The constant tables the program is linked with: the pin configuration
table, the generated list of valid pin names with its count (entries may be
NULL), and the device's optional ports. -/
structure Env where
  g_psGpioPinConfigs : List sGpioPinConfig_t
  g_apcMcpPinNames : List (Option CStr)
  g_u32McpPinCount : Nat
  chip : AvrChip

/-- The mutable program state seen from main context: the registered
interface, the driver state with the registers, and the characters printed
so far. -/
structure World where
  g_psGpioInterface : Option sGpioInterface_t
  avr : AvrState
  out : List Char

/-- Function `vHalRegisterGpioInterface`. -/
def vHalRegisterGpioInterface (psInterface : Option sGpioInterface_t) (w : World) : World :=
  { w with g_psGpioInterface := psInterface }

/-- Function `psHalGetGpioInterface`. -/
def psHalGetGpioInterface (w : World) : Option sGpioInterface_t :=
  w.g_psGpioInterface

/-- The table `sGpioInterfaceAVR`. -/
def sGpioInterfaceAVR (env : Env) : sGpioInterface_t :=
  { vHalGpioInitFunc := some (vGpioAVRInit env.chip env.g_psGpioPinConfigs)
    eHalGpioConfigureFunc := some eGpioAVRConfigure
    eHalGpioReadFunc := some eGpioAVRRead
    eHalGpioWriteFunc := some eGpioAVRWrite }

/-! ## Helper layer (`helpers/gpio_helper.c`, `platform_adapter.c`) -/

/-- A `printf` of the already formatted text `s`. -/
def printf (s : List Char) (w : World) : World :=
  { w with out := w.out ++ s }

/-- The text of a synchronization message, newline included. -/
def syncMessage (pcCmd pcPin : CStr) (iValue : Int) : List Char :=
  "\x7b\"t\":\"".toList ++ pcCmd ++ "\",\"p\":\"".toList ++ pcPin ++
    "\",\"v\":".toList ++ fmtInt iValue ++ "\x7d\n".toList

/-- Function `vHelperSend` of the platform adapter. -/
def vHelperSend (pcCmd pcPin : CStr) (iValue : Int) (w : World) : World :=
  printf (syncMessage pcCmd pcPin iValue) w

/-- Function `eGpioHelperWrite`. -/
def eGpioHelperWrite (pcPinName : CStr) (bValue : Bool) (w : World) : eRetType_t × World :=
  match psHalGetGpioInterface w with
  | none => (RET_TYPE_FAIL, w)
  | some psGpio =>
    match psGpio.eHalGpioWriteFunc with
    | none => (RET_TYPE_FAIL, w)
    | some eHalGpioWriteFunc =>
      let r := eHalGpioWriteFunc (some pcPinName) bValue w.avr
      let w1 : World := { w with avr := r.2 }
      if r.1 = RET_TYPE_SUCCESS then
        (r.1, vHelperSend "GPIO".toList pcPinName (if bValue then 1 else 0)
          (printf "OK\n".toList w1))
      else (r.1, w1)

/-- The pull of the first table entry named `pcPinName`, `GPIO_PULL_NONE` when
there is none (the search loop of `eGpioHelperRead`). -/
def helperFindPull (pcPinName : CStr) : List sGpioPinConfig_t → eGpioPull_t
  | [] => GPIO_PULL_NONE
  | psConfig :: rest =>
    if psConfig.pcPinName = pcPinName then psConfig.ePull
    else helperFindPull pcPinName rest

/-- Function `eGpioHelperRead` of the register-access build (`PLATFORM_HTTP`
not defined).  `pbValue` is the content of the output cell before the call;
the second component of the result is its content after the call. -/
def eGpioHelperRead (env : Env) (pcPinName : CStr) (pbValue : Bool) (w : World) :
    eRetType_t × Bool × World :=
  match psHalGetGpioInterface w with
  | none => (RET_TYPE_FAIL, pbValue, w)
  | some psGpio =>
    match psGpio.eHalGpioReadFunc with
    | none => (RET_TYPE_FAIL, pbValue, w)
    | some eHalGpioReadFunc =>
      let r := eHalGpioReadFunc (some pcPinName) (some false) w.avr
      let w1 : World := { w with avr := r.2.2 }
      if r.1 ≠ RET_TYPE_SUCCESS then (r.1, pbValue, w1)
      else
        let bPhysical := r.2.1.getD false
        let bSimulated := bGpioAVRGetSimulated pcPinName w1.avr
        let ePull := helperFindPull pcPinName env.g_psGpioPinConfigs
        let value := if ePull = GPIO_PULL_UP then (bPhysical && bSimulated)
                     else (bPhysical || bSimulated)
        let bIsPressedPhysical := if ePull = GPIO_PULL_UP then !bPhysical else bPhysical
        let w2 :=
          if bIsPressedPhysical then
            vHelperSend "GPIO".toList pcPinName (if ePull = GPIO_PULL_UP then 0 else 1) w1
          else w1
        (RET_TYPE_SUCCESS, value, w2)

/-- Function `vGpioHelperInit`. -/
def vGpioHelperInit (w : World) : World :=
  match psHalGetGpioInterface w with
  | none => w
  | some psGpio =>
    match psGpio.vHalGpioInitFunc with
    | none => w
    | some vHalGpioInitFunc => { w with avr := vHalGpioInitFunc w.avr }

/-- Function `eGpioHelperConfigure`. -/
def eGpioHelperConfigure (psConfig : Option sGpioConfig_t) (w : World) : eRetType_t × World :=
  match psHalGetGpioInterface w with
  | none => (RET_TYPE_FAIL, w)
  | some psGpio =>
    match psGpio.eHalGpioConfigureFunc with
    | none => (RET_TYPE_FAIL, w)
    | some eHalGpioConfigureFunc =>
      ((eHalGpioConfigureFunc psConfig w.avr).1,
        { w with avr := (eHalGpioConfigureFunc psConfig w.avr).2 })

/-- Function `vAppInit` on the AVR build, where `psGetPlatformGpioInterface`
returns the AVR table: the table is registered and the helper initialised. -/
def vAppInit (env : Env) (w : World) : World :=
  vGpioHelperInit (vHalRegisterGpioInterface (some (sGpioInterfaceAVR env)) w)

/-- A sample set of tables: the configuration table of the repository, a pin
list holding its two names, and a device with ports B, C and D only. -/
def envRepo : Env :=
  { g_psGpioPinConfigs := g_psGpioPinConfigs_repo
    g_apcMcpPinNames := [some "LED1".toList, some "BUTTON1".toList]
    g_u32McpPinCount := 2
    chip := { hasDDRA := false, hasDDRE := false, hasDDRF := false } }

/-- The program state at power-up with the PIN register of port B reading
`pinb` and every other register zero, nothing registered, nothing printed. -/
def worldPowerUp (pinb : Nat) : World :=
  { g_psGpioInterface := none
    avr := avrStateInit (fun r => if r = AvrReg.PIN 1 then pinb else 0)
    out := [] }

/-! ## Tool handlers and dispatcher (`tool_handlers_gpio.c`, `app_main.c`) -/

/-- Function `bIsValidPin`: the scan stops at the count or at the first NULL
entry of the list. -/
def bIsValidPin (env : Env) (pcPin : CStr) : Bool :=
  ((env.g_apcMcpPinNames.take env.g_u32McpPinCount).takeWhile Option.isSome).contains
    (some pcPin)

/-- Function `vHandleGpioWrite`. -/
def vHandleGpioWrite (env : Env) (pcParams : CStr) (w : World) : World :=
  let r := sscanf_31s_d pcParams
  if r.1 < 2 then printf "ERR gpio_write need PIN VALUE\n".toList w
  else if !bIsValidPin env r.2.1 then
    printf ("ERR unknown pin ".toList ++ r.2.1 ++ "\n".toList) w
  else
    let bVal : Bool := decide (r.2.2 ≠ 0)
    let h := eGpioHelperWrite r.2.1 bVal w
    if h.1 ≠ RET_TYPE_SUCCESS then
      printf ("ERR ".toList ++ fmtNat h.1.toNat ++ "\n".toList) h.2
    else h.2

/-- Function `vHandleGpioRead`. -/
def vHandleGpioRead (env : Env) (pcParams : CStr) (w : World) : World :=
  let r := sscanf_31s pcParams
  if r.1 < 1 then printf "ERR gpio_read need PIN\n".toList w
  else if !bIsValidPin env r.2 then
    printf ("ERR unknown pin ".toList ++ r.2 ++ "\n".toList) w
  else
    let h := eGpioHelperRead env r.2 false w
    if h.1 = RET_TYPE_SUCCESS then
      printf ("GPIO_READ ".toList ++ r.2 ++ " ".toList ++
        fmtNat (if h.2.1 then 1 else 0) ++ "\n".toList) h.2.2
    else
      printf ("ERR ".toList ++ fmtNat h.1.toNat ++ "\n".toList) h.2.2

/-- The registry `g_asMcpRegistry`, without its NULL sentinel. -/
def g_asMcpRegistry (env : Env) : List (CStr × (CStr → World → World)) :=
  [ ("gpio_write".toList, vHandleGpioWrite env),
    ("gpio_read".toList, vHandleGpioRead env) ]

/-- The first loop of `vMcpHandleLine`: the final `iToolLen`, for the rest of
the line from position `iToolLen` on. -/
def scanToolLen : CStr → Nat → Nat
  | [], iToolLen => iToolLen
  | c :: cs, iToolLen =>
    if c ≠ ' ' ∧ iToolLen < 31 then scanToolLen cs (iToolLen + 1) else iToolLen

/-- The content of `acTool` in `vMcpHandleLine`. -/
def mcpTool (pcLine : CStr) : CStr :=
  pcLine.take (scanToolLen pcLine 0)

/-- The content of `acParams` in `vMcpHandleLine`. -/
def mcpParams (pcLine : CStr) : CStr :=
  ((pcLine.drop (scanToolLen pcLine 0)).dropWhile (fun c => c = ' ')).take 95

/-- The registry scan of `vMcpHandleLine`: the handler of the first entry
whose name equals `acTool`. -/
def mcpLookup (acTool : CStr) :
    List (CStr × (CStr → World → World)) → Option (CStr → World → World)
  | [] => none
  | e :: rest => if acTool = e.1 then some e.2 else mcpLookup acTool rest

/-- Function `vMcpHandleLine` (for a non-NULL line). -/
def vMcpHandleLine (env : Env) (pcLine : CStr) (w : World) : World :=
  if pcLine = [] then w
  else if scanToolLen pcLine 0 = 0 then w
  else
    match mcpLookup (mcpTool pcLine) (g_asMcpRegistry env) with
    | some pfHandler => pfHandler (mcpParams pcLine) w
    | none => printf ("ERR unknown tool ".toList ++ mcpTool pcLine ++ "\n".toList) w

/-- The first word of a line: the text before its first space. -/
def firstWord : CStr → CStr
  | [] => []
  | c :: cs => if c = ' ' then [] else c :: firstWord cs

/-- The text that follows the first space of a line (empty when the line has
no space). -/
def afterFirstSpace : CStr → CStr
  | [] => []
  | c :: cs => if c = ' ' then cs else afterFirstSpace cs

/-- The tool name as the specification words it: the first word cut to its
first 31 characters. -/
def specTool (pcLine : CStr) : CStr :=
  (firstWord pcLine).take 31

/-- The parameter string as the specification words it: the text that follows
the first space, leading spaces skipped, cut to its first 95 characters. -/
def specParams (pcLine : CStr) : CStr :=
  ((afterFirstSpace pcLine).dropWhile (fun c => c = ' ')).take 95

/-- The complete lines of an output stream: the text before each newline. -/
def linesOf : List Char → List (List Char)
  | [] => []
  | c :: cs =>
    if c = '\n' then [] :: linesOf cs
    else
      match linesOf cs with
      | [] => []
      | l :: ls => (c :: l) :: ls

/-- A synchronization line starts with an opening brace. -/
def isSyncLine (l : List Char) : Bool :=
  l.head? = some (Char.ofNat 123)

/-- The response lines of an output stream: its lines other than the
synchronization lines. -/
def responseLines (out : List Char) : List (List Char) :=
  (linesOf out).filter (fun l => !isSyncLine l)

/-- A response line of the command protocol: `OK`, or a line starting with
`GPIO_READ ` or with `ERR `. -/
def IsResponse (r : List Char) : Prop :=
  r = "OK".toList ∨ "GPIO_READ ".toList <+: r ∨ "ERR ".toList <+: r

/-! ## UART line receiver (`implementations/avr/platform_adapter.c`) -/

/-- Size of the accumulator and of the mailbox. -/
def RX_BUFFER_SIZE : Nat := 128

/-- The static variables of the receiver: accumulator, its index, the
mailbox (`acPendingLine`) and the ready flag. -/
structure UartRx where
  acRxBuffer : List Char
  u8RxIndex : Nat
  acPendingLine : List Char
  u8LineReady : Nat
  deriving DecidableEq

/-- Both arrays have their declared size. -/
def UartRx.WellSized (s : UartRx) : Prop :=
  s.acRxBuffer.length = RX_BUFFER_SIZE ∧ s.acPendingLine.length = RX_BUFFER_SIZE

/-- The receive interrupt handler `ISR(USART_RX_vect)`, for the received
byte `c` (the value read from `UDR0`). -/
def ISR_USART_RX (c : Char) (s : UartRx) : UartRx :=
  if c = '\n' ∨ c = '\r' then
    if s.u8RxIndex > 0 then
      let buf := s.acRxBuffer.set s.u8RxIndex NUL
      let pend := strncpy s.acPendingLine buf (RX_BUFFER_SIZE - 1)
      { acRxBuffer := buf
        u8RxIndex := 0
        acPendingLine := pend.set (RX_BUFFER_SIZE - 1) NUL
        u8LineReady := 1 }
    else s
  else
    if s.u8RxIndex < RX_BUFFER_SIZE - 1 then
      { s with
        acRxBuffer := s.acRxBuffer.set s.u8RxIndex c
        u8RxIndex := (s.u8RxIndex + 1) % 256 }
    else
      { s with u8RxIndex := 0 }

/-- The handler run once for each byte of `cs`, in order. -/
def rxBytes (cs : List Char) (s : UartRx) : UartRx :=
  cs.foldl (fun st c => ISR_USART_RX c st) s

/-- Main-context consumer `bUartDispatchPendingLine`.  The line callback
`vOnUartLineReceived` is a parameter acting on the rest of the program state
`w`; the result is the returned flag, the receiver state and the state left
by the callback. -/
def bUartDispatchPendingLine {ω : Type} (vOnUartLineReceived : CStr → ω → ω)
    (s : UartRx) (w : ω) : Bool × UartRx × ω :=
  if s.u8LineReady = 0 then
    (false, s, w)
  else
    (true, { s with u8LineReady := 0 },
      vOnUartLineReceived (cstrOf s.acPendingLine) w)

/-- One pass of the manager loop `vAppLoop`: the result of the dispatch is
dropped (the delay has no effect on the state). -/
def vAppLoop {ω : Type} (vOnUartLineReceived : CStr → ω → ω)
    (sw : UartRx × ω) : UartRx × ω :=
  (bUartDispatchPendingLine vOnUartLineReceived sw.1 sw.2).2

/-- What happens on the target: a byte arrives (interrupt) or the main loop
makes one pass. -/
inductive UartEvent where
  | rx (c : Char)
  | poll
  deriving DecidableEq

/-- One event applied to receiver and program state. -/
def stepEvent {ω : Type} (f : CStr → ω → ω) (sw : UartRx × ω) :
    UartEvent → UartRx × ω
  | .rx c => (ISR_USART_RX c sw.1, sw.2)
  | .poll => vAppLoop f sw

/-- A sequence of events, applied in order. -/
def runEvents {ω : Type} (f : CStr → ω → ω) (evs : List UartEvent)
    (sw : UartRx × ω) : UartRx × ω :=
  evs.foldl (stepEvent f) sw

/-- The receiver's variables at program start (zero-initialised statics). -/
def uartRxInit : UartRx :=
  { acRxBuffer := List.replicate 128 NUL
    u8RxIndex := 0
    acPendingLine := List.replicate 128 NUL
    u8LineReady := 0 }

/-- The events of a completed line that the consumer polls right after:
the bytes of the line, its terminator, one pass of the main loop. -/
def lineThenPoll (lt : CStr × Char) : List UartEvent :=
  (lt.1 ++ [lt.2]).map UartEvent.rx ++ [UartEvent.poll]

/-- A line as the sender transmits it: no terminator and no NUL inside. -/
def IsLineBody (l : CStr) : Prop :=
  ∀ c ∈ l, c ≠ '\n' ∧ c ≠ '\r' ∧ c ≠ NUL

/-- The two line terminators. -/
def IsTerminator (t : Char) : Prop := t = '\n' ∨ t = '\r'

/-- The decimal digits of a number, most significant first (`0` for zero):
what `Nat.toDigits 10` computes, by a recursion that proofs can follow. -/
def decDigits (n : Nat) : List Char :=
  if _h : n < 10 then [Nat.digitChar n]
  else decDigits (n / 10) ++ [Nat.digitChar (n % 10)]
termination_by n
decreasing_by omega

/-- The names `bIsValidPin` compares with: the first `g_u32McpPinCount`
entries of `g_apcMcpPinNames`, up to the first NULL entry. -/
def mcpPinList (env : Env) : List (Option CStr) :=
  (env.g_apcMcpPinNames.take env.g_u32McpPinCount).takeWhile Option.isSome

/-- Tables for a pin whose name holds a space: one input pin `PIN A` with
pull-up on bit 0 of port B, listed as valid. -/
def envSpaced : Env :=
  { g_psGpioPinConfigs :=
      [ { pcPinName := "PIN A".toList, eDirection := GPIO_DIR_INPUT,
          ePull := GPIO_PULL_UP, u8AvrPort := 1, u8AvrPin := 0 } ]
    g_apcMcpPinNames := [some "PIN A".toList]
    g_u32McpPinCount := 1
    chip := { hasDDRA := false, hasDDRE := false, hasDDRF := false } }

/-- Tables for a pin with an empty name: one output pin on bit 0 of port B,
listed as valid. -/
def envEmptyName : Env :=
  { g_psGpioPinConfigs :=
      [ { pcPinName := [], eDirection := GPIO_DIR_OUTPUT,
          ePull := GPIO_PULL_NONE, u8AvrPort := 1, u8AvrPin := 0 } ]
    g_apcMcpPinNames := [some []]
    g_u32McpPinCount := 1
    chip := { hasDDRA := false, hasDDRE := false, hasDDRF := false } }

/-! ## Digital-twin override (`platform_adapter.c`, `app_main.c`) -/

/-- The search loop of C `strstr`, started at offset `i` of the haystack. -/
def strstrFrom (needle : CStr) : CStr → Nat → Option Nat
  | [], i => if needle = [] then some i else none
  | c :: cs, i =>
    if needle.isPrefixOf (c :: cs) then some i else strstrFrom needle cs (i + 1)

/-- C `strstr(hay, needle)`: the offset of the first occurrence of `needle` in
`hay`, `none` for NULL (no occurrence). -/
def strstr (hay needle : CStr) : Option Nat :=
  strstrFrom needle hay 0

/-- C `atoi` on the AVR build: white space, an optional sign and digits are
read; the result is 0 when no digit is found, and it is an `int`, so a value
outside `INT_MIN .. INT_MAX` wraps around. -/
def atoi (s : CStr) : Int :=
  (scanInt s).getD 0

/-- The copy loop of `vParseAndApplyInput` over the memory cells from
`pcPinLoc` on, with `i` characters copied so far: it stops at a double quote
or after 31 characters.  The loop does not test for NUL, so the cells may lie
beyond the end of the line; the result is what is copied into `acPinName`. -/
def parsePinNameLoop : List Char → Nat → List Char
  | [], _ => []
  | c :: cs, i =>
    if c ≠ DQUOTE ∧ i < 31 then c :: parsePinNameLoop cs (i + 1) else []

/-- Function `vParseAndApplyInput`.  `pcJson` lists the memory cells from the
pointer on: the line, its terminating NUL and the cells that follow it in the
array. -/
def vParseAndApplyInput (pcJson : List Char) (w : World) : World :=
  match strstr (cstrOf pcJson) "\"p\":\"".toList, strstr (cstrOf pcJson) "\"v\":".toList with
  | some pcPinLoc, some pcValLoc =>
    let acPinName := cstrOf (parsePinNameLoop (pcJson.drop (pcPinLoc + 5)) 0)
    let iValue := atoi ((cstrOf pcJson).drop (pcValLoc + 4))
    { w with avr := vGpioAVRSetSimulated acPinName (decide (iValue ≠ 0)) w.avr }
  | _, _ => w

/-- Function `vApplyReceivedJsonLine` (for a non-NULL line). -/
def vApplyReceivedJsonLine (pcLine : List Char) (w : World) : World :=
  vParseAndApplyInput pcLine w

/-- Function `vOnUartLineReceived` (for a non-NULL line), over the memory
cells from `pcLine` on. -/
def vOnUartLineReceived (env : Env) (pcLine : List Char) (w : World) : World :=
  match pcLine with
  | [] => w
  | c :: _ =>
    if c = NUL then w
    else if c = Char.ofNat 123 then vApplyReceivedJsonLine pcLine w
    else vMcpHandleLine env (cstrOf pcLine) w

/-! ## Histories of the AVR driver -/

/-- One thing that can happen to the AVR driver state: a call of one of its
entry points, or the outside world changing the level register of a port. -/
inductive AvrOp where
  | init
  | configure (psConfig : Option sGpioConfig_t)
  | read (pcPinName : Option CStr) (pbValue : Option Bool)
  | write (pcPinName : Option CStr) (bValue : Bool)
  | setSimulated (pcPinName : CStr) (bValue : Bool)
  | pinLevels (port : Nat) (levels : Nat)
  deriving DecidableEq

/-- The driver state after one event. -/
def avrStep (env : Env) (st : AvrState) : AvrOp → AvrState
  | .init => vGpioAVRInit env.chip env.g_psGpioPinConfigs st
  | .configure psConfig => (eGpioAVRConfigure psConfig st).2
  | .read pcPinName pbValue => (eGpioAVRRead pcPinName pbValue st).2.2
  | .write pcPinName bValue => (eGpioAVRWrite pcPinName bValue st).2
  | .setSimulated pcPinName bValue => vGpioAVRSetSimulated pcPinName bValue st
  | .pinLevels port levels => { st with regs := regWrite st.regs (AvrReg.PIN port) levels }

/-- The driver state after a sequence of events. -/
def avrRun (env : Env) (ops : List AvrOp) (st : AvrState) : AvrState :=
  ops.foldl (avrStep env) st

/-- The driver state after start-up (`vGpioAVRInit` on the power-up state
over the register file `regs`) followed by the events `ops`. -/
def avrAfter (env : Env) (regs : AvrReg → Nat) (ops : List AvrOp) : AvrState :=
  avrRun env ops (vGpioAVRInit env.chip env.g_psGpioPinConfigs (avrStateInit regs))

/-- Tables in which an over-long name collides, once cut to 31 characters,
with the name of a later pin: `A..AY` (32 characters, no pull, bit 0 of port B)
and `A..A` (31 characters, pull-up, bit 1 of port B), both inputs. -/
def envCollide : Env :=
  { g_psGpioPinConfigs :=
      [ { pcPinName := List.replicate 31 'A' ++ ['Y'], eDirection := GPIO_DIR_INPUT,
          ePull := GPIO_PULL_NONE, u8AvrPort := 1, u8AvrPin := 0 },
        { pcPinName := List.replicate 31 'A', eDirection := GPIO_DIR_INPUT,
          ePull := GPIO_PULL_UP, u8AvrPort := 1, u8AvrPin := 1 } ]
    g_apcMcpPinNames := [some (List.replicate 31 'A' ++ ['Y']), some (List.replicate 31 'A')]
    g_u32McpPinCount := 2
    chip := { hasDDRA := false, hasDDRE := false, hasDDRF := false } }

/-- The pin state that `vGpioAVRInit` stores for a table entry. -/
def avrPinOfConfig (chip : AvrChip) (cfg : sGpioPinConfig_t) : sPinState_t :=
  { acPinName := cfg.pcPinName.take (MAX_PIN_NAME_LEN - 1)
    bConfigured := true
    pu8DdrReg := (vGetAvrPortRegisters chip cfg.u8AvrPort).1
    pu8PortReg := (vGetAvrPortRegisters chip cfg.u8AvrPort).2.1
    pu8PinReg := (vGetAvrPortRegisters chip cfg.u8AvrPort).2.2
    u8PinMask := (1 <<< cfg.u8AvrPin) % 256
    eDirection := cfg.eDirection
    ePull := cfg.ePull
    bValue := false
    bSimulatedValue := if cfg.ePull = GPIO_PULL_UP then true else false }

/-- Tables with 33 entries: 32 inputs named `A` and then the input `B`, which
`vGpioAVRInit` has no room left to store. -/
def envMany : Env :=
  { g_psGpioPinConfigs :=
      List.replicate 32
        { pcPinName := ['A'], eDirection := GPIO_DIR_INPUT, ePull := GPIO_PULL_NONE,
          u8AvrPort := 1, u8AvrPin := 0 } ++
      [ { pcPinName := ['B'], eDirection := GPIO_DIR_INPUT, ePull := GPIO_PULL_NONE,
          u8AvrPort := 1, u8AvrPin := 1 } ]
    g_apcMcpPinNames := [some ['A'], some ['B']]
    g_u32McpPinCount := 2
    chip := { hasDDRA := false, hasDDRE := false, hasDDRF := false } }


/-! ## HTTP driver (`implementations/pc/gpioLib_http.c`) -/

/-- Numeric value of a direction. -/
def eGpioDirection_t.toNat : eGpioDirection_t → Nat
  | GPIO_DIR_INPUT => 0
  | GPIO_DIR_OUTPUT => 1

/-- Numeric value of a pull configuration. -/
def eGpioPull_t.toNat : eGpioPull_t → Nat
  | GPIO_PULL_NONE => 0
  | GPIO_PULL_UP => 1
  | GPIO_PULL_DOWN => 2

/-- A request handed to `eHTTP_MakeRequest`: method, URL and body (`none` is
the NULL body of a GET). -/
structure HttpRequest where
  pcMethod : CStr
  pcURL : CStr
  pcBody : Option CStr
  deriving DecidableEq

/-- The static `g_bHTTPInitialized` of the HTTP driver, the requests issued so
far (oldest first) and the text printed. -/
structure HttpState where
  g_bHTTPInitialized : Bool
  requests : List HttpRequest
  out : List Char
  deriving DecidableEq

/-- The server and the transport as seen by the driver: the return code of
`eHTTP_MakeRequest` and the response it hands back (`none` is NULL) for the
request number `n`, counted from 0 over the life of the program. -/
abbrev HttpNet := Nat → eRetType_t × Option CStr

/-- Constant `HTTP_BASE_URL`. -/
def HTTP_BASE_URL : CStr := "http://localhost:8080".toList

/-- Constant `MAX_URL_LEN`. -/
def MAX_URL_LEN : Nat := 256

/-- Function `eHTTP_MakeRequest` with non-NULL URL, method and response cell:
the request is issued and its outcome is the one the network gives. -/
def eHTTP_MakeRequest (net : HttpNet) (pcURL pcMethod : CStr) (pcBody : Option CStr)
    (st : HttpState) : eRetType_t × Option CStr × HttpState :=
  ((net st.requests.length).1, (net st.requests.length).2,
    { st with requests := st.requests ++
        [{ pcMethod := pcMethod, pcURL := pcURL, pcBody := pcBody }] })

/-- Function `eHTTP_GetRequest`. -/
def eHTTP_GetRequest (net : HttpNet) (pcURL : CStr) (st : HttpState) :
    eRetType_t × Option CStr × HttpState :=
  eHTTP_MakeRequest net pcURL "GET".toList none st

/-- Function `eHTTP_PostRequest`. -/
def eHTTP_PostRequest (net : HttpNet) (pcURL pcBody : CStr) (st : HttpState) :
    eRetType_t × Option CStr × HttpState :=
  eHTTP_MakeRequest net pcURL "POST".toList (some pcBody) st

/-- The retry loop `for (int i = 0; i < iRetries; i++)` of `eGpioHTTPWrite` and
`eGpioHTTPConfigure`, entered with `iRetries - i` iterations left and the
current content of `eRet` and `pcResponse`; the result is their content and
the state when the loop is left.  The delay before a retry changes nothing
here; the response of a failed attempt that is not the last one is freed and
the pointer reset to NULL. -/
def httpPostRetry (net : HttpNet) (acURL acBody : CStr) :
    Nat → eRetType_t → Option CStr → HttpState → eRetType_t × Option CStr × HttpState
  | 0, eRet, pcResponse, st => (eRet, pcResponse, st)
  | n + 1, _, _, st =>
    let r := eHTTP_PostRequest net acURL acBody st
    if r.1 = RET_TYPE_SUCCESS then r
    else httpPostRetry net acURL acBody n r.1 (if 0 < n then none else r.2.1) r.2.2

/-- Function `eGpioHTTPWrite`; `none` is a NULL name. -/
def eGpioHTTPWrite (net : HttpNet) (pcPinName : Option CStr) (bValue : Bool)
    (st : HttpState) : eRetType_t × HttpState :=
  match pcPinName with
  | none => (RET_TYPE_NULL_POINTER, st)
  | some name =>
    if !st.g_bHTTPInitialized then (RET_TYPE_NOT_INITIALIZED, st)
    else
      let acURL := (HTTP_BASE_URL ++ "/api/gpio/".toList ++ name).take (MAX_URL_LEN - 1)
      let acBody :=
        ("\x7b\"value\":".toList ++ fmtInt (if bValue then 1 else 0) ++ "\x7d".toList).take 127
      let r := httpPostRetry net acURL acBody 2 RET_TYPE_FAIL none st
      (r.1, r.2.2)

/-- Function `eGpioHTTPConfigure`; `none` is a NULL descriptor or a NULL name
in it. -/
def eGpioHTTPConfigure (net : HttpNet) (psConfig : Option sGpioConfig_t) (st : HttpState) :
    eRetType_t × HttpState :=
  match psConfig with
  | none => (RET_TYPE_NULL_POINTER, st)
  | some cfg =>
    match cfg.pcPinName with
    | none => (RET_TYPE_NULL_POINTER, st)
    | some name =>
      if !st.g_bHTTPInitialized then (RET_TYPE_NOT_INITIALIZED, st)
      else
        let acURL :=
          (HTTP_BASE_URL ++ "/api/gpio/".toList ++ name ++ "/configure".toList).take
            (MAX_URL_LEN - 1)
        let acBody :=
          ("\x7b\"direction\":".toList ++ fmtNat cfg.eDirection.toNat ++
            ",\"pull\":".toList ++ fmtNat cfg.ePull.toNat ++ "\x7d".toList).take 255
        let r := httpPostRetry net acURL acBody 2 RET_TYPE_FAIL none st
        let st1 := r.2.2
        if r.1 = RET_TYPE_SUCCESS then
          (r.1, { st1 with out := st1.out ++ "[GPIO HTTP] Pin \x27".toList ++ name ++
            "\x27 configured as ".toList ++
            (if cfg.eDirection = GPIO_DIR_INPUT then "INPUT".toList else "OUTPUT".toList) ++
            "\n".toList })
        else
          (r.1, { st1 with out := st1.out ++
            "[GPIO HTTP] [ERROR] Failed to configure pin \x27".toList ++ name ++
            "\x27 after ".toList ++ fmtNat 2 ++ " attempts: ".toList ++ fmtNat r.1.toNat ++
            "\n".toList })

/-- The two calls `sscanf(pcResponse, "{\"value\":%d}", &iValue)` and
`sscanf(pcResponse, "{\"value\": %d}", &iValue)` of `eGpioHTTPRead`: the
literal text is matched, then the integer is read (white space before it is
skipped by `%d` in the first format, and by the blank of the format and by
`%d` in the second).  The result is the integer when a call returns 1. -/
def sscanf_value_d (pcResponse : CStr) : Option Int :=
  if "\x7b\"value\":".toList.isPrefixOf pcResponse then
    scanIntPc (pcResponse.drop "\x7b\"value\":".toList.length)
  else none

/-- Function `eGpioHTTPRead`; `none` is a NULL name or a NULL output pointer,
the output cell is passed as its content and returned after the call. -/
def eGpioHTTPRead (net : HttpNet) (pcPinName : Option CStr) (pbValue : Option Bool)
    (st : HttpState) : eRetType_t × Option Bool × HttpState :=
  match pcPinName, pbValue with
  | none, _ => (RET_TYPE_NULL_POINTER, pbValue, st)
  | _, none => (RET_TYPE_NULL_POINTER, pbValue, st)
  | some name, some _ =>
    if !st.g_bHTTPInitialized then (RET_TYPE_NOT_INITIALIZED, pbValue, st)
    else
      let acURL := (HTTP_BASE_URL ++ "/api/gpio/".toList ++ name).take (MAX_URL_LEN - 1)
      let r := eHTTP_GetRequest net acURL st
      match (if r.1 = RET_TYPE_SUCCESS then r.2.1 else none) with
      | some pcResponse =>
        match sscanf_value_d pcResponse with
        | some iValue => (RET_TYPE_SUCCESS, some (decide (iValue ≠ 0)), r.2.2)
        | none => (RET_TYPE_FAIL, some false, r.2.2)
      | none => (RET_TYPE_FAIL, some false, r.2.2)

/-- The outcome of a retried POST of `req` from state `st` on: `r` is the
returned code and the state after.  A number `k` of attempts, 1 or 2, was
issued, each the request `req`; every attempt but the last one failed; the
code is RET_TYPE_SUCCESS exactly when one of the attempts succeeded; and when
all failed there were two attempts and the code is that of the second. -/
def RetryOutcome (net : HttpNet) (st : HttpState) (req : HttpRequest)
    (code : eRetType_t) (st1 : HttpState) : Prop :=
  ∃ k : Nat, 1 ≤ k ∧ k ≤ 2 ∧
    st1.requests = st.requests ++ List.replicate k req ∧
    st1.g_bHTTPInitialized = st.g_bHTTPInitialized ∧
    (∀ j, j + 1 < k → (net (st.requests.length + j)).1 ≠ RET_TYPE_SUCCESS) ∧
    (code = RET_TYPE_SUCCESS ↔ ∃ j, j < k ∧ (net (st.requests.length + j)).1 = RET_TYPE_SUCCESS) ∧
    ((∀ j, j < k → (net (st.requests.length + j)).1 ≠ RET_TYPE_SUCCESS) →
      k = 2 ∧ code = (net (st.requests.length + 1)).1)


/-- A network whose first request times out and whose later requests succeed
with an empty body. -/
def netFailThenOk : HttpNet :=
  fun n => if n = 0 then (RET_TYPE_FAIL, none) else (RET_TYPE_SUCCESS, some [])

/-- A network on which every request fails, the first with RET_TYPE_FAIL and
the later ones with RET_TYPE_MEMORY_ERROR. -/
def netDown : HttpNet :=
  fun n => if n = 0 then (RET_TYPE_FAIL, none) else (RET_TYPE_MEMORY_ERROR, none)

/-- The HTTP driver once `vGpioHTTPInit` has set `g_bHTTPInitialized`, with no
request issued yet and nothing printed. -/
def httpStateReady : HttpState :=
  { g_bHTTPInitialized := true, requests := [], out := [] }


/-! ## File-simulated driver (`implementations/pc/gpioLib_windows.c`) -/

namespace Windows

/-- Entry of the pin table of the Windows driver. -/
structure sPinState_t where
  acPinName : CStr
  bConfigured : Bool
  eDirection : eGpioDirection_t
  ePull : eGpioPull_t
  bValue : Bool
  deriving DecidableEq

/-- The statics of the Windows driver, the file system and the text printed.
`g_psPins` lists the `g_u8PinCount` stored entries (the count is the length of
the list); `files` holds the content of every existing file, newest first;
`fopenW path` tells whether `fopen(path, "w")` succeeds. -/
structure WinState where
  g_psPins : List sPinState_t
  g_bInitialized : Bool
  files : List (CStr × CStr)
  fopenW : CStr → Bool
  out : List Char

/-- Constant `PIN_STATE_DIR`. -/
def PIN_STATE_DIR : CStr := "gpio_states".toList

/-- Constant `MAX_PATH` of the Windows headers. -/
def MAX_PATH : Nat := 260

/-- The path `snprintf` builds for the state file of a pin. -/
def acFilePath (pcPinName : CStr) : CStr :=
  (PIN_STATE_DIR ++ "\\".toList ++ pcPinName ++ ".txt".toList).take (MAX_PATH - 1)

/-- Function `psFindPin` from index `i` on. -/
def psFindPinFrom (pcPinName : CStr) : List sPinState_t → Nat → Option Nat
  | [], _ => none
  | p :: ps, i => if p.acPinName = pcPinName then some i else psFindPinFrom pcPinName ps (i + 1)

/-- Function `psFindPin`: the index of the found pin, `none` for NULL. -/
def psFindPin (st : WinState) (pcPinName : CStr) : Option Nat :=
  psFindPinFrom pcPinName st.g_psPins 0

/-- A `printf` of the already formatted text `s`. -/
def printfWin (s : List Char) (st : WinState) : WinState :=
  { st with out := st.out ++ s }

/-- Function `vWritePinStateToFile`: when the file can be opened for writing
its content becomes the digit, otherwise nothing happens. -/
def vWritePinStateToFile (pcPinName : CStr) (bValue : Bool) (st : WinState) : WinState :=
  if st.fopenW (acFilePath pcPinName) then
    { st with files := (acFilePath pcPinName, fmtInt (if bValue then 1 else 0)) :: st.files }
  else st

/-- Function `bReadPinStateFromFile`: false when the file does not exist or
does not start with an integer. -/
def bReadPinStateFromFile (pcPinName : CStr) (st : WinState) : Bool :=
  match st.files.lookup (acFilePath pcPinName) with
  | some content =>
    match scanIntPc content with
    | some iValue => decide (iValue ≠ 0)
    | none => false
  | none => false

/-- Function `eGpioWindowsConfigure`; `none` is a NULL descriptor or a NULL
name in it.  A pin that is not stored yet takes the next entry of the
zero-initialised table, its name cut to 31 characters. -/
def eGpioWindowsConfigure (psConfig : Option sGpioConfig_t) (st : WinState) :
    eRetType_t × WinState :=
  match psConfig with
  | none => (RET_TYPE_NULL_POINTER, st)
  | some cfg =>
    match cfg.pcPinName with
    | none => (RET_TYPE_NULL_POINTER, st)
    | some name =>
      if !st.g_bInitialized then (RET_TYPE_NOT_INITIALIZED, st)
      else
        let slot : Option (Nat × List sPinState_t) :=
          match psFindPin st name with
          | some i => some (i, st.g_psPins)
          | none =>
            if st.g_psPins.length ≥ MAX_PINS then none
            else
              some (st.g_psPins.length,
                st.g_psPins ++
                  [{ acPinName := name.take (MAX_PIN_NAME_LEN - 1), bConfigured := false,
                     eDirection := GPIO_DIR_INPUT, ePull := GPIO_PULL_NONE, bValue := false }])
        match slot with
        | none => (RET_TYPE_FAIL, st)
        | some (i, pins) =>
          let pins1 := pins.modify
            (fun p => { p with bConfigured := true, eDirection := cfg.eDirection,
                               ePull := cfg.ePull }) i
          let st1 : WinState := { st with g_psPins := pins1 }
          let st2 : WinState :=
            if cfg.eDirection = GPIO_DIR_OUTPUT then
              vWritePinStateToFile name false
                { st1 with g_psPins := st1.g_psPins.modify (fun p => { p with bValue := false }) i }
            else st1
          (RET_TYPE_SUCCESS,
            { st2 with out := st2.out ++ "[GPIO] Pin \x27".toList ++ name ++
                "\x27 configured as ".toList ++
                (if cfg.eDirection = GPIO_DIR_INPUT then "INPUT".toList else "OUTPUT".toList) ++
                " with pull ".toList ++ fmtNat cfg.ePull.toNat ++ "\n".toList })

/-- Function `eGpioWindowsRead`; `none` is a NULL name or a NULL output
pointer, the output cell is passed as its content and returned after the
call. -/
def eGpioWindowsRead (pcPinName : Option CStr) (pbValue : Option Bool) (st : WinState) :
    eRetType_t × Option Bool × WinState :=
  match pcPinName, pbValue with
  | none, _ => (RET_TYPE_NULL_POINTER, pbValue, st)
  | _, none => (RET_TYPE_NULL_POINTER, pbValue, st)
  | some name, some _ =>
    if !st.g_bInitialized then (RET_TYPE_NOT_INITIALIZED, pbValue, st)
    else
      match psFindPin st name with
      | none => (RET_TYPE_NOT_FOUND, pbValue, st)
      | some i =>
        match st.g_psPins.get? i with
        | none => (RET_TYPE_NOT_FOUND, pbValue, st)
        | some psPin =>
          if !psPin.bConfigured then (RET_TYPE_NOT_FOUND, pbValue, st)
          else if psPin.eDirection ≠ GPIO_DIR_INPUT then (RET_TYPE_INVALID_STATE, pbValue, st)
          else
            let pins1 := st.g_psPins.modify
              (fun p => { p with bValue := bReadPinStateFromFile name st }) i
            (RET_TYPE_SUCCESS, some (bReadPinStateFromFile name st), { st with g_psPins := pins1 })

/-- Function `eGpioWindowsWrite`; `none` is a NULL name. -/
def eGpioWindowsWrite (pcPinName : Option CStr) (bValue : Bool) (st : WinState) :
    eRetType_t × WinState :=
  match pcPinName with
  | none => (RET_TYPE_NULL_POINTER, st)
  | some name =>
    if !st.g_bInitialized then (RET_TYPE_NOT_INITIALIZED, st)
    else
      match psFindPin st name with
      | none => (RET_TYPE_NOT_FOUND, st)
      | some i =>
        match st.g_psPins.get? i with
        | none => (RET_TYPE_NOT_FOUND, st)
        | some psPin =>
          if !psPin.bConfigured then (RET_TYPE_NOT_FOUND, st)
          else if psPin.eDirection ≠ GPIO_DIR_OUTPUT then (RET_TYPE_INVALID_STATE, st)
          else
            let pins1 := st.g_psPins.modify (fun p => { p with bValue := bValue }) i
            (RET_TYPE_SUCCESS, vWritePinStateToFile name bValue { st with g_psPins := pins1 })

/-- Body of the loop of `vGpioWindowsInit` for one table entry; the second
component is `u8ConfiguredCount`. -/
def winInitPin (acc : WinState × Nat) (cfg : sGpioPinConfig_t) : WinState × Nat :=
  let r := eGpioWindowsConfigure
    (some { pcPinName := some cfg.pcPinName, eDirection := cfg.eDirection, ePull := cfg.ePull })
    acc.1
  if r.1 = RET_TYPE_SUCCESS then
    ({ r.2 with out := r.2.out ++ "[GPIO Windows] [OK] ".toList ++ cfg.pcPinName ++
        " configured (".toList ++
        (if cfg.eDirection = GPIO_DIR_OUTPUT then "OUTPUT".toList else "INPUT".toList) ++
        ", ".toList ++
        (if cfg.ePull = GPIO_PULL_UP then "PULL_UP".toList
         else if cfg.ePull = GPIO_PULL_DOWN then "PULL_DOWN".toList else "NONE".toList) ++
        ")\n".toList }, (acc.2 + 1) % 256)
  else
    ({ r.2 with out := r.2.out ++ "[GPIO Windows] [WARNING] Failed to configure ".toList ++
        cfg.pcPinName ++ "\n".toList }, acc.2)

/-- Function `vGpioWindowsInit` over the configuration table.  The directory
that `vCreatePinStateDir` creates shows only in whether a later
`fopen(path, "w")` succeeds, which `fopenW` tells. -/
def vGpioWindowsInit (g_psGpioPinConfigs : List sGpioPinConfig_t) (st : WinState) : WinState :=
  if st.g_bInitialized then st
  else
    let st1 : WinState :=
      { st with
        g_bInitialized := true
        out := st.out ++
          ("[GPIO Windows] Initializing Windows GPIO implementation (file-based " ++
            "simulation)...\n").toList ++
          "[GPIO Windows] Pin states stored in: ".toList ++ PIN_STATE_DIR ++
            "\\ directory\n".toList ++
          "[GPIO Windows] Configuring pins from config...\n".toList }
    let r := g_psGpioPinConfigs.foldl winInitPin (st1, 0)
    printfWin
      ("[GPIO Windows] Initialization complete. Configured ".toList ++ fmtNat r.2 ++
        " pins from config.\n".toList) r.1

/-- The Windows driver before `vGpioWindowsInit`, with no file and every file
writable. -/
def winStateInit : WinState :=
  { g_psPins := [], g_bInitialized := false, files := [], fopenW := fun _ => true, out := [] }

end Windows


/-! ## Arduino driver (`implementations/arduino/gpioPlatform_arduino.c`) -/

namespace Arduino

/-- Entry of the configuration table in the Arduino build: the generic fields
and the digital pin number. -/
structure sGpioPinConfig_t where
  pcPinName : CStr
  eDirection : eGpioDirection_t
  ePull : eGpioPull_t
  u8ArduinoPin : Nat
  deriving DecidableEq

/-- The modes of `pinMode`. -/
inductive PinMode where
  | INPUT
  | OUTPUT
  | INPUT_PULLUP
  deriving DecidableEq, Repr

/-- A call of the Arduino core that changes the hardware. -/
inductive CoreCall where
  | pinMode (uPin : Nat) (mode : PinMode)
  | digitalWrite (uPin : Nat) (bHigh : Bool)
  deriving DecidableEq

/-- The hardware as seen through the Arduino core: the calls made so far
(oldest first) and the level `digitalRead` finds on each pin (true is HIGH).
The driver has no statics of its own. -/
structure ArduinoState where
  calls : List CoreCall
  digitalRead : Nat → Bool

/-- The table of `gpio_config.c` in the Arduino build, without its sentinel. -/
def g_psGpioPinConfigs_repo : List sGpioPinConfig_t :=
  [ { pcPinName := "LED1".toList, eDirection := GPIO_DIR_OUTPUT, ePull := GPIO_PULL_NONE,
      u8ArduinoPin := 13 },
    { pcPinName := "BUTTON1".toList, eDirection := GPIO_DIR_INPUT, ePull := GPIO_PULL_UP,
      u8ArduinoPin := 2 } ]

/-- The table search of `u8ArduinoMapPinName` for a non-NULL name. -/
def mapPinNameFrom (pcPinName : CStr) : List sGpioPinConfig_t → Nat
  | [] => 255
  | c :: cs => if pcPinName = c.pcPinName then c.u8ArduinoPin else mapPinNameFrom pcPinName cs

/-- Function `u8ArduinoMapPinName`; `none` is a NULL name, 255 is 0xFF. -/
def u8ArduinoMapPinName (g_psGpioPinConfigs : List sGpioPinConfig_t)
    (pcPinName : Option CStr) : Nat :=
  match pcPinName with
  | none => 255
  | some name => mapPinNameFrom name g_psGpioPinConfigs

/-- Function `eArduinoGpioConfigure`; `none` is a NULL descriptor or a NULL
name in it. -/
def eArduinoGpioConfigure (g_psGpioPinConfigs : List sGpioPinConfig_t)
    (psConfig : Option sGpioConfig_t) (st : ArduinoState) : eRetType_t × ArduinoState :=
  match psConfig with
  | none => (RET_TYPE_FAIL, st)
  | some cfg =>
    match cfg.pcPinName with
    | none => (RET_TYPE_FAIL, st)
    | some name =>
      let uPin := u8ArduinoMapPinName g_psGpioPinConfigs (some name)
      if uPin = 255 then (RET_TYPE_FAIL, st)
      else
        let mode :=
          if cfg.eDirection = GPIO_DIR_OUTPUT then PinMode.OUTPUT
          else if cfg.ePull = GPIO_PULL_UP then PinMode.INPUT_PULLUP
          else PinMode.INPUT
        (RET_TYPE_SUCCESS, { st with calls := st.calls ++ [CoreCall.pinMode uPin mode] })

/-- Function `eArduinoGpioRead`; `none` is a NULL name or a NULL output
pointer, the output cell is passed as its content and returned after the
call. -/
def eArduinoGpioRead (g_psGpioPinConfigs : List sGpioPinConfig_t)
    (pcPinName : Option CStr) (pbValue : Option Bool) (st : ArduinoState) :
    eRetType_t × Option Bool × ArduinoState :=
  match pcPinName, pbValue with
  | none, _ => (RET_TYPE_FAIL, pbValue, st)
  | _, none => (RET_TYPE_FAIL, pbValue, st)
  | some name, some _ =>
    let uPin := u8ArduinoMapPinName g_psGpioPinConfigs (some name)
    if uPin = 255 then (RET_TYPE_FAIL, pbValue, st)
    else (RET_TYPE_SUCCESS, some (st.digitalRead uPin), st)

/-- Function `eArduinoGpioWrite`; `none` is a NULL name. -/
def eArduinoGpioWrite (g_psGpioPinConfigs : List sGpioPinConfig_t)
    (pcPinName : Option CStr) (bValue : Bool) (st : ArduinoState) :
    eRetType_t × ArduinoState :=
  match pcPinName with
  | none => (RET_TYPE_FAIL, st)
  | some name =>
    let uPin := u8ArduinoMapPinName g_psGpioPinConfigs (some name)
    if uPin = 255 then (RET_TYPE_FAIL, st)
    else (RET_TYPE_SUCCESS, { st with calls := st.calls ++ [CoreCall.digitalWrite uPin bValue] })

/-- The hardware before any call, every pin reading LOW. -/
def arduinoStateInit : ArduinoState :=
  { calls := [], digitalRead := fun _ => false }

end Arduino


/-- The fields of a stored pin that are written by `vGpioAVRInit` only: name,
configured flag, the three register pointers, mask, direction and pull. -/
def pinStatic (p : sPinState_t) :
    CStr × Bool × AvrReg × AvrReg × AvrReg × Nat × eGpioDirection_t × eGpioPull_t :=
  (p.acPinName, p.bConfigured, p.pu8DdrReg, p.pu8PortReg, p.pu8PinReg, p.u8PinMask,
    p.eDirection, p.ePull)

/-- The driver state after the events `ops` from power-up over the register
file `regs`; `vGpioAVRInit` runs when `AvrOp.init` is one of the events. -/
def avrFromPowerUp (env : Env) (regs : AvrReg → Nat) (ops : List AvrOp) : AvrState :=
  avrRun env ops (avrStateInit regs)


/-- Tables that list the 31-character name `A..A` twice (pull-up on bit 1 and
pull-down on bit 2 of port B, both inputs) after an output `A..AY` whose
32-character name is stored cut to the same 31 characters (bit 0 of port B). -/
def envCollideTwice : Env :=
  { g_psGpioPinConfigs :=
      [ { pcPinName := List.replicate 31 'A' ++ ['Y'], eDirection := GPIO_DIR_OUTPUT,
          ePull := GPIO_PULL_NONE, u8AvrPort := 1, u8AvrPin := 0 },
        { pcPinName := List.replicate 31 'A', eDirection := GPIO_DIR_INPUT,
          ePull := GPIO_PULL_UP, u8AvrPort := 1, u8AvrPin := 1 },
        { pcPinName := List.replicate 31 'A', eDirection := GPIO_DIR_INPUT,
          ePull := GPIO_PULL_DOWN, u8AvrPort := 1, u8AvrPin := 2 } ]
    g_apcMcpPinNames := [some (List.replicate 31 'A')]
    g_u32McpPinCount := 1
    chip := { hasDDRA := false, hasDDRE := false, hasDDRF := false } }

/-- Tables with 34 entries: 32 inputs named `A`, then the name `B` listed
twice (an output and an input); neither `B` is stored. -/
def envManyTwice : Env :=
  { g_psGpioPinConfigs :=
      List.replicate 32
        { pcPinName := ['A'], eDirection := GPIO_DIR_INPUT, ePull := GPIO_PULL_NONE,
          u8AvrPort := 1, u8AvrPin := 0 } ++
      [ { pcPinName := ['B'], eDirection := GPIO_DIR_OUTPUT, ePull := GPIO_PULL_NONE,
          u8AvrPort := 1, u8AvrPin := 1 },
        { pcPinName := ['B'], eDirection := GPIO_DIR_INPUT, ePull := GPIO_PULL_UP,
          u8AvrPort := 1, u8AvrPin := 2 } ]
    g_apcMcpPinNames := [some ['A'], some ['B']]
    g_u32McpPinCount := 2
    chip := { hasDDRA := false, hasDDRE := false, hasDDRF := false } }


/-- Tables that list BUTTON1 twice after LED1: first as an input with pull-up
on bit 0 of port B, then as an input with pull-down on bit 1. -/
def envTwice : Env :=
  { g_psGpioPinConfigs :=
      [ { pcPinName := "LED1".toList, eDirection := GPIO_DIR_OUTPUT,
          ePull := GPIO_PULL_NONE, u8AvrPort := 1, u8AvrPin := 5 },
        { pcPinName := "BUTTON1".toList, eDirection := GPIO_DIR_INPUT,
          ePull := GPIO_PULL_UP, u8AvrPort := 1, u8AvrPin := 0 },
        { pcPinName := "BUTTON1".toList, eDirection := GPIO_DIR_INPUT,
          ePull := GPIO_PULL_DOWN, u8AvrPort := 1, u8AvrPin := 1 } ]
    g_apcMcpPinNames := [some "LED1".toList, some "BUTTON1".toList]
    g_u32McpPinCount := 2
    chip := { hasDDRA := false, hasDDRE := false, hasDDRF := false } }


/-- The write into the accumulator `acRxBuffer` that `ISR(USART_RX_vect)`
performs for the received byte `c` in state `s`: the index written and the
character stored there, `none` when the handler writes no accumulator cell
(a terminator at index 0, or a data byte when the accumulator is full). -/
def isrAccWrite (c : Char) (s : UartRx) : Option (Nat × Char) :=
  if c = '\n' ∨ c = '\r' then
    if s.u8RxIndex > 0 then some (s.u8RxIndex, NUL) else none
  else
    if s.u8RxIndex < RX_BUFFER_SIZE - 1 then some (s.u8RxIndex, c) else none


/-- The number of memory cells the copy loop of `vParseAndApplyInput` reads,
counted from `pcPinLoc` on, when entered with `i` characters copied.  The
condition `*pcPinLoc != '"' && i < 31` reads the cell before it tests `i`, so
every round, the last one included, reads one cell. -/
def parsePinNameReads : List Char → Nat → Nat
  | [], _ => 0
  | c :: cs, i => if c ≠ DQUOTE ∧ i < 31 then parsePinNameReads cs (i + 1) + 1 else 1

/-- A line with both keys whose pin name is not closed by a double quote:
`{"v":1,"p":"AB` (14 characters; the name starts at offset 12). -/
def lineUnclosed : CStr := "\x7b\"v\":1,\"p\":\"AB".toList

/-- A line of 122 characters with both keys whose unclosed pin name starts at
offset 120: `{"v":1,`, 108 blanks, `"p":"AB`. -/
def lineUnclosedLate : CStr :=
  "\x7b\"v\":1,".toList ++ List.replicate 108 ' ' ++ "\"p\":\"AB".toList


/-! ## The dispatcher with the receive interrupt running inside it -/

/-- The part of `vMcpHandleLine` after its first loop, run with the length
`iToolLen` that the loop computed, over the cells of the line array as they
are at that time: `memcpy` of `iToolLen` cells into `acTool` and its NUL, the
skip of blanks from cell `iToolLen` on, `strncpy` of the rest into `acParams`,
the registry scan and the call of the handler. -/
def vMcpHandleLineAfterScan (env : Env) (iToolLen : Nat) (cells : List Char)
    (w : World) : World :=
  if iToolLen = 0 then w
  else
    let acTool := cstrOf (cells.take iToolLen)
    let acParams := (cstrOf ((cells.drop iToolLen).dropWhile (fun c => c = ' '))).take 95
    match mcpLookup acTool (g_asMcpRegistry env) with
    | some pfHandler => pfHandler acParams w
    | none => printf ("ERR unknown tool ".toList ++ acTool ++ "\n".toList) w

/-- One call of `bUartDispatchPendingLine` on the target, where nothing masks
the receive interrupt, in which the interrupt runs for each byte of `bytes`
after the first loop of `vMcpHandleLine` has computed the tool length and
before `memcpy` reads the line again (for an empty line or a line handed to
the override parser the bytes are taken after the call).  The flag test, the
flag reset and the tests of the first character of `vOnUartLineReceived` come
before. -/
def bUartDispatchPendingLineInterrupted (env : Env) (bytes : List Char) (s : UartRx)
    (w : World) : Bool × UartRx × World :=
  if s.u8LineReady = 0 then (false, rxBytes bytes s, w)
  else
    match s.acPendingLine with
    | [] => (true, rxBytes bytes { s with u8LineReady := 0 }, w)
    | c :: _ =>
      if c = NUL then (true, rxBytes bytes { s with u8LineReady := 0 }, w)
      else if c = Char.ofNat 123 then
        (true, rxBytes bytes { s with u8LineReady := 0 },
          vApplyReceivedJsonLine s.acPendingLine w)
      else
        (true, rxBytes bytes { s with u8LineReady := 0 },
          vMcpHandleLineAfterScan env (scanToolLen (cstrOf s.acPendingLine) 0)
            (rxBytes bytes { s with u8LineReady := 0 }).acPendingLine w)


/-! ## Logging library (`logging_driver/logLib.h`, `logLib.c`) -/

/-- Log level enumeration `eLogLevel_t`. -/
inductive eLogLevel_t where
  | LOG_LEVEL_NONE
  | LOG_LEVEL_ERROR
  | LOG_LEVEL_WARNING
  | LOG_LEVEL_INFO
  | LOG_LEVEL_DEBUG
  | LOG_LEVEL_TRACE
  deriving DecidableEq, Repr

open eLogLevel_t

/-- Numeric value of a log level. -/
def eLogLevel_t.toNat : eLogLevel_t → Nat
  | LOG_LEVEL_NONE => 0
  | LOG_LEVEL_ERROR => 1
  | LOG_LEVEL_WARNING => 2
  | LOG_LEVEL_INFO => 3
  | LOG_LEVEL_DEBUG => 4
  | LOG_LEVEL_TRACE => 5

/-- Log output mode `eLogMode_t`. -/
inductive eLogMode_t where
  | LOG_MODE_CONSOLE
  | LOG_MODE_FILE
  | LOG_MODE_HTTP
  deriving DecidableEq, Repr

open eLogMode_t

/-- Logging configuration `sLogConfig_t`; `none` is a NULL string. -/
structure sLogConfig_t where
  eLevel : eLogLevel_t
  eMode : eLogMode_t
  pcFilePath : Option CStr
  pcHttpEndpoint : Option CStr
  pcBuildVersion : Option CStr
  bThreadSafe : Bool
  deriving DecidableEq

/-- Logging platform interface `sLogInterface_t`: which of the three function
pointers are not NULL.  What the platform functions do is recorded as a
`LogEvent`. -/
structure sLogInterface_t where
  vHalLogInitFunc : Bool
  vHalLogOutputFunc : Bool
  vHalLogCleanupFunc : Bool
  deriving DecidableEq

/-- What leaves the logging library: a call of the platform's output or
cleanup function, a line written to `stderr` or to the log file
(`fprintf(.., "%s\n", pcMessage)`), the log file being closed, a command
handed to `system`. -/
inductive LogEvent where
  | platformOutput (pcMessage : CStr)
  | platformCleanup
  | stderrLine (pcMessage : CStr)
  | fileLine (acPath : CStr) (pcMessage : CStr)
  | fileClose
  | shell (acCommand : CStr)
  deriving DecidableEq

/-- The static variables of `logLib.c` and the record of what has left the
library so far (oldest first).  `g_psLogFile` tells whether the file pointer
is not NULL.  The mutex has no content in a single thread of control. -/
structure LogState where
  g_eCurrentLogLevel : eLogLevel_t
  g_eLogMode : eLogMode_t
  g_psLogFile : Bool
  g_acLogFilePath : CStr
  g_acHttpEndpoint : CStr
  g_acBuildVersion : CStr
  g_bInitialized : Bool
  g_bThreadSafe : Bool
  g_psLogInterface : Option sLogInterface_t
  events : List LogEvent
  deriving DecidableEq

/-- The static variables at program start (their initialisers). -/
def logStateInit : LogState :=
  { g_eCurrentLogLevel := LOG_LEVEL_INFO
    g_eLogMode := LOG_MODE_CONSOLE
    g_psLogFile := false
    g_acLogFilePath := "app.log".toList
    g_acHttpEndpoint := "http://localhost:8080/log".toList
    g_acBuildVersion := "unknown".toList
    g_bInitialized := false
    g_bThreadSafe := false
    g_psLogInterface := none
    events := [] }

/-- What the build and the file system decide: whether `PLATFORM_AVR` is
defined, and whether `fopen(path, "a")` succeeds. -/
structure LogBuild where
  PLATFORM_AVR : Bool
  fopenAppend : CStr → Bool

/-- The test `g_psLogInterface != NULL && g_psLogInterface->vHalLogOutputFunc
!= NULL` of the three output functions. -/
def logHasPlatformOutput (st : LogState) : Bool :=
  match st.g_psLogInterface with
  | some psInterface => psInterface.vHalLogOutputFunc
  | none => false

/-- A record appended to what has left the library. -/
def logEmit (e : LogEvent) (st : LogState) : LogState :=
  { st with events := st.events ++ [e] }

/-- Function `vOutputToConsole`. -/
def vOutputToConsole (pcMessage : CStr) (st : LogState) : LogState :=
  if logHasPlatformOutput st then logEmit (LogEvent.platformOutput pcMessage) st
  else logEmit (LogEvent.stderrLine pcMessage) st

/-- Function `vOutputToFile`. -/
def vOutputToFile (b : LogBuild) (pcMessage : CStr) (st : LogState) : LogState :=
  if !b.PLATFORM_AVR then
    if logHasPlatformOutput st then logEmit (LogEvent.platformOutput pcMessage) st
    else if !st.g_psLogFile then
      if b.fopenAppend st.g_acLogFilePath then
        logEmit (LogEvent.fileLine st.g_acLogFilePath pcMessage) { st with g_psLogFile := true }
      else vOutputToConsole pcMessage st
    else logEmit (LogEvent.fileLine st.g_acLogFilePath pcMessage) st
  else
    if logHasPlatformOutput st then logEmit (LogEvent.platformOutput pcMessage) st
    else st

/-- The loop of `vOutputToHttp` that escapes the message for the shell, with
`u32EscapedIdx` characters written so far: a single quote becomes the four
characters quote, backslash, quote, quote. -/
def shellEscape : CStr → Nat → CStr
  | [], _ => []
  | c :: cs, u32EscapedIdx =>
    if u32EscapedIdx < 2047 then
      if c = Char.ofNat 39 then
        [Char.ofNat 39, Char.ofNat 92, Char.ofNat 39, Char.ofNat 39] ++
          shellEscape cs (u32EscapedIdx + 4)
      else c :: shellEscape cs (u32EscapedIdx + 1)
    else []

/-- Function `vOutputToHttp`. -/
def vOutputToHttp (pcMessage : CStr) (st : LogState) : LogState :=
  if logHasPlatformOutput st then logEmit (LogEvent.platformOutput pcMessage) st
  else
    logEmit (LogEvent.shell
      (("curl -s -X POST -H \"Content-Type: application/json\" -d \x27\x7b\"log\":\"".toList ++
        shellEscape pcMessage 0 ++ "\"\x7d\x27 ".toList ++ st.g_acHttpEndpoint ++
        " > /dev/null 2>&1".toList).take 3071)) st

/-- The `switch (g_eLogMode)` at the end of `vLogOutputInternal`: the text is
handed to the output function of the current mode. -/
def logOutputByMode (b : LogBuild) (acJsonOutput : CStr) (st : LogState) : LogState :=
  match st.g_eLogMode with
  | LOG_MODE_FILE => vOutputToFile b acJsonOutput st
  | LOG_MODE_HTTP => vOutputToHttp acJsonOutput st
  | LOG_MODE_CONSOLE => vOutputToConsole acJsonOutput st

/-- Function `eLogInit`; `none` is a NULL configuration. -/
def eLogInit (psConfig : Option sLogConfig_t) (st : LogState) : eRetType_t × LogState :=
  if st.g_bInitialized then (RET_TYPE_ALREADY_EXISTS, st)
  else
    let st1 : LogState :=
      match psConfig with
      | none => st
      | some cfg =>
        { st with
          g_eCurrentLogLevel := cfg.eLevel
          g_eLogMode := cfg.eMode
          g_bThreadSafe := cfg.bThreadSafe
          g_acLogFilePath := (cfg.pcFilePath.map (fun p => p.take 255)).getD st.g_acLogFilePath
          g_acHttpEndpoint :=
            (cfg.pcHttpEndpoint.map (fun p => p.take 511)).getD st.g_acHttpEndpoint
          g_acBuildVersion :=
            (cfg.pcBuildVersion.map (fun p => p.take 31)).getD st.g_acBuildVersion }
    (RET_TYPE_SUCCESS, { st1 with g_bInitialized := true })

/-- Function `vLogCleanup`. -/
def vLogCleanup (st : LogState) : LogState :=
  let st1 :=
    match st.g_psLogInterface with
    | some psInterface =>
      if psInterface.vHalLogCleanupFunc then logEmit LogEvent.platformCleanup st else st
    | none => st
  let st2 :=
    if st1.g_psLogFile then logEmit LogEvent.fileClose { st1 with g_psLogFile := false }
    else st1
  { st2 with g_bInitialized := false }

/-- Function `vHalRegisterLogInterface`. -/
def vHalRegisterLogInterface (psInterface : Option sLogInterface_t) (st : LogState) :
    LogState :=
  { st with g_psLogInterface := psInterface }

/-- Function `vLogSetLevel`. -/
def vLogSetLevel (eLevel : eLogLevel_t) (st : LogState) : LogState :=
  { st with g_eCurrentLogLevel := eLevel }

/-- Function `eLogGetLevel`. -/
def eLogGetLevel (st : LogState) : eLogLevel_t :=
  st.g_eCurrentLogLevel

/-- Function `vLogOutputInternal` for a message of level `eLevel` with format
string `pcFormat` (`none` is NULL).  The text built in `acJsonOutput` from the
other arguments, the clock and `g_acBuildVersion` is given by `render`,
applied to the build version. -/
def vLogOutputInternal (b : LogBuild) (eLevel : eLogLevel_t) (pcFormat : Option CStr)
    (render : CStr → CStr) (st : LogState) : LogState :=
  if eLevel.toNat > st.g_eCurrentLogLevel.toNat then st
  else if !st.g_bInitialized ∨ pcFormat = none then st
  else logOutputByMode b (render st.g_acBuildVersion) st


/-- The configuration of the example program `example_main.c`. -/
def logConfigExample : sLogConfig_t :=
  { eLevel := LOG_LEVEL_INFO
    eMode := LOG_MODE_CONSOLE
    pcFilePath := none
    pcHttpEndpoint := none
    pcBuildVersion := some "1.0.0".toList
    bThreadSafe := false }

/-- A configuration with level DEBUG and file mode. -/
def logConfigDebugFile : sLogConfig_t :=
  { eLevel := LOG_LEVEL_DEBUG
    eMode := LOG_MODE_FILE
    pcFilePath := none
    pcHttpEndpoint := none
    pcBuildVersion := none
    bThreadSafe := false }

/-- A desktop build (`PLATFORM_AVR` not defined) on which every file can be
opened. -/
def logBuildDesktop : LogBuild :=
  { PLATFORM_AVR := false, fopenAppend := fun _ => true }

/-! ## The helper on the PC build (`helpers/gpio_helper.c` linked with
`implementations/pc/platform_adapter.c`) -/

namespace Pc

/-- The driver capability table `sGpioInterface_t` on the file-simulated PC
build: the four function pointers act on the statics of the Windows driver,
which hold the text printed on `stdout`. -/
structure sGpioInterface_t where
  vHalGpioInitFunc : Option (Windows.WinState → Windows.WinState)
  eHalGpioConfigureFunc :
    Option (Option HalMcp.sGpioConfig_t → Windows.WinState → eRetType_t × Windows.WinState)
  eHalGpioReadFunc :
    Option (Option CStr → Option Bool → Windows.WinState →
      eRetType_t × Option Bool × Windows.WinState)
  eHalGpioWriteFunc :
    Option (Option CStr → Bool → Windows.WinState → eRetType_t × Windows.WinState)

/-- The program state of the PC build: the registered interface and the
driver state with the text printed so far. -/
structure World where
  g_psGpioInterface : Option sGpioInterface_t
  win : Windows.WinState

/-- The table `sGpioInterfaceWindows`, for the configuration table the driver
is linked with. -/
def sGpioInterfaceWindows (g_psGpioPinConfigs : List sGpioPinConfig_t) : sGpioInterface_t :=
  { vHalGpioInitFunc := some (Windows.vGpioWindowsInit g_psGpioPinConfigs)
    eHalGpioConfigureFunc := some Windows.eGpioWindowsConfigure
    eHalGpioReadFunc := some Windows.eGpioWindowsRead
    eHalGpioWriteFunc := some Windows.eGpioWindowsWrite }

/-- Function `vHelperSend` of the PC platform adapter: its body is empty (the
`printf` of the message is commented out). -/
def vHelperSend (_pcCmd _pcPin : CStr) (_iValue : Int) (w : World) : World :=
  w

/-- Function `eGpioHelperWrite` on the PC build. -/
def eGpioHelperWrite (pcPinName : CStr) (bValue : Bool) (w : World) : eRetType_t × World :=
  match w.g_psGpioInterface with
  | none => (RET_TYPE_FAIL, w)
  | some psGpio =>
    match psGpio.eHalGpioWriteFunc with
    | none => (RET_TYPE_FAIL, w)
    | some eHalGpioWriteFunc =>
      let r := eHalGpioWriteFunc (some pcPinName) bValue w.win
      if r.1 = RET_TYPE_SUCCESS then
        (r.1, vHelperSend "GPIO".toList pcPinName (if bValue then 1 else 0)
          { w with win := Windows.printfWin "OK\n".toList r.2 })
      else (r.1, { w with win := r.2 })

/-- Function `vGpioHelperInit` on the PC build. -/
def vGpioHelperInit (w : World) : World :=
  match w.g_psGpioInterface with
  | none => w
  | some psGpio =>
    match psGpio.vHalGpioInitFunc with
    | none => w
    | some vHalGpioInitFunc => { w with win := vHalGpioInitFunc w.win }

/-- The PC build with `PLATFORM_WINDOWS` after `vAppInit` on the repository
table: `psGetPlatformGpioInterface` returns the Windows table, which is
registered, and the helper is initialised. -/
def worldStarted : World :=
  vGpioHelperInit
    { g_psGpioInterface := some (sGpioInterfaceWindows g_psGpioPinConfigs_repo)
      win := Windows.winStateInit }

end Pc

/-! ## Theorems -/

/-! ### What the helper's two lookups return -/

theorem psFindPinFrom_bound (name : CStr) (ps : List sPinState_t) :
    ∀ (k i : Nat), psFindPinFrom name ps k = some i →
      k ≤ i ∧ ∃ p, ps.get? (i - k) = some p ∧ p.acPinName = name := by
  induction ps with
  | nil => intro k i h; simp [psFindPinFrom] at h
  | cons q qs ih =>
    intro k i h
    by_cases hq : q.acPinName = name
    · simp only [psFindPinFrom, hq, if_true, Option.some.injEq] at h
      subst h
      exact ⟨Nat.le_refl _, q, by simp, hq⟩
    · simp only [psFindPinFrom, hq, if_false] at h
      obtain ⟨hk, p, hp, hn⟩ := ih (k + 1) i h
      refine ⟨by omega, p, ?_, hn⟩
      have e : i - k = (i - (k + 1)) + 1 := by omega
      rw [e]
      simpa using hp

/-- On an initialised driver `bGpioAVRGetSimulated` returns the simulated value
stored in the pin that `psFindPin` finds. -/
theorem bGpioAVRGetSimulated_stored (name : CStr) (st : AvrState) (i : Nat)
    (p : sPinState_t) (hinit : st.g_bInitialized = true)
    (hfind : psFindPin st name = some i) (hp : st.g_psPins.get? i = some p) :
    bGpioAVRGetSimulated name st = p.bSimulatedValue := by
  have hp2 : st.g_psPins[i]? = some p := by simpa using hp
  simp [bGpioAVRGetSimulated, hinit, hfind, hp2]

/-- The pull the helper uses is that of the first table entry with the name. -/
theorem helperFindPull_first (name : CStr) (pre post : List sGpioPinConfig_t)
    (cfg : sGpioPinConfig_t) (hpre : ∀ c ∈ pre, c.pcPinName ≠ name)
    (hcfg : cfg.pcPinName = name) :
    helperFindPull name (pre ++ cfg :: post) = cfg.ePull := by
  induction pre with
  | nil => simp [helperFindPull, hcfg]
  | cons c pre ih =>
    have hc := hpre c (List.mem_cons_self _ _)
    simp only [List.cons_append, helperFindPull, hc, if_false]
    exact ih (fun d hd => hpre d (List.mem_cons_of_mem _ hd))

/-! ### C1, C2, C3: the GPIO helper -/

/-- C1: on the register-access build, when the registered driver's read
succeeds with physical sample P and S is the simulated value stored for the
pin, `eGpioHelperRead` succeeds and stores P AND S when the pin's configured
pull is up, and P OR S when it is down or none.  In particular pull-up with
P = 1 gives S (1 for S = 1, 0 for S = 0), and pull none or down with P = 0
and S = 1 gives 1. -/
theorem C1_read_reconciles (env : Env) (w : World) (name : CStr) (v0 : Bool)
    (psGpio : sGpioInterface_t)
    (rd : Option CStr → Option Bool → AvrState → eRetType_t × Option Bool × AvrState)
    (P S : Bool) (pull : eGpioPull_t) (st1 : AvrState)
    (hreg : psHalGetGpioInterface w = some psGpio)
    (hrd : psGpio.eHalGpioReadFunc = some rd)
    (hdrv : rd (some name) (some false) w.avr = (RET_TYPE_SUCCESS, some P, st1))
    (hS : bGpioAVRGetSimulated name st1 = S)
    (hpull : helperFindPull name env.g_psGpioPinConfigs = pull) :
    (eGpioHelperRead env name v0 w).1 = RET_TYPE_SUCCESS ∧
    (pull = GPIO_PULL_UP → (eGpioHelperRead env name v0 w).2.1 = (P && S)) ∧
    (pull = GPIO_PULL_DOWN ∨ pull = GPIO_PULL_NONE →
      (eGpioHelperRead env name v0 w).2.1 = (P || S)) ∧
    (pull = GPIO_PULL_UP → P = true → (eGpioHelperRead env name v0 w).2.1 = S) ∧
    (pull ≠ GPIO_PULL_UP → P = false → S = true →
      (eGpioHelperRead env name v0 w).2.1 = true) := by
  have hval : (eGpioHelperRead env name v0 w).1 = RET_TYPE_SUCCESS ∧
      (eGpioHelperRead env name v0 w).2.1 =
        (if pull = GPIO_PULL_UP then (P && S) else (P || S)) := by
    simp only [eGpioHelperRead, hreg, hrd, hdrv, hS, hpull]
    simp
  refine ⟨hval.1, ?_, ?_, ?_, ?_⟩
  · intro h; rw [hval.2, if_pos h]
  · intro h
    have hne : pull ≠ GPIO_PULL_UP := by
      rcases h with h | h <;> rw [h] <;> decide
    rw [hval.2, if_neg hne]
  · intro h hP; rw [hval.2, if_pos h, hP]; simp
  · intro h hP hSt; rw [hval.2, if_neg h, hP, hSt]; simp

/-- C1 on the AVR driver after start-up: BUTTON1 (pull-up) with the pin bit
high (P = 1) and the default simulated value (S = 1) reads 1. -/
theorem C1_read_reconciles_witness :
    (eGpioHelperRead envRepo "BUTTON1".toList false
      (vAppInit envRepo (worldPowerUp 32))).2.1 = (true && true) :=
  (C1_read_reconciles envRepo (vAppInit envRepo (worldPowerUp 32)) "BUTTON1".toList
    false (sGpioInterfaceAVR envRepo) eGpioAVRRead true true GPIO_PULL_UP
    (eGpioAVRRead (some "BUTTON1".toList) (some false)
      (vAppInit envRepo (worldPowerUp 32)).avr).2.2
    rfl rfl (Prod.ext (by decide) (Prod.ext (by decide) rfl)) (by decide)
    (by decide)).2.1 rfl

/-- C2: on the register-access build, a successful `eGpioHelperRead` prints
one synchronization message exactly when the physical sample is the active
level of the pin's pull (P = 0 for pull-up, P = 1 otherwise), whatever the
simulated value; the message carries `"v":0` for a pull-up pin and `"v":1`
otherwise; nothing else is printed. -/
theorem C2_read_sync_message (env : Env) (w : World) (name : CStr) (v0 : Bool)
    (psGpio : sGpioInterface_t)
    (rd : Option CStr → Option Bool → AvrState → eRetType_t × Option Bool × AvrState)
    (P : Bool) (st1 : AvrState)
    (hreg : psHalGetGpioInterface w = some psGpio)
    (hrd : psGpio.eHalGpioReadFunc = some rd)
    (hdrv : rd (some name) (some false) w.avr = (RET_TYPE_SUCCESS, some P, st1)) :
    (eGpioHelperRead env name v0 w).2.2.out =
      w.out ++
        (if helperFindPull name env.g_psGpioPinConfigs = GPIO_PULL_UP then
          (if P = false then
            "\x7b\"t\":\"GPIO\",\"p\":\"".toList ++ name ++ "\",\"v\":0\x7d\n".toList
           else [])
         else
          (if P = true then
            "\x7b\"t\":\"GPIO\",\"p\":\"".toList ++ name ++ "\",\"v\":1\x7d\n".toList
           else [])) := by
  simp only [eGpioHelperRead, hreg, hrd, hdrv]
  by_cases hp : helperFindPull name env.g_psGpioPinConfigs = GPIO_PULL_UP <;>
    cases P <;>
    simp [hp, vHelperSend, printf, syncMessage, fmtInt, fmtNat, Nat.toDigits,
      Nat.toDigitsCore, Nat.digitChar]

/-- C2 on the AVR driver after start-up: BUTTON1 (pull-up) with the pin bit
low prints the message with value 0. -/
theorem C2_read_sync_message_witness :
    (eGpioHelperRead envRepo "BUTTON1".toList false
      (vAppInit envRepo (worldPowerUp 0))).2.2.out =
      "\x7b\"t\":\"GPIO\",\"p\":\"BUTTON1\",\"v\":0\x7d\n".toList :=
  (C2_read_sync_message envRepo (vAppInit envRepo (worldPowerUp 0)) "BUTTON1".toList
    false (sGpioInterfaceAVR envRepo) eGpioAVRRead false
    (eGpioAVRRead (some "BUTTON1".toList) (some false)
      (vAppInit envRepo (worldPowerUp 0)).avr).2.2
    rfl rfl (Prod.ext (by decide) (Prod.ext (by decide) rfl))).trans (by decide)

set_option maxRecDepth 40000 in
/-- C3 as stated fails on the PC build, whose platform adapter has a
`vHelperSend` with an empty body: with the file-simulated driver registered
and initialised on the repository table, `eGpioHelperWrite("LED1", true)`
returns RET_TYPE_SUCCESS (the driver stores the value) and all it prints is
the line `OK`; no synchronization message is emitted. -/
theorem C3_counterexample :
    (Pc.eGpioHelperWrite "LED1".toList true Pc.worldStarted).1 = RET_TYPE_SUCCESS ∧
    (Pc.eGpioHelperWrite "LED1".toList true Pc.worldStarted).2.win.g_psPins.map
      (fun p => (p.acPinName, p.bValue)) =
      [("LED1".toList, true), ("BUTTON1".toList, false)] ∧
    (Pc.eGpioHelperWrite "LED1".toList true Pc.worldStarted).2.win.out.drop
      Pc.worldStarted.win.out.length = "OK\n".toList := by
  refine ⟨by decide, by decide, by decide⟩

/-- C3 (amended): with a registered driver that has a write operation,
`eGpioHelperWrite` returns exactly the code of the driver write, in the AVR
build and in the PC build, and when the driver fails it prints nothing.  In
the AVR build, when the code is RET_TYPE_SUCCESS it prints `OK` and then the
synchronization message with the value as 0 or 1, so the synchronization
message is emitted if and only if the code is RET_TYPE_SUCCESS.  In the PC
build a successful write prints the line `OK` only. -/
theorem C3_write_forwards_and_syncs (w : World) (name : CStr) (v : Bool)
    (psGpio : sGpioInterface_t)
    (wr : Option CStr → Bool → AvrState → eRetType_t × AvrState)
    (code : eRetType_t) (st1 : AvrState)
    (hreg : psHalGetGpioInterface w = some psGpio)
    (hwr : psGpio.eHalGpioWriteFunc = some wr)
    (hdrv : wr (some name) v w.avr = (code, st1)) :
    (eGpioHelperWrite name v w).1 = code ∧
    (eGpioHelperWrite name v w).2.avr = st1 ∧
    (code = RET_TYPE_SUCCESS →
      (eGpioHelperWrite name v w).2.out = w.out ++ "OK\n".toList ++
        ("\x7b\"t\":\"GPIO\",\"p\":\"".toList ++ name ++ "\",\"v\":".toList ++
          (if v then ['1'] else ['0']) ++ "\x7d\n".toList)) ∧
    (code ≠ RET_TYPE_SUCCESS → (eGpioHelperWrite name v w).2.out = w.out) ∧
    (List.IsInfix
        ("\x7b\"t\":\"GPIO\",\"p\":\"".toList ++ name ++ "\",\"v\":".toList ++
          (if v then ['1'] else ['0']) ++ "\x7d\n".toList)
        ((eGpioHelperWrite name v w).2.out.drop w.out.length) ↔
      code = RET_TYPE_SUCCESS) ∧
    (∀ (pw : Pc.World) (pg : Pc.sGpioInterface_t)
        (pwr : Option CStr → Bool → Windows.WinState → eRetType_t × Windows.WinState)
        (pcode : eRetType_t) (pst1 : Windows.WinState),
      pw.g_psGpioInterface = some pg → pg.eHalGpioWriteFunc = some pwr →
      pwr (some name) v pw.win = (pcode, pst1) →
      (Pc.eGpioHelperWrite name v pw).1 = pcode ∧
      (pcode ≠ RET_TYPE_SUCCESS → (Pc.eGpioHelperWrite name v pw).2.win = pst1) ∧
      (pcode = RET_TYPE_SUCCESS →
        (Pc.eGpioHelperWrite name v pw).2.win = Windows.printfWin "OK\n".toList pst1)) := by
  have hsucc : code = RET_TYPE_SUCCESS →
      (eGpioHelperWrite name v w).2.out = w.out ++ "OK\n".toList ++
        ("\x7b\"t\":\"GPIO\",\"p\":\"".toList ++ name ++ "\",\"v\":".toList ++
          (if v then ['1'] else ['0']) ++ "\x7d\n".toList) := by
    intro hc
    simp only [eGpioHelperWrite, hreg, hwr, hdrv, hc]
    cases v <;>
      simp [vHelperSend, printf, syncMessage, fmtInt, fmtNat, Nat.toDigits,
        Nat.toDigitsCore, Nat.digitChar]
  have hfail : code ≠ RET_TYPE_SUCCESS → (eGpioHelperWrite name v w).2.out = w.out := by
    intro hc
    simp [eGpioHelperWrite, hreg, hwr, hdrv, hc]
  refine ⟨?_, ?_, hsucc, hfail, ?_, ?_⟩
  · simp only [eGpioHelperWrite, hreg, hwr, hdrv]
    split <;> rfl
  · simp only [eGpioHelperWrite, hreg, hwr, hdrv]
    split <;> simp [vHelperSend, printf]
  · constructor
    · intro hin
      by_contra hc
      rw [hfail hc] at hin
      simp at hin
    · intro hc
      rw [hsucc hc]
      simp only [List.append_assoc, List.drop_left]
      exact ⟨"OK\n".toList, [], by simp⟩
  · intro pw pg pwr pcode pst1 hpreg hpwr hpdrv
    refine ⟨?_, ?_, ?_⟩
    · simp only [Pc.eGpioHelperWrite, hpreg, hpwr, hpdrv]
      split <;> rfl
    · intro hc
      simp [Pc.eGpioHelperWrite, hpreg, hpwr, hpdrv, hc]
    · intro hc
      simp [Pc.eGpioHelperWrite, hpreg, hpwr, hpdrv, hc, Pc.vHelperSend]

/-- C3 (amended) on the AVR driver after start-up: writing 1 to LED1 succeeds
and prints `OK` followed by the synchronization message. -/
theorem C3_write_forwards_and_syncs_witness :
    (eGpioHelperWrite "LED1".toList true (vAppInit envRepo (worldPowerUp 0))).1 =
      RET_TYPE_SUCCESS ∧
    (eGpioHelperWrite "LED1".toList true (vAppInit envRepo (worldPowerUp 0))).2.out =
      "OK\n\x7b\"t\":\"GPIO\",\"p\":\"LED1\",\"v\":1\x7d\n".toList :=
  have h := C3_write_forwards_and_syncs (vAppInit envRepo (worldPowerUp 0))
    "LED1".toList true (sGpioInterfaceAVR envRepo) eGpioAVRWrite RET_TYPE_SUCCESS
    (eGpioAVRWrite (some "LED1".toList) true (vAppInit envRepo (worldPowerUp 0)).avr).2
    rfl rfl (Prod.ext (by decide) rfl)
  ⟨h.1, (h.2.2.1 rfl).trans (by decide)⟩

/-! ### C8, C9: tokenization and unknown tools -/

theorem scanToolLen_eq (l : CStr) :
    ∀ i : Nat, i ≤ 31 → scanToolLen l i = i + min (31 - i) (firstWord l).length := by
  induction l with
  | nil => intro i _; simp [scanToolLen, firstWord]
  | cons c cs ih =>
    intro i hi
    by_cases hc : c = ' '
    · simp [scanToolLen, firstWord, hc]
    · by_cases h31 : i < 31
      · simp only [scanToolLen, firstWord, hc, h31, if_false, and_self, if_true,
          ne_eq, not_false_eq_true, List.length_cons]
        rw [ih (i + 1) (by omega)]
        omega
      · have : i = 31 := by omega
        simp [scanToolLen, firstWord, hc, this]

theorem scanToolLen_zero (l : CStr) :
    scanToolLen l 0 = min 31 (firstWord l).length := by
  rw [scanToolLen_eq l 0 (by omega)]; simp

theorem firstWord_split (l : CStr) :
    ∃ r, l = firstWord l ++ r ∧
      ((firstWord l).length ≤ 31 →
        (r.dropWhile (fun c => c = ' ') =
          (afterFirstSpace l).dropWhile (fun c => c = ' '))) := by
  induction l with
  | nil => exact ⟨[], by simp [firstWord], by simp [afterFirstSpace]⟩
  | cons c cs ih =>
    by_cases hc : c = ' '
    · refine ⟨c :: cs, by simp [firstWord, hc], ?_⟩
      intro _
      simp [afterFirstSpace, hc, List.dropWhile]
    · obtain ⟨r, hr, hd⟩ := ih
      refine ⟨r, ?_, ?_⟩
      · simp only [firstWord, hc, if_false, List.cons_append]
        rw [← hr]
      · intro hlen
        simp only [firstWord, hc, if_false, List.length_cons] at hlen
        simp only [afterFirstSpace, hc, if_false]
        exact hd (by omega)

/-- The tool name is the first word cut to 31 characters; the parameter
string is the text after the first space when the first word has at most 31
characters. -/
theorem mcp_tokenization (l : CStr) :
    mcpTool l = specTool l ∧
    ((firstWord l).length ≤ 31 → mcpParams l = specParams l) := by
  obtain ⟨r, hr, hd⟩ := firstWord_split l
  constructor
  · rw [mcpTool, specTool, scanToolLen_zero]
    by_cases h : (firstWord l).length ≤ 31
    · have e : List.take (firstWord l).length l =
          List.take (firstWord l).length (firstWord l ++ r) := by rw [← hr]
      rw [Nat.min_eq_right h, e, List.take_left, List.take_of_length_le h]
    · have h2 : 31 ≤ (firstWord l).length := by omega
      have e : List.take 31 l = List.take 31 (firstWord l ++ r) := by rw [← hr]
      rw [Nat.min_eq_left h2, e, List.take_append_of_le_length h2]
  · intro h
    have e : List.drop (firstWord l).length l =
        List.drop (firstWord l).length (firstWord l ++ r) := by rw [← hr]
    rw [mcpParams, specParams, scanToolLen_zero, Nat.min_eq_right h, e,
      List.drop_left, hd h]

/-- The content of the local array `acParams` for the line made of a first
word of 32 letters `a`, a space and `x`: it starts with the 32nd letter of the
first word.  For such a line no handler is looked up successfully, so the
array is never read. -/
theorem mcpParams_overlong_word :
    mcpTool (List.replicate 32 'a' ++ " x".toList) = List.replicate 31 'a' ∧
    mcpParams (List.replicate 32 'a' ++ " x".toList) = "a x".toList ∧
    specParams (List.replicate 32 'a' ++ " x".toList) = "x".toList := by
  decide

theorem mcpLookup_registry_none (env : Env) (T : CStr)
    (h1 : T ≠ "gpio_write".toList) (h2 : T ≠ "gpio_read".toList) :
    (mcpLookup T (g_asMcpRegistry env)).isNone = true := by
  simp only [mcpLookup, g_asMcpRegistry, if_neg h1, if_neg h2]
  rfl

theorem scanToolLen_pos (c : Char) (cs : CStr) (hc : c ≠ ' ') :
    scanToolLen (c :: cs) 0 ≠ 0 := by
  rw [scanToolLen_zero]
  simp [firstWord, hc]

/-- C8: for every non-empty line that does not start with a space, the tool
name `vMcpHandleLine` looks up is the text before the first space cut to its
first 31 characters, and the line is handled exactly as if the parameter
string were the text that follows the first space (leading spaces skipped) cut
to its first 95 characters: the handler found for the tool name is called with
that string, and when none is found the line `ERR unknown tool` with the cut
tool name is printed.  The array `acParams` holds that string whenever the
first word has at most 31 characters; a longer first word is cut to 31
characters, never equals a registry name, and is answered by
`ERR unknown tool` with its first 31 characters, without `acParams` being
read. -/
theorem C8_tokenization (env : Env) (w : World) (c : Char) (cs : CStr) (hc : c ≠ ' ') :
    mcpTool (c :: cs) = specTool (c :: cs) ∧
    ((firstWord (c :: cs)).length ≤ 31 → mcpParams (c :: cs) = specParams (c :: cs)) ∧
    vMcpHandleLine env (c :: cs) w =
      (match mcpLookup (specTool (c :: cs)) (g_asMcpRegistry env) with
        | some pfHandler => pfHandler (specParams (c :: cs)) w
        | none =>
          printf ("ERR unknown tool ".toList ++ specTool (c :: cs) ++ "\n".toList) w) ∧
    (31 < (firstWord (c :: cs)).length →
      vMcpHandleLine env (c :: cs) w =
        printf ("ERR unknown tool ".toList ++ (c :: cs).take 31 ++ "\n".toList) w) := by
  obtain ⟨htok, hpar⟩ := mcp_tokenization (c :: cs)
  have hpos := scanToolLen_pos c cs hc
  have hlong : 31 < (firstWord (c :: cs)).length →
      mcpLookup (specTool (c :: cs)) (g_asMcpRegistry env) = none ∧
      specTool (c :: cs) = (c :: cs).take 31 := by
    intro h31
    have hl : (specTool (c :: cs)).length = 31 := by
      simp only [specTool, List.length_take]
      omega
    have h1 : specTool (c :: cs) ≠ "gpio_write".toList := by
      intro e
      rw [e] at hl
      exact absurd hl (by decide)
    have h2 : specTool (c :: cs) ≠ "gpio_read".toList := by
      intro e
      rw [e] at hl
      exact absurd hl (by decide)
    have hnone := mcpLookup_registry_none env (specTool (c :: cs)) h1 h2
    constructor
    · cases h : mcpLookup (specTool (c :: cs)) (g_asMcpRegistry env) with
      | none => rfl
      | some f => rw [h] at hnone; simp at hnone
    · obtain ⟨r, hr, _⟩ := firstWord_split (c :: cs)
      have e : List.take 31 (c :: cs) = List.take 31 (firstWord (c :: cs) ++ r) := by
        rw [← hr]
      rw [specTool, e, List.take_append_of_le_length (by omega)]
  refine ⟨htok, hpar, ?_, ?_⟩
  · by_cases hlen : (firstWord (c :: cs)).length ≤ 31
    · simp only [vMcpHandleLine, hpos, if_false, htok, hpar hlen]
      simp
    · obtain ⟨hnone, _⟩ := hlong (by omega)
      simp only [vMcpHandleLine, hpos, if_false, htok, hnone]
      simp
  · intro h31
    obtain ⟨hnone, htake⟩ := hlong h31
    simp only [vMcpHandleLine, hpos, if_false, htok, hnone]
    rw [htake]
    simp

/-- C8 at two lines after start-up: a first word of 32 letters `a` is cut to
31 letters and answered by `ERR unknown tool`; and for `gpio_write  LED1 1`
(two spaces) the parameter string is `LED1 1`. -/
theorem C8_tokenization_witness :
    (vMcpHandleLine envRepo ('a' :: (List.replicate 31 'a' ++ " x".toList))
      (vAppInit envRepo (worldPowerUp 0))).out =
      "ERR unknown tool ".toList ++ List.replicate 31 'a' ++ "\n".toList ∧
    mcpParams "gpio_write  LED1 1".toList = "LED1 1".toList :=
  ⟨(congrArg World.out ((C8_tokenization envRepo (vAppInit envRepo (worldPowerUp 0)) 'a'
      (List.replicate 31 'a' ++ " x".toList) (by decide)).2.2.2 (by decide))).trans
      (by decide),
    ((C8_tokenization envRepo (vAppInit envRepo (worldPowerUp 0)) 'g'
      "pio_write  LED1 1".toList (by decide)).2.1 (by decide)).trans (by decide)⟩

/-- C9 as stated fails: the line ` foo` has no tool token equal to a registry
name, yet `vMcpHandleLine` prints nothing for it (as for the empty line). -/
theorem C9_counterexample :
    (mcpLookup (mcpTool " foo".toList) (g_asMcpRegistry envRepo)).isNone = true ∧
    (vMcpHandleLine envRepo " foo".toList (worldPowerUp 0)).out = [] ∧
    (vMcpHandleLine envRepo [] (worldPowerUp 0)).out = [] := by
  decide

/-- C9 (amended): for every non-empty line that does not start with a space
and whose tool token T (its first word cut to 31 characters) is not equal to
`gpio_write` or `gpio_read`, the registry scan finds no handler and
`vMcpHandleLine` only prints the line `ERR unknown tool T`: the registered
interface and the driver state are unchanged.  In particular a first word of
32 or more characters gives `ERR unknown tool ` followed by the first 31
characters of the line. -/
theorem C9_unknown_tool (env : Env) (w : World) (c : Char) (cs : CStr)
    (hc : c ≠ ' ')
    (h1 : specTool (c :: cs) ≠ "gpio_write".toList)
    (h2 : specTool (c :: cs) ≠ "gpio_read".toList) :
    mcpTool (c :: cs) = specTool (c :: cs) ∧
    (mcpLookup (mcpTool (c :: cs)) (g_asMcpRegistry env)).isNone = true ∧
    vMcpHandleLine env (c :: cs) w =
      { w with out := w.out ++ ("ERR unknown tool ".toList ++ specTool (c :: cs) ++
          "\n".toList) } ∧
    (32 ≤ (firstWord (c :: cs)).length →
      specTool (c :: cs) = (c :: cs).take 31) := by
  have htok := (mcp_tokenization (c :: cs)).1
  have hnone := mcpLookup_registry_none env (specTool (c :: cs)) h1 h2
  refine ⟨htok, by rw [htok]; exact hnone, ?_, ?_⟩
  · have hpos := scanToolLen_pos c cs hc
    simp only [vMcpHandleLine, hpos, if_false, htok]
    have : mcpLookup (specTool (c :: cs)) (g_asMcpRegistry env) = none := by
      cases h : mcpLookup (specTool (c :: cs)) (g_asMcpRegistry env) with
      | none => rfl
      | some f => rw [h] at hnone; simp at hnone
    rw [this]
    simp [printf]
  · intro h32
    obtain ⟨r, hr, _⟩ := firstWord_split (c :: cs)
    have e : List.take 31 (c :: cs) = List.take 31 (firstWord (c :: cs) ++ r) := by
      rw [← hr]
    rw [specTool, e, List.take_append_of_le_length (by omega)]

/-- C9 (amended) at the line `foo bar` after start-up. -/
theorem C9_unknown_tool_witness :
    (vMcpHandleLine envRepo "foo bar".toList (vAppInit envRepo (worldPowerUp 0))).out =
      "ERR unknown tool foo\n".toList :=
  (congrArg World.out (C9_unknown_tool envRepo (vAppInit envRepo (worldPowerUp 0))
    'f' "oo bar".toList (by decide) (by decide) (by decide)).2.2.1).trans (by decide)

/-! ### C10: one response line per command -/

theorem linesOf_line (l rest : List Char) (h : '\n' ∉ l) :
    linesOf (l ++ '\n' :: rest) = l :: linesOf rest := by
  induction l with
  | nil => simp [linesOf]
  | cons a l ih =>
    have ha : a ≠ '\n' := fun e => h (by rw [e]; exact List.mem_cons_self _ _)
    have hl : '\n' ∉ l := fun e => h (List.mem_cons_of_mem _ e)
    simp [linesOf, ha, ih hl]

theorem responseLines_response (r rest : List Char) (h : '\n' ∉ r)
    (hs : isSyncLine r = false) :
    responseLines (r ++ '\n' :: rest) = r :: responseLines rest := by
  simp [responseLines, linesOf_line r rest h, List.filter, hs]

theorem responseLines_sync (r rest : List Char) (h : '\n' ∉ r)
    (hs : isSyncLine r = true) :
    responseLines (r ++ '\n' :: rest) = responseLines rest := by
  simp [responseLines, linesOf_line r rest h, List.filter, hs]

theorem responseLines_nil : responseLines [] = [] := rfl

theorem isspace_newline : isspace '\n' = true := by decide

theorem not_newline_of_nospace (pin : CStr) (h : ∀ c ∈ pin, isspace c = false) :
    '\n' ∉ pin := by
  intro hm
  have := h '\n' hm
  rw [isspace_newline] at this
  exact Bool.noConfusion this

theorem scanString_nospace (n : Nat) (s tok rest : CStr)
    (h : scanString n s = some (tok, rest)) : ∀ c ∈ tok, isspace c = false := by
  unfold scanString at h
  split at h
  · exact Option.noConfusion h
  · rename_i c cs _
    simp only [Option.some.injEq, Prod.mk.injEq] at h
    intro d hd
    rw [← h.1] at hd
    have := List.mem_takeWhile_imp (List.mem_of_mem_take hd)
    simpa using this

theorem fmtNat_code_no_newline (code : eRetType_t) : '\n' ∉ fmtNat code.toNat := by
  cases code <;> decide

/-- A synchronization message for a pin name without white space and a value
0 or 1 is one line that starts with an opening brace. -/
theorem syncMessage_line (pin : CStr) (b : Bool) (h : ∀ c ∈ pin, isspace c = false) :
    ∃ body, syncMessage "GPIO".toList pin (if b then 1 else 0) = body ++ ['\n'] ∧
      '\n' ∉ body ∧ isSyncLine body = true := by
  have hp := not_newline_of_nospace pin h
  refine ⟨"\x7b\"t\":\"GPIO\",\"p\":\"".toList ++ pin ++ "\",\"v\":".toList ++
    (if b then ['1'] else ['0']) ++ "\x7d".toList, ?_, ?_, ?_⟩
  · cases b <;>
      simp [syncMessage, fmtInt, fmtNat, Nat.toDigits, Nat.toDigitsCore, Nat.digitChar]
  · cases b <;> simp [hp]
  · simp [isSyncLine]

theorem responseLines_single (r : List Char) (h : '\n' ∉ r)
    (hs : isSyncLine r = false) : responseLines (r ++ "\n".toList) = [r] := by
  have : r ++ "\n".toList = r ++ '\n' :: [] := rfl
  rw [this, responseLines_response r [] h hs, responseLines_nil]

theorem responseLines_ok_sync (body : List Char) (h : '\n' ∉ body)
    (hs : isSyncLine body = true) :
    responseLines ("OK\n".toList ++ (body ++ ['\n'])) = ["OK".toList] := by
  have e : "OK\n".toList ++ (body ++ ['\n']) = "OK".toList ++ '\n' :: (body ++ '\n' :: []) := by
    simp
  rw [e, responseLines_response _ _ (by decide) (by decide),
    responseLines_sync body [] h hs, responseLines_nil]

theorem responseLines_sync_then (body r : List Char) (h : '\n' ∉ body)
    (hs : isSyncLine body = true) (hr : '\n' ∉ r) (hrs : isSyncLine r = false) :
    responseLines ((body ++ ['\n']) ++ (r ++ "\n".toList)) = [r] := by
  have e : (body ++ ['\n']) ++ (r ++ "\n".toList) = body ++ '\n' :: (r ++ '\n' :: []) := by
    simp
  rw [e, responseLines_sync body _ h hs, responseLines_response r [] hr hrs,
    responseLines_nil]

theorem err_line (t : List Char) (h : '\n' ∉ t) :
    '\n' ∉ "ERR ".toList ++ t ∧ isSyncLine ("ERR ".toList ++ t) = false ∧
      IsResponse ("ERR ".toList ++ t) := by
  refine ⟨?_, ?_, Or.inr (Or.inr ⟨t, rfl⟩)⟩
  · simp [h]
  · simp [isSyncLine]

theorem sscanf_31s_d_pin (p : CStr) :
    ∀ c ∈ (sscanf_31s_d p).2.1, isspace c = false := by
  cases h : scanString 31 p with
  | none => intro c hc; simp [sscanf_31s_d, h] at hc
  | some tr =>
    obtain ⟨tok, rest⟩ := tr
    have hn := scanString_nospace 31 p tok rest h
    cases hs : scanInt rest <;> simp only [sscanf_31s_d, h, hs] <;> exact hn

theorem sscanf_31s_pin (p : CStr) :
    ∀ c ∈ (sscanf_31s p).2, isspace c = false := by
  cases h : scanString 31 p with
  | none => intro c hc; simp [sscanf_31s, h] at hc
  | some tr =>
    obtain ⟨tok, rest⟩ := tr
    simp only [sscanf_31s, h]
    exact scanString_nospace 31 p tok rest h

/-- What `eGpioHelperWrite` prints: `OK` and a synchronization message on
success, nothing otherwise. -/
theorem eGpioHelperWrite_out (pin : CStr) (b : Bool) (w : World) :
    ((eGpioHelperWrite pin b w).1 = RET_TYPE_SUCCESS ∧
      (eGpioHelperWrite pin b w).2.out =
        w.out ++ ("OK\n".toList ++ syncMessage "GPIO".toList pin (if b then 1 else 0))) ∨
    ((eGpioHelperWrite pin b w).1 ≠ RET_TYPE_SUCCESS ∧
      (eGpioHelperWrite pin b w).2.out = w.out) := by
  cases hi : psHalGetGpioInterface w with
  | none => right; simp [eGpioHelperWrite, hi]
  | some psGpio =>
    cases hwr : psGpio.eHalGpioWriteFunc with
    | none => right; simp [eGpioHelperWrite, hi, hwr]
    | some wr =>
      by_cases hc : (wr (some pin) b w.avr).1 = RET_TYPE_SUCCESS
      · left; simp [eGpioHelperWrite, hi, hwr, hc, vHelperSend, printf]
      · right; simp [eGpioHelperWrite, hi, hwr, hc]

/-- What `eGpioHelperRead` prints: at most one synchronization message, and
none when it fails. -/
theorem eGpioHelperRead_out (env : Env) (pin : CStr) (v0 : Bool) (w : World) :
    ((eGpioHelperRead env pin v0 w).1 = RET_TYPE_SUCCESS ∧
      ((eGpioHelperRead env pin v0 w).2.2.out = w.out ∨
        ∃ b : Bool, (eGpioHelperRead env pin v0 w).2.2.out =
          w.out ++ syncMessage "GPIO".toList pin (if b then 1 else 0))) ∨
    ((eGpioHelperRead env pin v0 w).1 ≠ RET_TYPE_SUCCESS ∧
      (eGpioHelperRead env pin v0 w).2.2.out = w.out) := by
  cases hi : psHalGetGpioInterface w with
  | none => right; simp [eGpioHelperRead, hi]
  | some psGpio =>
    cases hrd : psGpio.eHalGpioReadFunc with
    | none => right; simp [eGpioHelperRead, hi, hrd]
    | some rd =>
      by_cases hc : (rd (some pin) (some false) w.avr).1 = RET_TYPE_SUCCESS
      · left
        simp only [eGpioHelperRead, hi, hrd, hc, ne_eq, not_true_eq_false, if_false,
          true_and]
        by_cases hp : helperFindPull pin env.g_psGpioPinConfigs = GPIO_PULL_UP
        · cases hv : ((rd (some pin) (some false) w.avr).2.1.getD false)
          · right; exact ⟨false, by simp [hp, vHelperSend, printf]⟩
          · left; simp [hp]
        · cases hv : ((rd (some pin) (some false) w.avr).2.1.getD false)
          · left; simp [hp]
          · right; exact ⟨true, by simp [hp, vHelperSend, printf]⟩
      · right; simp [eGpioHelperRead, hi, hrd, hc]

theorem vHandleGpioWrite_response (env : Env) (p : CStr) (w : World) (hw : w.out = []) :
    ∃ r, responseLines (vHandleGpioWrite env p w).out = [r] ∧ IsResponse r := by
  have hpin := sscanf_31s_d_pin p
  have hnl := not_newline_of_nospace _ hpin
  unfold vHandleGpioWrite
  by_cases h1 : (sscanf_31s_d p).1 < 2
  · refine ⟨"ERR gpio_write need PIN VALUE".toList, ?_, Or.inr (Or.inr ⟨_, rfl⟩)⟩
    simp only [h1, if_true, printf, hw, List.nil_append]
    decide
  · by_cases hv : bIsValidPin env (sscanf_31s_d p).2.1 = true
    · simp only [h1, if_false, hv, Bool.not_true, Bool.false_eq_true]
      rcases eGpioHelperWrite_out (sscanf_31s_d p).2.1
        (decide ((sscanf_31s_d p).2.2 ≠ 0)) w with ⟨hs, ho⟩ | ⟨hs, ho⟩
      · obtain ⟨body, hb, hbn, hbs⟩ := syncMessage_line (sscanf_31s_d p).2.1
          (decide ((sscanf_31s_d p).2.2 ≠ 0)) hpin
        refine ⟨"OK".toList, ?_, Or.inl rfl⟩
        simp only [hs, ne_eq, not_true_eq_false, if_false]
        rw [ho, hw, List.nil_append, hb]
        exact responseLines_ok_sync body hbn hbs
      · obtain ⟨e1, e2, e3⟩ := err_line (fmtNat (eGpioHelperWrite (sscanf_31s_d p).2.1
          (decide ((sscanf_31s_d p).2.2 ≠ 0)) w).1.toNat) (fmtNat_code_no_newline _)
        refine ⟨_, ?_, e3⟩
        simp only [ne_eq, hs, not_false_eq_true, if_true, printf, ho, hw, List.nil_append]
        exact responseLines_single _ e1 e2
    · have hv2 : bIsValidPin env (sscanf_31s_d p).2.1 = false := by
        cases h : bIsValidPin env (sscanf_31s_d p).2.1
        · rfl
        · exact absurd h hv
      obtain ⟨e1, e2, e3⟩ := err_line ("unknown pin ".toList ++ (sscanf_31s_d p).2.1)
        (by simp [hnl])
      refine ⟨_, ?_, e3⟩
      simp only [h1, if_false, hv2, Bool.not_false, if_true, printf, hw, List.nil_append]
      have e : "ERR unknown pin ".toList ++ (sscanf_31s_d p).2.1 ++ "\n".toList =
          ("ERR ".toList ++ ("unknown pin ".toList ++ (sscanf_31s_d p).2.1)) ++ "\n".toList := by
        simp
      rw [e]
      exact responseLines_single _ e1 e2

theorem vHandleGpioRead_response (env : Env) (p : CStr) (w : World) (hw : w.out = []) :
    ∃ r, responseLines (vHandleGpioRead env p w).out = [r] ∧ IsResponse r := by
  have hpin := sscanf_31s_pin p
  have hnl := not_newline_of_nospace _ hpin
  unfold vHandleGpioRead
  by_cases h1 : (sscanf_31s p).1 < 1
  · refine ⟨"ERR gpio_read need PIN".toList, ?_, Or.inr (Or.inr ⟨_, rfl⟩)⟩
    simp only [h1, if_true, printf, hw, List.nil_append]
    decide
  · by_cases hv : bIsValidPin env (sscanf_31s p).2 = true
    · simp only [h1, if_false, hv, Bool.not_true, Bool.false_eq_true]
      rcases eGpioHelperRead_out env (sscanf_31s p).2 false w with
        ⟨hs, ho⟩ | ⟨hs, ho⟩
      · have hrn : '\n' ∉ "GPIO_READ ".toList ++ (sscanf_31s p).2 ++ " ".toList ++
            fmtNat (if (eGpioHelperRead env (sscanf_31s p).2 false w).2.1 then 1 else 0) := by
          cases (eGpioHelperRead env (sscanf_31s p).2 false w).2.1 <;>
            simp [hnl, fmtNat, Nat.toDigits, Nat.toDigitsCore, Nat.digitChar]
        have hrs : isSyncLine ("GPIO_READ ".toList ++ (sscanf_31s p).2 ++ " ".toList ++
            fmtNat (if (eGpioHelperRead env (sscanf_31s p).2 false w).2.1 then 1 else 0))
            = false := by
          simp [isSyncLine]
        refine ⟨"GPIO_READ ".toList ++ (sscanf_31s p).2 ++ " ".toList ++
            fmtNat (if (eGpioHelperRead env (sscanf_31s p).2 false w).2.1 then 1 else 0),
          ?_, Or.inr (Or.inl ⟨(sscanf_31s p).2 ++ (" ".toList ++
            fmtNat (if (eGpioHelperRead env (sscanf_31s p).2 false w).2.1 then 1 else 0)),
            by simp only [List.append_assoc]⟩)⟩
        simp only [hs, if_true, printf]
        rcases ho with ho | ⟨b, ho⟩
        · rw [ho, hw, List.nil_append]
          exact responseLines_single _ hrn hrs
        · obtain ⟨body, hb, hbn, hbs⟩ := syncMessage_line (sscanf_31s p).2 b hpin
          rw [ho, hw, List.nil_append, hb]
          exact responseLines_sync_then body _ hbn hbs hrn hrs
      · obtain ⟨e1, e2, e3⟩ := err_line (fmtNat (eGpioHelperRead env (sscanf_31s p).2
          false w).1.toNat) (fmtNat_code_no_newline _)
        refine ⟨_, ?_, e3⟩
        simp only [hs, if_false, printf, ho, hw, List.nil_append]
        exact responseLines_single _ e1 e2
    · have hv2 : bIsValidPin env (sscanf_31s p).2 = false := by
        cases h : bIsValidPin env (sscanf_31s p).2
        · rfl
        · exact absurd h hv
      obtain ⟨e1, e2, e3⟩ := err_line ("unknown pin ".toList ++ (sscanf_31s p).2)
        (by simp [hnl])
      refine ⟨_, ?_, e3⟩
      simp only [h1, if_false, hv2, Bool.not_false, if_true, printf, hw, List.nil_append]
      have e : "ERR unknown pin ".toList ++ (sscanf_31s p).2 ++ "\n".toList =
          ("ERR ".toList ++ ("unknown pin ".toList ++ (sscanf_31s p).2)) ++ "\n".toList := by
        simp
      rw [e]
      exact responseLines_single _ e1 e2

/-- C10 as stated fails: a line that starts with a space (it is not empty and
does not begin with a brace) gets no response line at all; and for a line
holding a newline inside its first word the text printed is two lines, the
second of which is none of the three response forms. -/
theorem C10_counterexample :
    responseLines
      (vMcpHandleLine envRepo " gpio_write LED1 1".toList
        (vAppInit envRepo (worldPowerUp 0))).out = [] ∧
    responseLines
      (vMcpHandleLine envRepo "a\nb".toList (vAppInit envRepo (worldPowerUp 0))).out =
      ["ERR unknown tool a".toList, "b".toList] := by
  decide

/-- C10 (amended): for every non-empty line that does not begin with a space
and holds no newline, whatever the tables, the registered driver (or its
absence), the driver state and the driver's results are, the text printed by
`vMcpHandleLine` holds exactly one response line (synchronization lines not
counted), and that line is `OK`, or starts with `GPIO_READ `, or starts with
`ERR `. -/
theorem C10_one_response_line (env : Env) (w : World) (c : Char) (cs : CStr)
    (hc : c ≠ ' ') (hnl : '\n' ∉ c :: cs) :
    ∃ r, responseLines (vMcpHandleLine env (c :: cs) { w with out := [] }).out = [r] ∧
      IsResponse r := by
  have hpos := scanToolLen_pos c cs hc
  by_cases h1 : mcpTool (c :: cs) = "gpio_write".toList
  · have hl : mcpLookup (mcpTool (c :: cs)) (g_asMcpRegistry env) =
        some (vHandleGpioWrite env) := by
      simp only [mcpLookup, g_asMcpRegistry, if_pos h1]
    simp only [vMcpHandleLine, hpos, if_false, hl]
    exact vHandleGpioWrite_response env _ _ rfl
  · by_cases h2 : mcpTool (c :: cs) = "gpio_read".toList
    · have hl : mcpLookup (mcpTool (c :: cs)) (g_asMcpRegistry env) =
          some (vHandleGpioRead env) := by
        simp only [mcpLookup, g_asMcpRegistry, if_neg h1, if_pos h2]
      simp only [vMcpHandleLine, hpos, if_false, hl]
      exact vHandleGpioRead_response env _ _ rfl
    · have hl : mcpLookup (mcpTool (c :: cs)) (g_asMcpRegistry env) = none := by
        simp only [mcpLookup, g_asMcpRegistry, if_neg h1, if_neg h2]
      have htn : '\n' ∉ mcpTool (c :: cs) :=
        fun hm => hnl (List.mem_of_mem_take hm)
      obtain ⟨e1, e2, e3⟩ := err_line ("unknown tool ".toList ++ mcpTool (c :: cs))
        (by simp [htn])
      refine ⟨_, ?_, e3⟩
      simp only [vMcpHandleLine, hpos, if_false, hl, printf, List.nil_append]
      have e : "ERR unknown tool ".toList ++ mcpTool (c :: cs) ++ "\n".toList =
          ("ERR ".toList ++ ("unknown tool ".toList ++ mcpTool (c :: cs))) ++
            "\n".toList := by
        simp
      rw [e]
      exact responseLines_single _ e1 e2

/-- C10 (amended) at the line `gpio_read BUTTON1` after start-up with the
button pressed: one synchronization line and the one response line. -/
theorem C10_one_response_line_witness :
    ∃ r, responseLines (vMcpHandleLine envRepo "gpio_read BUTTON1".toList
        { vAppInit envRepo (worldPowerUp 0) with out := [] }).out = [r] ∧
      IsResponse r :=
  C10_one_response_line envRepo (vAppInit envRepo (worldPowerUp 0)) 'g'
    "pio_read BUTTON1".toList (by decide) (by decide)

/-! ### Helper lemmas on character arrays -/

theorem cstrOf_append_nul (l r : List Char) (h : ∀ c ∈ l, c ≠ NUL) :
    cstrOf (l ++ NUL :: r) = l := by
  induction l with
  | nil => simp [cstrOf]
  | cons a l ih =>
    have ha : a ≠ NUL := h a (List.mem_cons_self _ _)
    have ih2 := ih (fun c hc => h c (List.mem_cons_of_mem _ hc))
    simp [cstrOf, ha, ih2]

theorem rxBytes_append (a b : List Char) (s : UartRx) :
    rxBytes (a ++ b) s = rxBytes b (rxBytes a s) := by
  simp [rxBytes, List.foldl_append]

theorem rxBytes_cons (c : Char) (cs : List Char) (s : UartRx) :
    rxBytes (c :: cs) s = rxBytes cs (ISR_USART_RX c s) := rfl

theorem rxBytes_nil (s : UartRx) : rxBytes [] s = s := rfl

/-- Receiving data bytes that fit: they are stored from the index on, the
index advances by their number, mailbox and flag are untouched. -/
theorem rxBytes_body (w : List Char) :
    ∀ s : UartRx, (∀ c ∈ w, c ≠ '\n' ∧ c ≠ '\r') →
      s.u8RxIndex + w.length ≤ 127 → s.acRxBuffer.length = 128 →
      (rxBytes w s).u8RxIndex = s.u8RxIndex + w.length ∧
      (rxBytes w s).acRxBuffer =
        s.acRxBuffer.take s.u8RxIndex ++ w ++
          s.acRxBuffer.drop (s.u8RxIndex + w.length) ∧
      (rxBytes w s).acPendingLine = s.acPendingLine ∧
      (rxBytes w s).u8LineReady = s.u8LineReady := by
  induction w with
  | nil => intro s _ _ _; simp [rxBytes]
  | cons c w ih =>
    intro s hw hlen hbuf
    have hc := hw c (List.mem_cons_self _ _)
    have hw2 : ∀ d ∈ w, d ≠ '\n' ∧ d ≠ '\r' :=
      fun d hd => hw d (List.mem_cons_of_mem _ hd)
    simp only [List.length_cons] at hlen
    have hidx : s.u8RxIndex < 127 := by omega
    have hstep : ISR_USART_RX c s =
        { s with acRxBuffer := s.acRxBuffer.set s.u8RxIndex c
                 u8RxIndex := s.u8RxIndex + 1 } := by
      have hm : (s.u8RxIndex + 1) % 256 = s.u8RxIndex + 1 := by omega
      simp [ISR_USART_RX, hc.1, hc.2, RX_BUFFER_SIZE, hidx, hm]
    rw [rxBytes_cons, hstep]
    have := ih { s with acRxBuffer := s.acRxBuffer.set s.u8RxIndex c
                        u8RxIndex := s.u8RxIndex + 1 } hw2
      (by simp only; omega) (by simp [hbuf])
    obtain ⟨h1, h2, h3, h4⟩ := this
    refine ⟨by rw [h1]; simp only [List.length_cons]; omega, ?_, h3, h4⟩
    rw [h2]
    simp only [List.length_cons]
    have hlt : s.u8RxIndex < s.acRxBuffer.length := by omega
    rw [List.set_eq_take_append_cons_drop, if_pos hlt]
    have e1 : (List.take s.u8RxIndex s.acRxBuffer ++
          c :: List.drop (s.u8RxIndex + 1) s.acRxBuffer).take (s.u8RxIndex + 1)
        = List.take s.u8RxIndex s.acRxBuffer ++ [c] := by
      have hl : (List.take s.u8RxIndex s.acRxBuffer).length = s.u8RxIndex := by
        simp [List.length_take]; omega
      rw [List.take_append_eq_append_take, hl]
      simp [List.take_of_length_le, hl]
    have e2 : (List.take s.u8RxIndex s.acRxBuffer ++
          c :: List.drop (s.u8RxIndex + 1) s.acRxBuffer).drop (s.u8RxIndex + 1 + w.length)
        = List.drop (s.u8RxIndex + (w.length + 1)) s.acRxBuffer := by
      have hl : (List.take s.u8RxIndex s.acRxBuffer).length = s.u8RxIndex := by
        simp [List.length_take]; omega
      have : s.u8RxIndex + 1 + w.length =
          (List.take s.u8RxIndex s.acRxBuffer).length + (1 + w.length) := by
        rw [hl]; omega
      rw [this, List.drop_append]
      simp only [List.drop_succ_cons, Nat.add_comm 1 w.length, List.drop_drop]
      congr 1; omega
    rw [e1, e2]
    simp

theorem cstrOf_append_replicate (w : List Char) (k : Nat)
    (h : ∀ c ∈ w, c ≠ NUL) : cstrOf (w ++ List.replicate (k + 1) NUL) = w := by
  rw [List.replicate_succ]
  exact cstrOf_append_nul w _ h

theorem set_last_of_length (A : List Char) (x y : Char) :
    (A ++ [x]).set A.length y = A ++ [y] := by
  induction A with
  | nil => rfl
  | cons a A ih => simp [List.set, ih]

/-- A terminator arriving when the accumulator holds the line `w`: the
mailbox becomes `w` padded with NULs, the flag is set, the index is reset. -/
theorem ISR_terminator_line (t : Char) (s : UartRx) (w : List Char)
    (ht : IsTerminator t) (hpos : 0 < w.length) (hlen : w.length ≤ 127)
    (hidx : s.u8RxIndex = w.length) (hbuf : s.acRxBuffer.take w.length = w)
    (hsz : s.WellSized) (hnul : ∀ c ∈ w, c ≠ NUL) :
    (ISR_USART_RX t s).u8RxIndex = 0 ∧
    (ISR_USART_RX t s).u8LineReady = 1 ∧
    (ISR_USART_RX t s).acPendingLine = w ++ List.replicate (128 - w.length) NUL ∧
    (ISR_USART_RX t s).WellSized := by
  obtain ⟨hb, hp⟩ := hsz
  simp only [RX_BUFFER_SIZE] at hb hp
  have hcond : (t = '\n' ∨ t = '\r') := ht
  have hgt : s.u8RxIndex > 0 := by omega
  have hset : s.acRxBuffer.set s.u8RxIndex NUL =
      w ++ NUL :: s.acRxBuffer.drop (w.length + 1) := by
    rw [List.set_eq_take_append_cons_drop, if_pos (by omega), hidx, hbuf]
  have hcs : cstrOf (s.acRxBuffer.set s.u8RxIndex NUL) = w := by
    rw [hset]; exact cstrOf_append_nul w _ hnul
  have hdrop : ∃ x, s.acPendingLine.drop 127 = [x] := by
    apply List.length_eq_one.mp
    simp [List.length_drop, hp]
  obtain ⟨x, hx⟩ := hdrop
  have hpend : (strncpy s.acPendingLine (s.acRxBuffer.set s.u8RxIndex NUL)
        (RX_BUFFER_SIZE - 1)).set (RX_BUFFER_SIZE - 1) NUL
      = w ++ List.replicate (128 - w.length) NUL := by
    simp only [strncpy, RX_BUFFER_SIZE, hcs]
    have htk : List.take (128 - 1) w = w := List.take_of_length_le (by omega)
    rw [htk]
    have hx2 : List.drop (128 - 1) s.acPendingLine = [x] := hx
    rw [hx2]
    have hA : (w ++ List.replicate (128 - 1 - w.length) NUL).length = 128 - 1 := by
      simp [List.length_append, List.length_replicate]; omega
    have := set_last_of_length (w ++ List.replicate (128 - 1 - w.length) NUL) x NUL
    rw [hA] at this
    rw [this]
    have e : 128 - w.length = (128 - 1 - w.length) + 1 := by omega
    rw [e, List.replicate_succ', List.append_assoc]
  refine ⟨?_, ?_, ?_, ?_, ?_⟩
  · simp [ISR_USART_RX, hcond, hgt]
  · simp [ISR_USART_RX, hcond, hgt]
  · simp only [ISR_USART_RX, if_pos hcond, if_pos hgt]
    exact hpend
  · simp [ISR_USART_RX, hcond, hgt, RX_BUFFER_SIZE, hb]
  · simp only [ISR_USART_RX, if_pos hcond, if_pos hgt]
    rw [hpend]
    simp [RX_BUFFER_SIZE]; omega

/-- A terminator arriving at an empty accumulator changes nothing. -/
theorem ISR_terminator_empty (t : Char) (s : UartRx) (ht : IsTerminator t)
    (hidx : s.u8RxIndex = 0) : ISR_USART_RX t s = s := by
  have hcond : (t = '\n' ∨ t = '\r') := ht
  simp [ISR_USART_RX, hcond, hidx]

/-- A whole line `w` followed by a terminator, from an empty accumulator. -/
theorem rx_line (w : List Char) (t : Char) (s : UartRx)
    (hw : IsLineBody w) (ht : IsTerminator t) (hpos : 0 < w.length)
    (hlen : w.length ≤ 127) (hidx : s.u8RxIndex = 0) (hsz : s.WellSized) :
    (rxBytes (w ++ [t]) s).u8RxIndex = 0 ∧
    (rxBytes (w ++ [t]) s).u8LineReady = 1 ∧
    (rxBytes (w ++ [t]) s).acPendingLine = w ++ List.replicate (128 - w.length) NUL ∧
    (rxBytes (w ++ [t]) s).WellSized := by
  have hb := hsz.1
  simp only [RX_BUFFER_SIZE] at hb
  obtain ⟨h1, h2, h3, h4⟩ := rxBytes_body w s (fun c hc => ⟨(hw c hc).1, (hw c hc).2.1⟩)
    (by omega) hb
  rw [rxBytes_append, rxBytes_cons, rxBytes_nil]
  apply ISR_terminator_line t (rxBytes w s) w ht hpos hlen
  · rw [h1, hidx]; simp
  · rw [h2, hidx]; simp
  · refine ⟨?_, ?_⟩
    · rw [h2, hidx]; simp [RX_BUFFER_SIZE, hb]; omega
    · rw [h3]; exact hsz.2
  · exact fun c hc => (hw c hc).2.2

theorem runEvents_append {ω : Type} (f : CStr → ω → ω) (a b : List UartEvent)
    (sw : UartRx × ω) : runEvents f (a ++ b) sw = runEvents f b (runEvents f a sw) := by
  simp [runEvents, List.foldl_append]

theorem runEvents_rx {ω : Type} (f : CStr → ω → ω) (cs : List Char) :
    ∀ (s : UartRx) (w : ω),
      runEvents f (cs.map UartEvent.rx) (s, w) = (rxBytes cs s, w) := by
  induction cs with
  | nil => intro s w; rfl
  | cons c cs ih =>
    intro s w
    simp only [List.map_cons, runEvents, List.foldl_cons, stepEvent]
    exact ih (ISR_USART_RX c s) w

theorem dispatch_ready {ω : Type} (f : CStr → ω → ω) (s : UartRx) (x : ω)
    (h : s.u8LineReady ≠ 0) :
    bUartDispatchPendingLine f s x =
      (true, { s with u8LineReady := 0 }, f (cstrOf s.acPendingLine) x) := by
  simp [bUartDispatchPendingLine, h]

theorem dispatch_idle {ω : Type} (f : CStr → ω → ω) (s : UartRx) (x : ω)
    (h : s.u8LineReady = 0) : bUartDispatchPendingLine f s x = (false, s, x) := by
  simp [bUartDispatchPendingLine, h]

theorem vAppLoop_ready {ω : Type} (f : CStr → ω → ω) (s : UartRx) (x : ω)
    (h : s.u8LineReady ≠ 0) :
    vAppLoop f (s, x) =
      ({ s with u8LineReady := 0 }, f (cstrOf s.acPendingLine) x) := by
  simp [vAppLoop, bUartDispatchPendingLine, h]

theorem vAppLoop_idle {ω : Type} (f : CStr → ω → ω) (s : UartRx) (x : ω)
    (h : s.u8LineReady = 0) : vAppLoop f (s, x) = (s, x) := by
  simp [vAppLoop, bUartDispatchPendingLine, h]

theorem runEvents_cons {ω : Type} (f : CStr → ω → ω) (e : UartEvent)
    (evs : List UartEvent) (sw : UartRx × ω) :
    runEvents f (e :: evs) sw = runEvents f evs (stepEvent f sw e) := rfl

theorem runEvents_nil {ω : Type} (f : CStr → ω → ω) (sw : UartRx × ω) :
    runEvents f [] sw = sw := rfl

/-! ### C4: line framing -/

/-- C4: from an empty accumulator, a line `w` of 1 to 127 bytes without
terminator or NUL, followed by one terminator, leaves the mailbox holding
exactly `w`, the ready flag set and the accumulator empty; a terminator
received at an empty accumulator changes nothing of the receiver state, so the
second terminator of `w\r\n` changes nothing and the line is dispatched once. -/
theorem C4_line_framing (w : CStr) (t : Char) (s : UartRx)
    (hsz : s.WellSized) (hidx : s.u8RxIndex = 0) (hw : IsLineBody w)
    (h1 : 1 ≤ w.length) (h127 : w.length ≤ 127) (ht : IsTerminator t) :
    (cstrOf (rxBytes (w ++ [t]) s).acPendingLine = w ∧
      (rxBytes (w ++ [t]) s).u8LineReady = 1 ∧
      (rxBytes (w ++ [t]) s).u8RxIndex = 0) ∧
    (∀ (t2 : Char) (s0 : UartRx), IsTerminator t2 → s0.u8RxIndex = 0 →
      ISR_USART_RX t2 s0 = s0) ∧
    rxBytes (w ++ ['\r', '\n']) s = rxBytes (w ++ ['\r']) s ∧
    (∀ (ω : Type) (f : CStr → ω → ω) (x : ω),
      (runEvents f ((w ++ ['\r', '\n']).map UartEvent.rx ++
          [UartEvent.poll, UartEvent.poll]) (s, x)).2 = f w x ∧
      (runEvents f ((w ++ ['\r']).map UartEvent.rx ++
          [UartEvent.poll, UartEvent.rx '\n', UartEvent.poll]) (s, x)).2 = f w x) := by
  obtain ⟨a1, a2, a3, _⟩ := rx_line w t s hw ht (by omega) h127 hidx hsz
  have hnul : ∀ c ∈ w, c ≠ NUL := fun c hc => (hw c hc).2.2
  have hcs : cstrOf (w ++ List.replicate (128 - w.length) NUL) = w := by
    have e : 128 - w.length = (127 - w.length) + 1 := by omega
    rw [e]; exact cstrOf_append_replicate w _ hnul
  obtain ⟨b1, b2, b3, _⟩ := rx_line w '\r' s hw (Or.inr rfl) (by omega) h127 hidx hsz
  have hrn : rxBytes (w ++ ['\r', '\n']) s = rxBytes (w ++ ['\r']) s := by
    have e : w ++ ['\r', '\n'] = (w ++ ['\r']) ++ ['\n'] := by simp
    rw [e, rxBytes_append (w ++ ['\r']) ['\n'], rxBytes_cons, rxBytes_nil]
    exact ISR_terminator_empty '\n' _ (Or.inl rfl) b1
  refine ⟨⟨?_, a2, a1⟩, ?_, hrn, ?_⟩
  · rw [a3]; exact hcs
  · intro t2 s0 ht2 h0
    exact ISR_terminator_empty t2 s0 ht2 h0
  · intro ω f x
    have hp1 : vAppLoop f (rxBytes (w ++ ['\r']) s, x) =
        ({ rxBytes (w ++ ['\r']) s with u8LineReady := 0 }, f w x) := by
      rw [vAppLoop_ready f _ x (by rw [b2]; decide)]
      simp only [b3, hcs]
    have hp2 : vAppLoop f ({ rxBytes (w ++ ['\r']) s with u8LineReady := 0 }, f w x) =
        ({ rxBytes (w ++ ['\r']) s with u8LineReady := 0 }, f w x) :=
      vAppLoop_idle f _ _ rfl
    constructor
    · rw [runEvents_append, runEvents_rx, hrn, runEvents_cons, runEvents_cons,
        runEvents_nil]
      simp only [stepEvent]
      rw [hp1, hp2]
    · rw [runEvents_append, runEvents_rx, runEvents_cons, runEvents_cons,
        runEvents_cons, runEvents_nil]
      have hnl : ISR_USART_RX '\n' { rxBytes (w ++ ['\r']) s with u8LineReady := 0 } =
          { rxBytes (w ++ ['\r']) s with u8LineReady := 0 } :=
        ISR_terminator_empty '\n' _ (Or.inl rfl) b1
      simp only [stepEvent]
      rw [hp1]
      simp only []
      rw [hnl, hp2]

/-- C4 at the line `ab` terminated by a newline, received at program start. -/
theorem C4_line_framing_witness :
    (cstrOf (rxBytes (['a', 'b'] ++ ['\n']) uartRxInit).acPendingLine = ['a', 'b'] ∧
      (rxBytes (['a', 'b'] ++ ['\n']) uartRxInit).u8LineReady = 1 ∧
      (rxBytes (['a', 'b'] ++ ['\n']) uartRxInit).u8RxIndex = 0) :=
  (C4_line_framing ['a', 'b'] '\n' uartRxInit
    (by simp [UartRx.WellSized, uartRxInit, RX_BUFFER_SIZE]) rfl
    (by intro c hc; simp at hc; rcases hc with rfl | rfl <;> decide)
    (by simp) (by simp) (Or.inl rfl)).1

/-! ### C5: over-long lines -/

/-- A data byte arriving when the accumulator is full resets the index only. -/
theorem ISR_overflow (c : Char) (s : UartRx) (hc : c ≠ '\n' ∧ c ≠ '\r')
    (hidx : s.u8RxIndex = 127) :
    ISR_USART_RX c s = { s with u8RxIndex := 0 } := by
  simp [ISR_USART_RX, hc.1, hc.2, hidx, RX_BUFFER_SIZE]

/-- What the handler does with a line of 128 + k bytes (1 ≤ k ≤ 127): the
first 127 bytes fill the accumulator, the 128th resets it, and the last k
bytes are delivered to the mailbox as if they were a line. -/
theorem rx_overlong_tail (u v : List Char) (c t : Char) (s : UartRx)
    (hu : IsLineBody u) (hc : c ≠ '\n' ∧ c ≠ '\r') (hv : IsLineBody v)
    (hulen : u.length = 127) (hvpos : 0 < v.length) (hvlen : v.length ≤ 127)
    (ht : IsTerminator t) (hidx : s.u8RxIndex = 0) (hsz : s.WellSized) :
    (rxBytes (u ++ c :: v ++ [t]) s).u8LineReady = 1 ∧
    cstrOf (rxBytes (u ++ c :: v ++ [t]) s).acPendingLine = v := by
  have hb := hsz.1
  simp only [RX_BUFFER_SIZE] at hb
  obtain ⟨h1, h2, h3, h4⟩ := rxBytes_body u s
    (fun d hd => ⟨(hu d hd).1, (hu d hd).2.1⟩) (by omega) hb
  have e : u ++ c :: v ++ [t] = u ++ (c :: (v ++ [t])) := by simp
  rw [e, rxBytes_append, rxBytes_cons,
    ISR_overflow c (rxBytes u s) hc (by rw [h1, hidx, hulen])]
  have hsz2 : ({ rxBytes u s with u8RxIndex := 0 } : UartRx).WellSized := by
    refine ⟨?_, ?_⟩
    · show (rxBytes u s).acRxBuffer.length = RX_BUFFER_SIZE
      rw [h2, hidx]; simp [RX_BUFFER_SIZE, hb]; omega
    · show (rxBytes u s).acPendingLine.length = RX_BUFFER_SIZE
      rw [h3]; exact hsz.2
  obtain ⟨_, a2, a3, _⟩ := rx_line v t { rxBytes u s with u8RxIndex := 0 } hv ht hvpos
    hvlen rfl hsz2
  refine ⟨a2, ?_⟩
  rw [a3]
  have e2 : 128 - v.length = (127 - v.length) + 1 := by omega
  rw [e2]
  exact cstrOf_append_replicate v _ (fun d hd => (hv d hd).2.2)

/-- C5 (the code at the failing input): a line of 129 bytes `a` followed by a
newline, received at program start, is not dropped; the handler sets the
ready flag and puts the last byte of the line in the mailbox. -/
theorem C5_overlong_line_tail_delivered :
    (rxBytes (List.replicate 129 'a' ++ ['\n']) uartRxInit).u8LineReady = 1 ∧
    cstrOf (rxBytes (List.replicate 129 'a' ++ ['\n']) uartRxInit).acPendingLine = ['a'] ∧
    uartRxInit.u8LineReady = 0 ∧ cstrOf uartRxInit.acPendingLine = [] := by
  have hrep : List.replicate 129 'a' ++ ['\n'] =
      List.replicate 127 'a' ++ 'a' :: ['a'] ++ ['\n'] := by
    have : (129 : Nat) = 127 + 2 := rfl
    rw [this, List.replicate_add]
    simp [List.replicate]
  have hbody : IsLineBody (List.replicate 127 'a') := by
    intro c hc
    rw [List.eq_of_mem_replicate hc]
    decide
  have hone : IsLineBody ['a'] := by
    intro c hc
    rw [List.mem_singleton.mp hc]
    decide
  have h := rx_overlong_tail (List.replicate 127 'a') ['a'] 'a' '\n' uartRxInit
    hbody (by decide) hone (by simp) (by simp) (by simp) (Or.inl rfl) rfl
    (by simp [UartRx.WellSized, uartRxInit, RX_BUFFER_SIZE])
  rw [hrep]
  refine ⟨h.1, h.2, rfl, ?_⟩
  simp [uartRxInit, List.replicate, cstrOf]

/-! ### C6, C7: the single-slot mailbox and its consumer -/

theorem cstrOf_mailbox (w : List Char) (hnul : ∀ c ∈ w, c ≠ NUL)
    (hlen : w.length ≤ 127) :
    cstrOf (w ++ List.replicate (128 - w.length) NUL) = w := by
  have e : 128 - w.length = (127 - w.length) + 1 := by omega
  rw [e]
  exact cstrOf_append_replicate w _ hnul

/-- C6: two lines A and B completed with no dispatch in between: the mailbox
array holds B padded with NULs (no byte of A is left in it), the next
`bUartDispatchPendingLine` returns true and passes exactly B to the line
callback, the callback is run once (with B, never with A), and further
dispatches pass nothing. -/
theorem C6_mailbox_single_slot (A B : CStr) (tA tB : Char) (s : UartRx)
    (hsz : s.WellSized) (hidx : s.u8RxIndex = 0)
    (hA : IsLineBody A) (hA1 : 1 ≤ A.length) (hA127 : A.length ≤ 127)
    (hB : IsLineBody B) (hB1 : 1 ≤ B.length) (hB127 : B.length ≤ 127)
    (htA : IsTerminator tA) (htB : IsTerminator tB) :
    (rxBytes (A ++ [tA] ++ (B ++ [tB])) s).acPendingLine =
      B ++ List.replicate (128 - B.length) NUL ∧
    (∀ (ω : Type) (f : CStr → ω → ω) (x : ω),
      (bUartDispatchPendingLine f (rxBytes (A ++ [tA] ++ (B ++ [tB])) s) x).1 = true ∧
      (bUartDispatchPendingLine f (rxBytes (A ++ [tA] ++ (B ++ [tB])) s) x).2.2 = f B x ∧
      (runEvents f ((A ++ [tA] ++ (B ++ [tB])).map UartEvent.rx ++
        [UartEvent.poll, UartEvent.poll]) (s, x)).2 = f B x) ∧
    (runEvents (fun l log => log ++ [l]) ((A ++ [tA] ++ (B ++ [tB])).map UartEvent.rx ++
        [UartEvent.poll]) (s, [])).2 = [B] := by
  obtain ⟨a1, _, _, a4⟩ := rx_line A tA s hA htA (by omega) hA127 hidx hsz
  obtain ⟨b1, b2, b3, b4⟩ := rx_line B tB (rxBytes (A ++ [tA]) s) hB htB (by omega)
    hB127 a1 a4
  rw [← rxBytes_append] at b1 b2 b3 b4
  have hcs := cstrOf_mailbox B (fun c hc => (hB c hc).2.2) hB127
  have hne : (rxBytes (A ++ [tA] ++ (B ++ [tB])) s).u8LineReady ≠ 0 := by
    rw [b2]; decide
  have hp1 : ∀ (ω : Type) (f : CStr → ω → ω) (x : ω),
      vAppLoop f (rxBytes (A ++ [tA] ++ (B ++ [tB])) s, x) =
        ({ rxBytes (A ++ [tA] ++ (B ++ [tB])) s with u8LineReady := 0 }, f B x) := by
    intro ω f x
    rw [vAppLoop_ready f _ x hne]
    simp only [b3, hcs]
  refine ⟨b3, ?_, ?_⟩
  · intro ω f x
    refine ⟨?_, ?_, ?_⟩
    · rw [dispatch_ready f _ x hne]
    · rw [dispatch_ready f _ x hne]
      simp only [b3, hcs]
    · rw [runEvents_append, runEvents_rx, runEvents_cons, runEvents_cons,
        runEvents_nil]
      simp only [stepEvent]
      rw [hp1, vAppLoop_idle f _ _ rfl]
  · rw [runEvents_append, runEvents_rx, runEvents_cons, runEvents_nil]
    simp only [stepEvent]
    rw [hp1]
    rfl

/-- C6 at the lines `abc` and `d` (the second shorter than the first),
received at program start. -/
theorem C6_mailbox_single_slot_witness :
    (runEvents (fun l log => log ++ [l])
      ((['a', 'b', 'c'] ++ ['\n'] ++ (['d'] ++ ['\r'])).map UartEvent.rx ++
        [UartEvent.poll]) (uartRxInit, [])).2 = [['d']] :=
  (C6_mailbox_single_slot ['a', 'b', 'c'] ['d'] '\n' '\r' uartRxInit
    (by simp [UartRx.WellSized, uartRxInit, RX_BUFFER_SIZE]) rfl
    (by intro c hc; simp at hc; rcases hc with rfl | rfl | rfl <;> decide)
    (by simp) (by simp)
    (by intro c hc; simp at hc; subst hc; decide)
    (by simp) (by simp) (Or.inl rfl) (Or.inr rfl)).2.2

/-- One completed line followed by one pass of the main loop: the line is
handed to the callback and the receiver is back to an empty accumulator. -/
theorem lineThenPoll_run {ω : Type} (f : CStr → ω → ω) (lt : CStr × Char)
    (s : UartRx) (x : ω) (hsz : s.WellSized) (hidx : s.u8RxIndex = 0)
    (hl : IsLineBody lt.1) (h1 : 1 ≤ lt.1.length) (h127 : lt.1.length ≤ 127)
    (ht : IsTerminator lt.2) :
    (runEvents f (lineThenPoll lt) (s, x)).2 = f lt.1 x ∧
    (runEvents f (lineThenPoll lt) (s, x)).1.u8RxIndex = 0 ∧
    (runEvents f (lineThenPoll lt) (s, x)).1.WellSized := by
  obtain ⟨a1, a2, a3, a4⟩ := rx_line lt.1 lt.2 s hl ht (by omega) h127 hidx hsz
  have hcs := cstrOf_mailbox lt.1 (fun c hc => (hl c hc).2.2) h127
  have hrun : runEvents f (lineThenPoll lt) (s, x) =
      ({ rxBytes (lt.1 ++ [lt.2]) s with u8LineReady := 0 }, f lt.1 x) := by
    rw [lineThenPoll, runEvents_append, runEvents_rx, runEvents_cons, runEvents_nil]
    simp only [stepEvent]
    rw [vAppLoop_ready f _ x (by rw [a2]; decide)]
    simp only [a3, hcs]
  rw [hrun]
  exact ⟨rfl, a1, a4⟩

/-- Lines polled one by one reach the callback once each, in receipt order. -/
theorem lines_polled_in_order {ω : Type} (f : CStr → ω → ω)
    (ls : List (CStr × Char)) :
    ∀ (s : UartRx) (x : ω), s.WellSized → s.u8RxIndex = 0 →
      (∀ lt ∈ ls, IsLineBody lt.1 ∧ 1 ≤ lt.1.length ∧ lt.1.length ≤ 127 ∧
        IsTerminator lt.2) →
      (runEvents f (ls.flatMap lineThenPoll) (s, x)).2 =
        (ls.map Prod.fst).foldl (fun acc l => f l acc) x := by
  induction ls with
  | nil => intro s x _ _ _; rfl
  | cons lt ls ih =>
    intro s x hsz hidx hall
    obtain ⟨hl, h1, h127, ht⟩ := hall lt (List.mem_cons_self _ _)
    obtain ⟨r1, r2, r3⟩ := lineThenPoll_run f lt s x hsz hidx hl h1 h127 ht
    rw [List.flatMap_cons, runEvents_append]
    have hpair : runEvents f (lineThenPoll lt) (s, x) =
        ((runEvents f (lineThenPoll lt) (s, x)).1, f lt.1 x) := by
      rw [← r1]
    rw [hpair, ih _ _ r3 r2 (fun l hl2 => hall l (List.mem_cons_of_mem _ hl2))]
    rfl

theorem foldl_log (ls : List CStr) :
    ∀ init : List CStr,
      ls.foldl (fun (acc : List CStr) (l : CStr) => acc ++ [l]) init = init ++ ls := by
  induction ls with
  | nil => intro init; simp
  | cons l ls ih => intro init; simp [List.foldl_cons, ih]

/-- C7: `bUartDispatchPendingLine` returns false and runs no callback when the
ready flag is clear; when it is set it clears the flag, runs the callback once
on the mailbox line and returns true; a second call right after returns false
and changes nothing; and when the consumer polls after each completed line,
the lines reach the callback once each, in receipt order. -/
theorem C7_dispatch_once_in_order (ls : List (CStr × Char)) (s : UartRx)
    (hsz : s.WellSized) (hidx : s.u8RxIndex = 0)
    (hall : ∀ lt ∈ ls, IsLineBody lt.1 ∧ 1 ≤ lt.1.length ∧ lt.1.length ≤ 127 ∧
      IsTerminator lt.2) :
    (∀ (ω : Type) (f : CStr → ω → ω) (s0 : UartRx) (x : ω), s0.u8LineReady = 0 →
      bUartDispatchPendingLine f s0 x = (false, s0, x)) ∧
    (∀ (ω : Type) (f : CStr → ω → ω) (s0 : UartRx) (x : ω), s0.u8LineReady ≠ 0 →
      bUartDispatchPendingLine f s0 x =
        (true, { s0 with u8LineReady := 0 }, f (cstrOf s0.acPendingLine) x)) ∧
    (∀ (ω : Type) (f : CStr → ω → ω) (s0 : UartRx) (x : ω),
      bUartDispatchPendingLine f (bUartDispatchPendingLine f s0 x).2.1
          (bUartDispatchPendingLine f s0 x).2.2 =
        (false, (bUartDispatchPendingLine f s0 x).2.1,
          (bUartDispatchPendingLine f s0 x).2.2)) ∧
    (∀ (ω : Type) (f : CStr → ω → ω) (x : ω),
      (runEvents f (ls.flatMap lineThenPoll) (s, x)).2 =
        (ls.map Prod.fst).foldl (fun acc l => f l acc) x) ∧
    (runEvents (fun l log => log ++ [l]) (ls.flatMap lineThenPoll) (s, [])).2 =
      ls.map Prod.fst := by
  refine ⟨?_, ?_, ?_, ?_, ?_⟩
  · intro ω f s0 x h
    exact dispatch_idle f s0 x h
  · intro ω f s0 x h
    exact dispatch_ready f s0 x h
  · intro ω f s0 x
    by_cases h : s0.u8LineReady = 0
    · rw [dispatch_idle f s0 x h]
      exact dispatch_idle f s0 x h
    · rw [dispatch_ready f s0 x h]
      exact dispatch_idle f _ _ rfl
  · intro ω f x
    exact lines_polled_in_order f ls s x hsz hidx hall
  · rw [lines_polled_in_order _ ls s [] hsz hidx hall, foldl_log]
    rfl

/-- C7 at the lines `ab` (newline) and `c` (carriage return), each polled
after its terminator, from program start. -/
theorem C7_dispatch_once_in_order_witness :
    (runEvents (fun l log => log ++ [l])
      ([(['a', 'b'], '\n'), (['c'], '\r')].flatMap lineThenPoll) (uartRxInit, [])).2 =
      [['a', 'b'], ['c']] :=
  (C7_dispatch_once_in_order [(['a', 'b'], '\n'), (['c'], '\r')] uartRxInit
    (by simp [UartRx.WellSized, uartRxInit, RX_BUFFER_SIZE]) rfl
    (by
      intro lt hlt
      simp at hlt
      rcases hlt with rfl | rfl
      · refine ⟨?_, by simp, by simp, Or.inl rfl⟩
        intro c hc; simp at hc; rcases hc with rfl | rfl <;> decide
      · refine ⟨?_, by simp, by simp, Or.inr rfl⟩
        intro c hc; simp at hc; subst hc; decide)).2.2.2.2

/-! ### C11: unknown pins -/

theorem bIsValidPin_false_of_not_mem (env : Env) (pin : CStr)
    (h : some pin ∉ env.g_apcMcpPinNames) : bIsValidPin env pin = false := by
  have hn : some pin ∉
      (env.g_apcMcpPinNames.take env.g_u32McpPinCount).takeWhile Option.isSome :=
    fun hm => h (List.mem_of_mem_take ((List.takeWhile_sublist _).subset hm))
  simpa [bIsValidPin] using hn

/-- C11: when the pin token of the parameter string (the token read by `%31s`)
is not equal to any entry of `g_apcMcpPinNames`, `vHandleGpioWrite` (for
parameters that hold a pin and a value) and `vHandleGpioRead` (for parameters
that hold a pin) only print `ERR unknown pin <pin>`: the registered interface
and the driver state with its registers are unchanged, so neither helper and
no driver operation has run. -/
theorem C11_unknown_pin_rejected (env : Env) (w : World) (pcParams pin rest : CStr)
    (htok : scanString 31 pcParams = some (pin, rest))
    (hnot : some pin ∉ env.g_apcMcpPinNames) :
    (∀ v : Int, scanInt rest = some v →
      vHandleGpioWrite env pcParams w =
        { w with out := w.out ++ ("ERR unknown pin ".toList ++ pin ++ "\n".toList) }) ∧
    vHandleGpioRead env pcParams w =
      { w with out := w.out ++ ("ERR unknown pin ".toList ++ pin ++ "\n".toList) } := by
  have hv := bIsValidPin_false_of_not_mem env pin hnot
  constructor
  · intro v hval
    have hs : sscanf_31s_d pcParams = (2, pin, v) := by
      simp [sscanf_31s_d, htok, hval]
    simp [vHandleGpioWrite, hs, hv, printf]
  · have hs : sscanf_31s pcParams = (1, pin) := by
      simp [sscanf_31s, htok]
    simp [vHandleGpioRead, hs, hv, printf]

/-- C11 at the parameters `LED9 1` after start-up with the repository's
tables. -/
theorem C11_unknown_pin_rejected_witness :
    vHandleGpioRead envRepo "LED9 1".toList (vAppInit envRepo (worldPowerUp 0)) =
      { vAppInit envRepo (worldPowerUp 0) with
        out := (vAppInit envRepo (worldPowerUp 0)).out ++
          ("ERR unknown pin ".toList ++ "LED9".toList ++ "\n".toList) } :=
  (C11_unknown_pin_rejected envRepo (vAppInit envRepo (worldPowerUp 0)) "LED9 1".toList
    "LED9".toList " 1".toList (by decide) (by decide)).2

/-! ### C16, C17: the registry and the helper without a driver -/

/-- C16: `psHalGetGpioInterface` returns NULL at power-up; after
`vHalRegisterGpioInterface(t)` it returns `t`; after registering `t1` and then
`t2` it returns `t2`; registration is total (it cannot fail) and touches
nothing but the stored reference, and reading the reference changes no
state (it is a function of the state). -/
theorem C16_interface_registry (w : World) (t t1 t2 : Option sGpioInterface_t)
    (pinb : Nat) :
    psHalGetGpioInterface (worldPowerUp pinb) = none ∧
    psHalGetGpioInterface (vHalRegisterGpioInterface t w) = t ∧
    psHalGetGpioInterface
      (vHalRegisterGpioInterface t2 (vHalRegisterGpioInterface t1 w)) = t2 ∧
    (vHalRegisterGpioInterface t w).avr = w.avr ∧
    (vHalRegisterGpioInterface t w).out = w.out :=
  ⟨rfl, rfl, rfl, rfl, rfl⟩

/-- C17: when no table is registered, or the registered table lacks the
operation, `eGpioHelperConfigure`, `eGpioHelperWrite` and `eGpioHelperRead`
return RET_TYPE_FAIL and leave the whole program state as it was (no driver
function has run, nothing is printed), the read leaves the output value as it
was, and `vGpioHelperInit` changes nothing. -/
theorem C17_helper_fail_fast (env : Env) (w : World)
    (psConfig : Option sGpioConfig_t) (name : CStr) (v v0 : Bool) :
    ((psHalGetGpioInterface w = none ∨
        ∃ t, psHalGetGpioInterface w = some t ∧ t.eHalGpioConfigureFunc = none) →
      eGpioHelperConfigure psConfig w = (RET_TYPE_FAIL, w)) ∧
    ((psHalGetGpioInterface w = none ∨
        ∃ t, psHalGetGpioInterface w = some t ∧ t.eHalGpioWriteFunc = none) →
      eGpioHelperWrite name v w = (RET_TYPE_FAIL, w)) ∧
    ((psHalGetGpioInterface w = none ∨
        ∃ t, psHalGetGpioInterface w = some t ∧ t.eHalGpioReadFunc = none) →
      eGpioHelperRead env name v0 w = (RET_TYPE_FAIL, v0, w)) ∧
    ((psHalGetGpioInterface w = none ∨
        ∃ t, psHalGetGpioInterface w = some t ∧ t.vHalGpioInitFunc = none) →
      vGpioHelperInit w = w) := by
  refine ⟨?_, ?_, ?_, ?_⟩
  · rintro (h | ⟨t, h, ht⟩)
    · simp [eGpioHelperConfigure, h]
    · simp [eGpioHelperConfigure, h, ht]
  · rintro (h | ⟨t, h, ht⟩)
    · simp [eGpioHelperWrite, h]
    · simp [eGpioHelperWrite, h, ht]
  · rintro (h | ⟨t, h, ht⟩)
    · simp [eGpioHelperRead, h]
    · simp [eGpioHelperRead, h, ht]
  · rintro (h | ⟨t, h, ht⟩)
    · simp [vGpioHelperInit, h]
    · simp [vGpioHelperInit, h, ht]

/-- C17 at power-up, where nothing is registered: a write of LED1 fails fast. -/
theorem C17_helper_fail_fast_witness :
    eGpioHelperWrite "LED1".toList true (worldPowerUp 0) =
      (RET_TYPE_FAIL, worldPowerUp 0) :=
  (C17_helper_fail_fast envRepo (worldPowerUp 0) none "LED1".toList true false).2.1
    (Or.inl rfl)

/-! ### Decimal digits: what `%d` prints and what `%d` and `atoi` read back -/

theorem decDigits_small (n : Nat) (h : n < 10) : decDigits n = [Nat.digitChar n] := by
  rw [decDigits]; simp [h]

theorem decDigits_big (n : Nat) (h : ¬ n < 10) :
    decDigits n = decDigits (n / 10) ++ [Nat.digitChar (n % 10)] := by
  rw [decDigits]; simp [h]

theorem toDigitsCore_eq_decDigits (fuel : Nat) :
    ∀ (n : Nat) (ds : List Char), n < fuel →
      Nat.toDigitsCore 10 fuel n ds = decDigits n ++ ds := by
  induction fuel with
  | zero => intro n ds h; omega
  | succ fuel ih =>
    intro n ds h
    by_cases h0 : n / 10 = 0
    · have hlt : n < 10 := by omega
      have hm : n % 10 = n := Nat.mod_eq_of_lt hlt
      simp [Nat.toDigitsCore, h0, decDigits_small n hlt, hm]
    · have hge : ¬ n < 10 := by omega
      have hlt : n / 10 < fuel := by omega
      simp only [Nat.toDigitsCore, h0, if_false]
      rw [ih (n / 10) _ hlt, decDigits_big n hge]
      simp

theorem fmtNat_eq_decDigits (n : Nat) : fmtNat n = decDigits n := by
  rw [fmtNat, Nat.toDigits, toDigitsCore_eq_decDigits (n + 1) n [] (by omega)]
  simp

theorem digitChar_isdigit (k : Nat) (h : k < 10) : isdigit (Nat.digitChar k) = true := by
  interval_cases k <;> decide

theorem digitChar_value (k : Nat) (h : k < 10) : (Nat.digitChar k).toNat - 48 = k := by
  interval_cases k <;> decide

theorem digitChar_ne_zero (k : Nat) (h : k < 10) (hpos : 0 < k) :
    Nat.digitChar k ≠ '0' := by
  interval_cases k <;> decide

theorem decDigits_isdigit (n : Nat) : ∀ c ∈ decDigits n, isdigit c = true := by
  induction n using Nat.strong_induction_on with
  | _ n ih =>
    by_cases h : n < 10
    · rw [decDigits_small n h]
      intro c hc
      rw [List.mem_singleton.mp hc]
      exact digitChar_isdigit n h
    · rw [decDigits_big n h]
      intro c hc
      rcases List.mem_append.mp hc with hc | hc
      · exact ih (n / 10) (by omega) c hc
      · rw [List.mem_singleton.mp hc]
        exact digitChar_isdigit _ (Nat.mod_lt _ (by omega))

theorem decimalValue_append (a : List Char) (d : Char) :
    decimalValue (a ++ [d]) = 10 * decimalValue a + (d.toNat - 48) := by
  simp [decimalValue, List.foldl_append]

theorem decimalValue_decDigits (n : Nat) : decimalValue (decDigits n) = n := by
  induction n using Nat.strong_induction_on with
  | _ n ih =>
    by_cases h : n < 10
    · rw [decDigits_small n h]
      simp [decimalValue, digitChar_value n h]
    · rw [decDigits_big n h, decimalValue_append, ih (n / 10) (by omega),
        digitChar_value _ (Nat.mod_lt _ (by omega))]
      omega

/-- The digits of a positive number start with a digit other than `0`. -/
theorem decDigits_head (n : Nat) (hpos : 0 < n) :
    ∃ c rest, decDigits n = c :: rest ∧ c ≠ '0' ∧ isdigit c = true := by
  induction n using Nat.strong_induction_on with
  | _ n ih =>
    by_cases h : n < 10
    · exact ⟨Nat.digitChar n, [], decDigits_small n h, digitChar_ne_zero n h hpos,
        digitChar_isdigit n h⟩
    · obtain ⟨c, rest, hc, hne, hd⟩ := ih (n / 10) (by omega) (by omega)
      refine ⟨c, rest ++ [Nat.digitChar (n % 10)], ?_, hne, hd⟩
      rw [decDigits_big n h, hc]
      simp

theorem decDigits_zero : decDigits 0 = ['0'] := by
  rw [decDigits_small 0 (by omega)]; rfl

theorem decDigits_ne_nil (n : Nat) : decDigits n ≠ [] := by
  by_cases h : n < 10
  · rw [decDigits_small n h]; simp
  · rw [decDigits_big n h]; simp

/-- A number below 10^(k+1) has at most k+1 decimal digits. -/
theorem decDigits_length_le (k : Nat) :
    ∀ n : Nat, n < 10 ^ (k + 1) → (decDigits n).length ≤ k + 1 := by
  induction k with
  | zero =>
    intro n h
    rw [decDigits_small n (by simpa using h)]
    simp
  | succ k ih =>
    intro n h
    by_cases h10 : n < 10
    · rw [decDigits_small n h10]
      simp
    · rw [decDigits_big n h10]
      have hdiv : n / 10 < 10 ^ (k + 1) := by
        apply Nat.div_lt_of_lt_mul
        rw [pow_succ] at h
        omega
      have := ih (n / 10) hdiv
      simp only [List.length_append, List.length_singleton]
      omega

theorem decimalValue_foldl_ge (ds : List Char) :
    ∀ a : Nat, a ≤ ds.foldl (fun n c => 10 * n + (c.toNat - 48)) a := by
  induction ds with
  | nil => intro a; simp
  | cons d ds ih =>
    intro a
    simp only [List.foldl_cons]
    exact Nat.le_trans (by omega) (ih _)

/-- A digit string that starts with a digit other than `0` has a positive
value. -/
theorem decimalValue_pos (c : Char) (rest : List Char) (hne : c ≠ '0')
    (hd : isdigit c = true) : 0 < decimalValue (c :: rest) := by
  have h48 : 48 ≤ c.toNat := by
    simp only [isdigit, Bool.and_eq_true, decide_eq_true_eq] at hd
    exact hd.1
  have hne48 : c.toNat ≠ 48 := by
    intro h
    apply hne
    apply Char.ext
    apply UInt32.ext
    simpa [Char.toNat] using h
  have h1 : 1 ≤ 10 * 0 + (c.toNat - 48) := by omega
  simp only [decimalValue, List.foldl_cons]
  exact Nat.lt_of_lt_of_le (by omega) (decimalValue_foldl_ge rest _)

/-! ### C12, C13: end-to-end write and read -/

theorem bIsValidPin_iff (env : Env) (p : CStr) :
    bIsValidPin env p = true ↔ some p ∈ mcpPinList env := by
  simp [bIsValidPin, mcpPinList]

/-- What `%Ns` reads from a non-empty token without white space, not longer
than the width, that ends the input or is followed by white space. -/
theorem scanString_token (n : Nat) (p tail : CStr) (hne : p ≠ [])
    (hws : ∀ c ∈ p, isspace c = false) (hlen : p.length ≤ n)
    (htail : tail = [] ∨ ∃ c t, tail = c :: t ∧ isspace c = true) :
    scanString n (p ++ tail) = some (p, tail) := by
  obtain ⟨a, q, rfl⟩ := List.exists_cons_of_ne_nil hne
  have ha : isspace a = false := hws a (List.mem_cons_self _ _)
  have hdrop : ((a :: q) ++ tail).dropWhile isspace = a :: (q ++ tail) := by
    simp [List.dropWhile, ha]
  have htake : ∀ (l : CStr), (∀ c ∈ l, isspace c = false) →
      (l ++ tail).takeWhile (fun d => !isspace d) = l := by
    intro l
    induction l with
    | nil =>
      intro _
      rcases htail with h | ⟨c, t, h, hc⟩
      · simp [h]
      · simp [h, List.takeWhile, hc]
    | cons b l ih =>
      intro hl
      have hb := hl b (List.mem_cons_self _ _)
      simp [List.takeWhile, hb, ih (fun c hc => hl c (List.mem_cons_of_mem _ hc))]
  unfold scanString
  rw [hdrop]
  have e : a :: (q ++ tail) = (a :: q) ++ tail := rfl
  simp only [e, htake (a :: q) hws, List.take_of_length_le hlen, List.drop_left]

theorem mcp_tool_params (tool : CStr) (a : Char) (q : CStr)
    (htool : ∀ c ∈ tool, c ≠ ' ') (hlen : tool.length ≤ 31) (ha : a ≠ ' ') :
    mcpTool (tool ++ ' ' :: a :: q) = tool ∧
    mcpParams (tool ++ ' ' :: a :: q) = (a :: q).take 95 := by
  have hfw : ∀ (t : CStr), (∀ c ∈ t, c ≠ ' ') →
      firstWord (t ++ ' ' :: a :: q) = t ∧ afterFirstSpace (t ++ ' ' :: a :: q) = a :: q := by
    intro t
    induction t with
    | nil => intro _; simp [firstWord, afterFirstSpace]
    | cons b t ih =>
      intro ht
      have hb := ht b (List.mem_cons_self _ _)
      have := ih (fun c hc => ht c (List.mem_cons_of_mem _ hc))
      simp [firstWord, afterFirstSpace, hb, this.1, this.2]
  obtain ⟨h1, h2⟩ := hfw tool htool
  obtain ⟨t1, t2⟩ := mcp_tokenization (tool ++ ' ' :: a :: q)
  constructor
  · rw [t1, specTool, h1, List.take_of_length_le hlen]
  · rw [t2 (by rw [h1]; exact hlen), specParams, h2]
    simp [List.dropWhile, ha]

theorem vMcpHandleLine_gpio_read (env : Env) (w : World) (p : CStr) (hne : p ≠ [])
    (hlen : p.length ≤ 31) (hws : ∀ c ∈ p, isspace c = false) :
    vMcpHandleLine env ("gpio_read ".toList ++ p) w = vHandleGpioRead env p w := by
  obtain ⟨a, q, rfl⟩ := List.exists_cons_of_ne_nil hne
  have ha : a ≠ ' ' := by
    intro h
    have := hws a (List.mem_cons_self _ _)
    rw [h] at this
    exact absurd this (by decide)
  have hline : "gpio_read ".toList ++ (a :: q) = "gpio_read".toList ++ ' ' :: a :: q := rfl
  obtain ⟨h1, h2⟩ := mcp_tool_params "gpio_read".toList a q (by decide) (by decide) ha
  have hpos : scanToolLen ("gpio_read".toList ++ ' ' :: a :: q) 0 ≠ 0 :=
    scanToolLen_pos 'g' _ (by decide)
  have hnil : "gpio_read".toList ++ ' ' :: a :: q ≠ [] := by simp
  rw [hline]
  simp only [vMcpHandleLine, hnil, hpos, if_false, h1, h2]
  have hl : mcpLookup "gpio_read".toList (g_asMcpRegistry env) =
      some (vHandleGpioRead env) := by
    simp [mcpLookup, g_asMcpRegistry]
  rw [hl, List.take_of_length_le (by omega)]

theorem sscanf_31s_token (p : CStr) (hne : p ≠ []) (hlen : p.length ≤ 31)
    (hws : ∀ c ∈ p, isspace c = false) : sscanf_31s p = (1, p) := by
  have := scanString_token 31 p [] hne hws hlen (Or.inl rfl)
  rw [List.append_nil] at this
  simp [sscanf_31s, this]

/-- C13 as stated fails: with `PIN A` in the valid-pin list and stored by the
driver (a read of it through the helper succeeds), the line `gpio_read PIN A`
prints `ERR unknown pin PIN`; and with an empty name in the list the line
`gpio_read ` prints `ERR gpio_read need PIN`.  In neither case is there a
`GPIO_READ` line or an `ERR` line with a driver code. -/
theorem C13_counterexample :
    some "PIN A".toList ∈ mcpPinList envSpaced ∧
    (eGpioHelperRead envSpaced "PIN A".toList false
      (vAppInit envSpaced (worldPowerUp 0))).1 = RET_TYPE_SUCCESS ∧
    (vMcpHandleLine envSpaced "gpio_read PIN A".toList
      (vAppInit envSpaced (worldPowerUp 0))).out = "ERR unknown pin PIN\n".toList ∧
    some [] ∈ mcpPinList envEmptyName ∧
    (vMcpHandleLine envEmptyName ("gpio_read ".toList ++ [])
      (vAppInit envEmptyName (worldPowerUp 0))).out = "ERR gpio_read need PIN\n".toList := by
  decide

/-- C13 (amended): for every pin name p of the valid-pin list that is not
empty, has at most 31 characters and holds no white space, dispatching the line
`gpio_read p` with a registered driver that has a read operation prints, when
the driver read fails with code e, exactly the line `ERR e` (no `GPIO_READ`
line, no synchronization message), and when it succeeds, after what
`eGpioHelperRead` printed, the line `GPIO_READ p b` with b the reconciled
value returned by `eGpioHelperRead`. -/
theorem C13_gpio_read_end_to_end (env : Env) (w : World) (p : CStr)
    (psGpio : sGpioInterface_t)
    (rd : Option CStr → Option Bool → AvrState → eRetType_t × Option Bool × AvrState)
    (code : eRetType_t) (cell : Option Bool) (st1 : AvrState)
    (hne : p ≠ []) (hlen : p.length ≤ 31) (hws : ∀ c ∈ p, isspace c = false)
    (hvalid : some p ∈ mcpPinList env)
    (hreg : psHalGetGpioInterface w = some psGpio)
    (hrd : psGpio.eHalGpioReadFunc = some rd)
    (hdrv : rd (some p) (some false) w.avr = (code, cell, st1)) :
    (code ≠ RET_TYPE_SUCCESS →
      vMcpHandleLine env ("gpio_read ".toList ++ p) w =
        { w with avr := st1
                 out := w.out ++ ("ERR ".toList ++ fmtNat code.toNat ++ "\n".toList) }) ∧
    (code = RET_TYPE_SUCCESS →
      (eGpioHelperRead env p false w).1 = RET_TYPE_SUCCESS ∧
      vMcpHandleLine env ("gpio_read ".toList ++ p) w =
        printf ("GPIO_READ ".toList ++ p ++ " ".toList ++
            (if (eGpioHelperRead env p false w).2.1 then ['1'] else ['0']) ++ "\n".toList)
          (eGpioHelperRead env p false w).2.2) := by
  have hv : bIsValidPin env p = true := (bIsValidPin_iff env p).mpr hvalid
  have hs := sscanf_31s_token p hne hlen hws
  rw [vMcpHandleLine_gpio_read env w p hne hlen hws]
  constructor
  · intro hc
    have hh : eGpioHelperRead env p false w = (code, false, { w with avr := st1 }) := by
      simp [eGpioHelperRead, hreg, hrd, hdrv, hc]
    simp [vHandleGpioRead, hs, hv, hh, hc, printf]
  · intro hc
    have hh : (eGpioHelperRead env p false w).1 = RET_TYPE_SUCCESS := by
      simp [eGpioHelperRead, hreg, hrd, hdrv, hc]
    refine ⟨hh, ?_⟩
    simp only [vHandleGpioRead, hs, hv, hh]
    cases (eGpioHelperRead env p false w).2.1 <;>
      simp [fmtNat, Nat.toDigits, Nat.toDigitsCore, Nat.digitChar]

/-- C13 (amended) at the line `gpio_read BUTTON1` after start-up with the
button pressed (pull-up, physical sample 0, default simulated value): a
synchronization message with value 0, then `GPIO_READ BUTTON1 0`. -/
theorem C13_gpio_read_end_to_end_witness :
    (vMcpHandleLine envRepo ("gpio_read ".toList ++ "BUTTON1".toList)
      (vAppInit envRepo (worldPowerUp 0))).out =
      "\x7b\"t\":\"GPIO\",\"p\":\"BUTTON1\",\"v\":0\x7d\nGPIO_READ BUTTON1 0\n".toList :=
  (congrArg World.out
    ((C13_gpio_read_end_to_end envRepo (vAppInit envRepo (worldPowerUp 0))
      "BUTTON1".toList (sGpioInterfaceAVR envRepo) eGpioAVRRead RET_TYPE_SUCCESS
      (some false)
      (eGpioAVRRead (some "BUTTON1".toList) (some false)
        (vAppInit envRepo (worldPowerUp 0)).avr).2.2
      (by decide) (by decide) (by decide) (by decide) rfl rfl
      (Prod.ext (by decide) (Prod.ext (by decide) rfl))).2 rfl).2).trans (by decide)

theorem isdigit_not_space (c : Char) (h : isdigit c = true) :
    isspace c = false ∧ c ≠ '-' ∧ c ≠ '+' := by
  simp only [isdigit, Bool.and_eq_true, decide_eq_true_eq] at h
  refine ⟨?_, ?_, ?_⟩
  · have h1 : c ≠ ' ' := by
      intro e; rw [e] at h; exact absurd h.1 (by decide)
    simp only [isspace, Bool.or_eq_false_iff, decide_eq_false_iff_not, Bool.and_eq_false_iff,
      Nat.not_le]
    exact ⟨h1, Or.inr (by omega)⟩
  · intro e; rw [e] at h; exact absurd h.1 (by decide)
  · intro e; rw [e] at h; exact absurd h.1 (by decide)

theorem dropWhile_isspace_append (ws l : CStr) (hws : ∀ c ∈ ws, isspace c = true)
    (hl : l = [] ∨ ∃ c t, l = c :: t ∧ isspace c = false) :
    (ws ++ l).dropWhile isspace = l := by
  induction ws with
  | nil =>
    rcases hl with h | ⟨c, t, h, hc⟩
    · simp [h]
    · simp [h, List.dropWhile, hc]
  | cons a ws ih =>
    have ha := hws a (List.mem_cons_self _ _)
    simp [List.dropWhile, ha, ih (fun c hc => hws c (List.mem_cons_of_mem _ hc))]

theorem takeWhile_isdigit_append (l tail : CStr) (hl : ∀ c ∈ l, isdigit c = true)
    (htail : tail = [] ∨ ∃ c t, tail = c :: t ∧ isdigit c = false) :
    (l ++ tail).takeWhile isdigit = l := by
  induction l with
  | nil =>
    rcases htail with h | ⟨c, t, h, hc⟩
    · simp [h]
    · simp [h, List.takeWhile, hc]
  | cons a l ih =>
    have ha := hl a (List.mem_cons_self _ _)
    simp [List.takeWhile, ha, ih (fun c hc => hl c (List.mem_cons_of_mem _ hc))]

/-- What `%d` and `atoi` read from white space, an optional minus sign and a
run of digits that ends the input or is followed by a non-digit. -/
theorem scanDecimal_number (ws l tail : CStr) (hws : ∀ c ∈ ws, isspace c = true)
    (hne : l ≠ []) (hl : ∀ c ∈ l, isdigit c = true)
    (htail : tail = [] ∨ ∃ c t, tail = c :: t ∧ isdigit c = false) :
    scanDecimal (ws ++ (l ++ tail)) = some (Int.ofNat (decimalValue l)) ∧
    scanDecimal (ws ++ ('-' :: (l ++ tail))) = some (- Int.ofNat (decimalValue l)) := by
  obtain ⟨d, ds, rfl⟩ := List.exists_cons_of_ne_nil hne
  have hd := isdigit_not_space d (hl d (List.mem_cons_self _ _))
  have htw := takeWhile_isdigit_append (d :: ds) tail hl htail
  constructor
  · have hdrop : (ws ++ ((d :: ds) ++ tail)).dropWhile isspace = (d :: ds) ++ tail :=
      dropWhile_isspace_append ws _ hws (Or.inr ⟨d, ds ++ tail, rfl, hd.1⟩)
    unfold scanDecimal
    rw [hdrop]
    split
    · rename_i r heq
      simp only [List.cons_append, List.cons.injEq] at heq
      exact absurd heq.1 hd.2.1
    · rename_i r heq
      simp only [List.cons_append, List.cons.injEq] at heq
      exact absurd heq.1 hd.2.2
    · simp only [htw]
      simp
  · have hdrop : (ws ++ ('-' :: ((d :: ds) ++ tail))).dropWhile isspace =
        '-' :: ((d :: ds) ++ tail) :=
      dropWhile_isspace_append ws _ hws (Or.inr ⟨'-', _, rfl, by decide⟩)
    unfold scanDecimal
    rw [hdrop]
    simp only [htw]
    simp

/-- Reading back the decimal text of an integer, even cut to its first k ≥ 2
characters, gives a value that is zero exactly when the integer is. -/
theorem scanDecimal_fmtInt_take (v : Int) (k : Nat) (hk : 2 ≤ k) :
    ∃ v2 : Int, scanDecimal (' ' :: (fmtInt v).take k) = some v2 ∧ (v2 ≠ 0 ↔ v ≠ 0) := by
  have hsp : ∀ c ∈ [' '], isspace c = true := by
    intro c hc; rw [List.mem_singleton.mp hc]; decide
  cases v with
  | ofNat n =>
    by_cases hn : n = 0
    · subst hn
      refine ⟨0, ?_, by simp⟩
      have : (fmtInt (Int.ofNat 0)).take k = ['0'] := by
        simp only [fmtInt, fmtNat_eq_decDigits, decDigits_zero]
        exact List.take_of_length_le (by simp; omega)
      rw [this]
      decide
    · obtain ⟨c, rest, hc, hne, hd⟩ := decDigits_head n (by omega)
      have hall := decDigits_isdigit n
      have htk : (fmtInt (Int.ofNat n)).take k = c :: rest.take (k - 1) := by
        simp only [fmtInt, fmtNat_eq_decDigits, hc]
        obtain ⟨j, rfl⟩ : ∃ j, k = j + 1 := ⟨k - 1, by omega⟩
        simp
      have hdig : ∀ x ∈ c :: rest.take (k - 1), isdigit x = true := by
        intro x hx
        apply hall x
        rw [hc]
        rcases List.mem_cons.mp hx with h | h
        · rw [h]; exact List.mem_cons_self _ _
        · exact List.mem_cons_of_mem _ (List.mem_of_mem_take h)
      have h := (scanDecimal_number [' '] (c :: rest.take (k - 1)) [] hsp (by simp) hdig
        (Or.inl rfl)).1
      simp only [List.append_nil, List.singleton_append] at h
      refine ⟨_, by rw [htk]; exact h, ?_⟩
      have hp := decimalValue_pos c (rest.take (k - 1)) hne hd
      constructor
      · intro _; exact fun e => hn (by simpa using e)
      · intro _
        intro e
        have : decimalValue (c :: rest.take (k - 1)) = 0 := by simpa using e
        omega
  | negSucc m =>
    obtain ⟨c, rest, hc, hne, hd⟩ := decDigits_head (m + 1) (by omega)
    have hall := decDigits_isdigit (m + 1)
    have htk : (fmtInt (Int.negSucc m)).take k = '-' :: c :: rest.take (k - 2) := by
      simp only [fmtInt, fmtNat_eq_decDigits, hc]
      obtain ⟨j, rfl⟩ : ∃ j, k = j + 2 := ⟨k - 2, by omega⟩
      simp
    have hdig : ∀ x ∈ c :: rest.take (k - 2), isdigit x = true := by
      intro x hx
      apply hall x
      rw [hc]
      rcases List.mem_cons.mp hx with h | h
      · rw [h]; exact List.mem_cons_self _ _
      · exact List.mem_cons_of_mem _ (List.mem_of_mem_take h)
    have h := (scanDecimal_number [' '] (c :: rest.take (k - 2)) [] hsp (by simp) hdig
      (Or.inl rfl)).2
    simp only [List.append_nil, List.singleton_append] at h
    refine ⟨_, by rw [htk]; exact h, ?_⟩
    have hp := decimalValue_pos c (rest.take (k - 2)) hne hd
    constructor
    · intro _; exact Int.negSucc_ne_zero m
    · intro _
      intro e
      have : decimalValue (c :: rest.take (k - 2)) = 0 := by
        have e2 := Int.neg_eq_zero.mp e
        simpa using e2
      omega

/-- A value within `INT_MIN .. INT_MAX` is stored in an `int` unchanged. -/
theorem toIntAvr_of_range (v : Int) (hmin : INT_MIN ≤ v) (hmax : v ≤ INT_MAX) :
    toIntAvr v = v := by
  simp only [INT_MIN, INT_MAX] at hmin hmax
  simp only [toIntAvr]
  omega

/-- Reading back the decimal text of an integer, after white space and
before the end of the input or a non-digit, gives the integer. -/
theorem scanDecimal_fmtInt (ws : CStr) (v : Int) (tail : CStr)
    (hws : ∀ c ∈ ws, isspace c = true)
    (htail : tail = [] ∨ ∃ c t, tail = c :: t ∧ isdigit c = false) :
    scanDecimal (ws ++ (fmtInt v ++ tail)) = some v := by
  cases v with
  | ofNat n =>
    have h := (scanDecimal_number ws (decDigits n) tail hws (decDigits_ne_nil n)
      (decDigits_isdigit n) htail).1
    simp only [fmtInt, fmtNat_eq_decDigits, h, decimalValue_decDigits]
  | negSucc m =>
    have h := (scanDecimal_number ws (decDigits (m + 1)) tail hws
      (decDigits_ne_nil (m + 1)) (decDigits_isdigit (m + 1)) htail).2
    simp only [fmtInt, fmtNat_eq_decDigits, List.cons_append, h, decimalValue_decDigits]
    rfl

/-- The decimal text of an `int` of the AVR build has at most 6 characters. -/
theorem fmtInt_length_le (v : Int) (hmin : INT_MIN ≤ v) (hmax : v ≤ INT_MAX) :
    (fmtInt v).length ≤ 6 := by
  simp only [INT_MIN, INT_MAX] at hmin hmax
  cases v with
  | ofNat n =>
    have hn : n < 10 ^ (4 + 1) := by
      have : (n : Int) ≤ 32767 := hmax
      omega
    have := decDigits_length_le 4 n hn
    simp only [fmtInt, fmtNat_eq_decDigits]
    omega
  | negSucc m =>
    have hm : m + 1 < 10 ^ (4 + 1) := by
      rw [Int.negSucc_eq] at hmin
      omega
    have := decDigits_length_le 4 (m + 1) hm
    simp only [fmtInt, fmtNat_eq_decDigits, List.length_cons]
    omega

theorem vMcpHandleLine_gpio_write (env : Env) (w : World) (p rest : CStr)
    (hne : p ≠ []) (hws : ∀ c ∈ p, isspace c = false) :
    vMcpHandleLine env ("gpio_write ".toList ++ (p ++ rest)) w =
      vHandleGpioWrite env ((p ++ rest).take 95) w := by
  obtain ⟨a, q, rfl⟩ := List.exists_cons_of_ne_nil hne
  have ha : a ≠ ' ' := by
    intro h
    have := hws a (List.mem_cons_self _ _)
    rw [h] at this
    exact absurd this (by decide)
  have hline : "gpio_write ".toList ++ ((a :: q) ++ rest) =
      "gpio_write".toList ++ ' ' :: a :: (q ++ rest) := rfl
  obtain ⟨h1, h2⟩ := mcp_tool_params "gpio_write".toList a (q ++ rest) (by decide)
    (by decide) ha
  have hpos : scanToolLen ("gpio_write".toList ++ ' ' :: a :: (q ++ rest)) 0 ≠ 0 :=
    scanToolLen_pos 'g' _ (by decide)
  have hnil : "gpio_write".toList ++ ' ' :: a :: (q ++ rest) ≠ [] := by simp
  rw [hline]
  simp only [vMcpHandleLine, hnil, hpos, if_false, h1, h2]
  have hl : mcpLookup "gpio_write".toList (g_asMcpRegistry env) =
      some (vHandleGpioWrite env) := by
    simp [mcpLookup, g_asMcpRegistry]
  rw [hl]
  rfl

/-- What the write handler reads from `p v` for a value v of the type `int`:
the pin p and the value v (the text has at most 38 characters, so the cut to
95 characters removes nothing). -/
theorem sscanf_31s_d_pin_value (p : CStr) (v : Int) (hne : p ≠ [])
    (hlen : p.length ≤ 31) (hws : ∀ c ∈ p, isspace c = false)
    (hmin : INT_MIN ≤ v) (hmax : v ≤ INT_MAX) :
    sscanf_31s_d ((p ++ ' ' :: fmtInt v).take 95) = (2, p, v) := by
  have hl := fmtInt_length_le v hmin hmax
  have htake : (p ++ ' ' :: fmtInt v).take 95 = p ++ ' ' :: fmtInt v :=
    List.take_of_length_le (by simp only [List.length_append, List.length_cons]; omega)
  have hs := scanString_token 31 p (' ' :: fmtInt v) hne hws hlen
    (Or.inr ⟨' ', _, rfl, by decide⟩)
  have hd := scanDecimal_fmtInt [' '] v []
    (by intro c hc; rw [List.mem_singleton.mp hc]; decide) (Or.inl rfl)
  simp only [List.append_nil, List.singleton_append] at hd
  rw [htake]
  simp [sscanf_31s_d, hs, scanInt, hd, toIntAvr_of_range v hmin hmax]

/-- C12 as stated fails for an empty pin name and for a value outside the
range of `int`.  With the empty name in the valid-pin list and stored by the
driver as an output (a write of it through the helper succeeds), the line
`gpio_write ` followed by the empty name, a space and `1` prints
`ERR gpio_write need PIN VALUE` and writes nothing.  And after start-up on the
repository table, with LED1 switched on by `gpio_write LED1 1` (PORT bit 5 of
port B set), the line `gpio_write LED1 65536` (65536 is not 0) writes false:
the PORT bit of LED1 is cleared and the second synchronization message carries
the value 0. -/
theorem C12_counterexample :
    (some [] ∈ mcpPinList envEmptyName ∧
      (eGpioHelperWrite [] true (vAppInit envEmptyName (worldPowerUp 0))).1 =
        RET_TYPE_SUCCESS ∧
      (vMcpHandleLine envEmptyName ("gpio_write ".toList ++ ([] ++ ' ' :: fmtInt 1))
        (vAppInit envEmptyName (worldPowerUp 0))).out =
        "ERR gpio_write need PIN VALUE\n".toList) ∧
    (fmtInt 65536 = "65536".toList ∧ (65536 : Int) ≠ 0 ∧
      (vMcpHandleLine envRepo "gpio_write LED1 1".toList
        (vAppInit envRepo (worldPowerUp 0))).avr.regs (AvrReg.PORT 1) = 32 ∧
      (vMcpHandleLine envRepo ("gpio_write ".toList ++ ("LED1".toList ++ ' ' :: fmtInt 65536))
        (vMcpHandleLine envRepo "gpio_write LED1 1".toList
          (vAppInit envRepo (worldPowerUp 0)))).avr.regs (AvrReg.PORT 1) = 0 ∧
      (vMcpHandleLine envRepo ("gpio_write ".toList ++ ("LED1".toList ++ ' ' :: fmtInt 65536))
        (vMcpHandleLine envRepo "gpio_write LED1 1".toList
          (vAppInit envRepo (worldPowerUp 0)))).out =
        ("OK\n\x7b\"t\":\"GPIO\",\"p\":\"LED1\",\"v\":1\x7d\n" ++
          "OK\n\x7b\"t\":\"GPIO\",\"p\":\"LED1\",\"v\":0\x7d\n").toList) := by
  refine ⟨⟨by decide, by decide, by decide⟩, by decide, by decide, by decide, by decide,
    by decide⟩

/-- C12 (amended): for every non-empty pin name p of the valid-pin list (at
most 31 characters, no white space) and every integer v of the type `int`
(`INT_MIN` to `INT_MAX`) written in decimal, dispatching the line
`gpio_write p v` with a registered driver that has a write operation leaves
the driver state that one call of the driver write with (p, v != 0) leaves;
when that write succeeds the text printed is exactly the line `OK` followed by
the synchronization message for p with value 1 if v != 0 and 0 otherwise, and
when it fails with code e the text printed is exactly the line `ERR e`. -/
theorem C12_gpio_write_end_to_end (env : Env) (w : World) (p : CStr) (v : Int)
    (psGpio : sGpioInterface_t)
    (wr : Option CStr → Bool → AvrState → eRetType_t × AvrState)
    (code : eRetType_t) (st1 : AvrState)
    (hne : p ≠ []) (hlen : p.length ≤ 31) (hws : ∀ c ∈ p, isspace c = false)
    (hmin : INT_MIN ≤ v) (hmax : v ≤ INT_MAX)
    (hvalid : some p ∈ mcpPinList env)
    (hreg : psHalGetGpioInterface w = some psGpio)
    (hwr : psGpio.eHalGpioWriteFunc = some wr)
    (hdrv : wr (some p) (decide (v ≠ 0)) w.avr = (code, st1)) :
    (code = RET_TYPE_SUCCESS →
      vMcpHandleLine env ("gpio_write ".toList ++ (p ++ ' ' :: fmtInt v)) w =
        { w with
          avr := st1
          out := w.out ++ ("OK\n".toList ++
            ("\x7b\"t\":\"GPIO\",\"p\":\"".toList ++ p ++ "\",\"v\":".toList ++
              (if v ≠ 0 then ['1'] else ['0']) ++ "\x7d\n".toList)) }) ∧
    (code ≠ RET_TYPE_SUCCESS →
      vMcpHandleLine env ("gpio_write ".toList ++ (p ++ ' ' :: fmtInt v)) w =
        { w with
          avr := st1
          out := w.out ++ ("ERR ".toList ++ fmtNat code.toNat ++ "\n".toList) }) := by
  have hv : bIsValidPin env p = true := (bIsValidPin_iff env p).mpr hvalid
  have hs := sscanf_31s_d_pin_value p v hne hlen hws hmin hmax
  rw [vMcpHandleLine_gpio_write env w p (' ' :: fmtInt v) hne hws]
  constructor
  · intro hc
    simp only [vHandleGpioWrite, hs, hv, eGpioHelperWrite, hreg, hwr, hdrv, hc]
    by_cases h0 : v = 0 <;>
      simp [h0, vHelperSend, printf, syncMessage, fmtInt, fmtNat, Nat.toDigits,
        Nat.toDigitsCore, Nat.digitChar]
  · intro hc
    simp only [vHandleGpioWrite, hs, hv, eGpioHelperWrite, hreg, hwr, hdrv]
    simp [hc, printf]

/-- C12 (amended) at the line `gpio_write LED1 1` after start-up: the AVR
driver write runs with `true`, `OK` and the synchronization message with
value 1 are printed. -/
theorem C12_gpio_write_end_to_end_witness :
    (vMcpHandleLine envRepo ("gpio_write ".toList ++ ("LED1".toList ++ ' ' :: fmtInt 1))
      (vAppInit envRepo (worldPowerUp 0))).out =
      "OK\n\x7b\"t\":\"GPIO\",\"p\":\"LED1\",\"v\":1\x7d\n".toList :=
  (congrArg World.out
    ((C12_gpio_write_end_to_end envRepo (vAppInit envRepo (worldPowerUp 0))
      "LED1".toList 1 (sGpioInterfaceAVR envRepo) eGpioAVRWrite RET_TYPE_SUCCESS
      (eGpioAVRWrite (some "LED1".toList) true (vAppInit envRepo (worldPowerUp 0)).avr).2
      (by decide) (by decide) (by decide) (by decide) (by decide) (by decide) rfl rfl
      (Prod.ext (by decide) rfl)).1 rfl)).trans (by decide)

/-! ### C14: the digital-twin override -/

theorem cstrOf_of_no_nul (l : List Char) (h : ∀ c ∈ l, c ≠ NUL) : cstrOf l = l := by
  induction l with
  | nil => rfl
  | cons a l ih =>
    have ha := h a (List.mem_cons_self _ _)
    simp [cstrOf, ha, ih (fun c hc => h c (List.mem_cons_of_mem _ hc))]

theorem parsePinNameLoop_name (name : CStr) (rest : List Char) :
    ∀ i : Nat, DQUOTE ∉ name → i + name.length ≤ 31 →
      parsePinNameLoop (name ++ DQUOTE :: rest) i = name := by
  induction name with
  | nil => intro i _ _; simp [parsePinNameLoop]
  | cons a name ih =>
    intro i hq hlen
    have ha : a ≠ DQUOTE := fun e => hq (by rw [e]; exact List.mem_cons_self _ _)
    have hq2 : DQUOTE ∉ name := fun e => hq (List.mem_cons_of_mem _ e)
    simp only [List.length_cons] at hlen
    have hi : i < 31 := by omega
    have e : (a :: name) ++ DQUOTE :: rest = a :: (name ++ DQUOTE :: rest) := rfl
    rw [e, parsePinNameLoop, if_pos ⟨ha, hi⟩, ih (i + 1) hq2 (by omega)]

/-- Reading back with `atoi` the decimal text of an `int` that ends the
string or is followed by a non-digit gives the integer. -/
theorem atoi_fmtInt (v : Int) (tail : CStr)
    (htail : tail = [] ∨ ∃ c t, tail = c :: t ∧ isdigit c = false)
    (hmin : INT_MIN ≤ v) (hmax : v ≤ INT_MAX) :
    atoi (fmtInt v ++ tail) = v := by
  have h := scanDecimal_fmtInt [] v tail (by simp) htail
  simp only [List.nil_append] at h
  simp [atoi, scanInt, h, toIntAvr_of_range v hmin hmax]

theorem psFindPinFrom_none (name : CStr) (ps : List sPinState_t) :
    ∀ k : Nat, (psFindPinFrom name ps k = none ↔ ∀ p ∈ ps, p.acPinName ≠ name) := by
  induction ps with
  | nil => intro k; simp [psFindPinFrom]
  | cons q qs ih =>
    intro k
    by_cases hq : q.acPinName = name
    · simp [psFindPinFrom, hq]
    · simp [psFindPinFrom, hq, ih (k + 1)]

theorem psFindPinFrom_first (name : CStr) (ps : List sPinState_t) :
    ∀ (k i : Nat), psFindPinFrom name ps k = some i →
      ∀ j, j < i - k → ∀ pj, ps.get? j = some pj → pj.acPinName ≠ name := by
  induction ps with
  | nil => intro k i h; simp [psFindPinFrom] at h
  | cons q qs ih =>
    intro k i h j hj pj hpj
    by_cases hq : q.acPinName = name
    · simp only [psFindPinFrom, hq, if_true, Option.some.injEq] at h
      omega
    · simp only [psFindPinFrom, hq, if_false] at h
      cases j with
      | zero =>
        simp only [List.get?_cons_zero, Option.some.injEq] at hpj
        rw [← hpj]; exact hq
      | succ j =>
        have hb := (psFindPinFrom_bound name qs (k + 1) i h).1
        simp only [List.get?_cons_succ] at hpj
        exact ih (k + 1) i h j (by omega) pj hpj

/-- The effect of `vGpioAVRSetSimulated`: registers and the initialised flag
are kept; when the driver is initialised and `psFindPin` finds index i, the
pin at i is the first stored pin with the name, it only gets a new simulated
value, and every other pin is kept; when no stored pin has the name the state
is unchanged. -/
theorem vGpioAVRSetSimulated_effect (name : CStr) (b : Bool) (st : AvrState) :
    (vGpioAVRSetSimulated name b st).regs = st.regs ∧
    (vGpioAVRSetSimulated name b st).g_bInitialized = st.g_bInitialized ∧
    (st.g_bInitialized = true → ∀ i, psFindPin st name = some i →
      (∀ j, j < i → ∀ pj, st.g_psPins.get? j = some pj → pj.acPinName ≠ name) ∧
      ∃ pin, st.g_psPins.get? i = some pin ∧ pin.acPinName = name ∧
        (vGpioAVRSetSimulated name b st).g_psPins.get? i =
          some { pin with bSimulatedValue := b } ∧
        ∀ j, j ≠ i →
          (vGpioAVRSetSimulated name b st).g_psPins.get? j = st.g_psPins.get? j) ∧
    ((∀ pin ∈ st.g_psPins, pin.acPinName ≠ name) → vGpioAVRSetSimulated name b st = st) ∧
    (st.g_bInitialized = false → vGpioAVRSetSimulated name b st = st) := by
  refine ⟨?_, ?_, ?_, ?_, ?_⟩
  · unfold vGpioAVRSetSimulated
    split
    · rfl
    · split <;> rfl
  · unfold vGpioAVRSetSimulated
    split
    · rfl
    · split <;> rfl
  · intro hinit i hfind
    have hb := psFindPinFrom_bound name st.g_psPins 0 i hfind
    have hf := psFindPinFrom_first name st.g_psPins 0 i hfind
    obtain ⟨_, pin, hpin, hn⟩ := hb
    simp only [Nat.sub_zero] at hpin hf
    refine ⟨hf, pin, hpin, hn, ?_, ?_⟩
    · have hp2 : st.g_psPins[i]? = some pin := by simpa using hpin
      simp [vGpioAVRSetSimulated, hinit, hfind, hp2]
    · intro j hj
      simp [vGpioAVRSetSimulated, hinit, hfind, List.getElem?_modify_ne _ _ (Ne.symm hj)]
  · intro hall
    have hnone := (psFindPinFrom_none name st.g_psPins 0).mpr hall
    unfold vGpioAVRSetSimulated
    split
    · rfl
    · simp only [psFindPin, hnone]
  · intro h
    simp [vGpioAVRSetSimulated, h]

/-- C14 as stated fails for an integer outside the range of `int`: after
start-up on the repository table the simulated value of BUTTON1 is true, and
the line `{"p":"BUTTON1","v":65536}` (65536 is not 0) sets it to false, since
`atoi` returns an `int` and 65536 wraps around to 0. -/
theorem C14_counterexample :
    (65536 : Int) ≠ 0 ∧
    bGpioAVRGetSimulated "BUTTON1".toList (vAppInit envRepo (worldPowerUp 32)).avr = true ∧
    bGpioAVRGetSimulated "BUTTON1".toList
      (vOnUartLineReceived envRepo
        ("\x7b\"p\":\"BUTTON1\",\"v\":65536\x7d".toList ++ NUL :: [])
        (vAppInit envRepo (worldPowerUp 32))).avr = false := by
  refine ⟨by decide, by decide, by decide⟩

/-- C14 (amended): for a line that starts with an opening brace, whose first
`"p":"` key is followed by a name of at most 31 characters without a double
quote and a closing double quote, and whose first `"v":` key is followed by an
integer of the type `int` (`INT_MIN` to `INT_MAX`) in decimal,
`vOnUartLineReceived` does exactly `vGpioAVRSetSimulated(name, int != 0)`: on
a driver that stores pins only when initialised, the first stored pin with
that name gets the simulated value (int != 0) and keeps its other fields,
every other pin, every register, the registered interface and the output are
unchanged, and when no stored pin has that name nothing changes.  When the
`"p":"` or the `"v":` key is missing in a line that starts with a brace,
nothing changes either.  Whatever lies in memory after the NUL of the line
plays no part. -/
theorem C14_digital_twin_override (env : Env) (w : World)
    (line pre name r1 q intTail : CStr) (v : Int) (tail : List Char)
    (hbrace : line.head? = some (Char.ofNat 123))
    (hnul : ∀ c ∈ line, c ≠ NUL)
    (hp : line = pre ++ "\"p\":\"".toList ++ name ++ DQUOTE :: r1)
    (hpfirst : strstr line "\"p\":\"".toList = some pre.length)
    (hname : DQUOTE ∉ name) (hlen : name.length ≤ 31)
    (hv : line = q ++ "\"v\":".toList ++ fmtInt v ++ intTail)
    (hvfirst : strstr line "\"v\":".toList = some q.length)
    (hintTail : intTail = [] ∨ ∃ c t, intTail = c :: t ∧ isdigit c = false)
    (hmin : INT_MIN ≤ v) (hmax : v ≤ INT_MAX)
    (hinv : w.avr.g_psPins ≠ [] → w.avr.g_bInitialized = true) :
    vOnUartLineReceived env (line ++ NUL :: tail) w =
      { w with avr := vGpioAVRSetSimulated name (decide (v ≠ 0)) w.avr } ∧
    (vGpioAVRSetSimulated name (decide (v ≠ 0)) w.avr).regs = w.avr.regs ∧
    (∀ i, psFindPin w.avr name = some i →
      (∀ j, j < i → ∀ pj, w.avr.g_psPins.get? j = some pj → pj.acPinName ≠ name) ∧
      ∃ pin, w.avr.g_psPins.get? i = some pin ∧ pin.acPinName = name ∧
        (vGpioAVRSetSimulated name (decide (v ≠ 0)) w.avr).g_psPins.get? i =
          some { pin with bSimulatedValue := decide (v ≠ 0) } ∧
        ∀ j, j ≠ i →
          (vGpioAVRSetSimulated name (decide (v ≠ 0)) w.avr).g_psPins.get? j =
            w.avr.g_psPins.get? j) ∧
    ((∀ pin ∈ w.avr.g_psPins, pin.acPinName ≠ name) →
      vOnUartLineReceived env (line ++ NUL :: tail) w = w) ∧
    (∀ (line2 : CStr) (tail2 : List Char),
      line2.head? = some (Char.ofNat 123) → (∀ c ∈ line2, c ≠ NUL) →
      (strstr line2 "\"p\":\"".toList = none ∨ strstr line2 "\"v\":".toList = none) →
      vOnUartLineReceived env (line2 ++ NUL :: tail2) w = w) := by
  have hmain : vOnUartLineReceived env (line ++ NUL :: tail) w =
      { w with avr := vGpioAVRSetSimulated name (decide (v ≠ 0)) w.avr } := by
    obtain ⟨l1, hl1⟩ : ∃ l1, line = Char.ofNat 123 :: l1 := by
      cases line with
      | nil => simp at hbrace
      | cons c l1 =>
        simp only [List.head?_cons, Option.some.injEq] at hbrace
        exact ⟨l1, by rw [hbrace]⟩
    have hcs : cstrOf (line ++ NUL :: tail) = line := cstrOf_append_nul line tail hnul
    have hdropP : (line ++ NUL :: tail).drop (pre.length + 5) =
        name ++ DQUOTE :: (r1 ++ NUL :: tail) := by
      have e : line ++ NUL :: tail =
          (pre ++ "\"p\":\"".toList) ++ (name ++ DQUOTE :: (r1 ++ NUL :: tail)) := by
        rw [hp]; simp
      rw [e]
      exact List.drop_left' (by simp)
    have hnameNul : ∀ c ∈ name, c ≠ NUL := by
      intro c hc
      apply hnul c
      rw [hp]
      simp [hc]
    have hdropV : line.drop (q.length + 4) = fmtInt v ++ intTail := by
      have e : line = (q ++ "\"v\":".toList) ++ (fmtInt v ++ intTail) := by
        rw [hv]; simp
      rw [e]
      exact List.drop_left' (by simp)
    have hhead : vOnUartLineReceived env (line ++ NUL :: tail) w =
        vParseAndApplyInput (line ++ NUL :: tail) w := by
      rw [hl1]
      have h123 : Char.ofNat 123 ≠ NUL := by decide
      simp [vOnUartLineReceived, vApplyReceivedJsonLine, h123]
    rw [hhead]
    simp only [vParseAndApplyInput, hcs, hpfirst, hvfirst, hdropP, hdropV,
      parsePinNameLoop_name name _ 0 hname (by omega), cstrOf_of_no_nul name hnameNul,
      atoi_fmtInt v intTail hintTail hmin hmax]
  obtain ⟨e1, _, e3, e4, e5⟩ := vGpioAVRSetSimulated_effect name (decide (v ≠ 0)) w.avr
  refine ⟨hmain, e1, ?_, ?_, ?_⟩
  · intro i hfind
    have hinit : w.avr.g_bInitialized = true := by
      apply hinv
      intro hnil
      simp [psFindPin, hnil, psFindPinFrom] at hfind
    exact e3 hinit i hfind
  · intro hall
    rw [hmain, e4 hall]
  · intro line2 tail2 hb2 hn2 hmiss
    obtain ⟨l2, hl2⟩ : ∃ l2, line2 = Char.ofNat 123 :: l2 := by
      cases line2 with
      | nil => simp at hb2
      | cons c l2 =>
        simp only [List.head?_cons, Option.some.injEq] at hb2
        exact ⟨l2, by rw [hb2]⟩
    have hcs2 : cstrOf (line2 ++ NUL :: tail2) = line2 := cstrOf_append_nul line2 tail2 hn2
    have hhead : vOnUartLineReceived env (line2 ++ NUL :: tail2) w =
        vParseAndApplyInput (line2 ++ NUL :: tail2) w := by
      rw [hl2]
      have h123 : Char.ofNat 123 ≠ NUL := by decide
      simp [vOnUartLineReceived, vApplyReceivedJsonLine, h123]
    rw [hhead]
    rcases hmiss with h | h
    · simp only [vParseAndApplyInput, hcs2, h]
    · simp only [vParseAndApplyInput, hcs2, h]
      split <;> simp_all

/-- C14 (amended) at the line `{"p":"BUTTON1","v":0}` after start-up: the simulated
value of BUTTON1, true by default, becomes false. -/
theorem C14_digital_twin_override_witness :
    bGpioAVRGetSimulated "BUTTON1".toList (vAppInit envRepo (worldPowerUp 32)).avr = true ∧
    bGpioAVRGetSimulated "BUTTON1".toList
      (vOnUartLineReceived envRepo
        ("\x7b\"p\":\"BUTTON1\",\"v\":0\x7d".toList ++ NUL :: [])
        (vAppInit envRepo (worldPowerUp 32))).avr = false :=
  ⟨by decide,
    (congrArg (fun x : World => bGpioAVRGetSimulated "BUTTON1".toList x.avr)
      (C14_digital_twin_override envRepo (vAppInit envRepo (worldPowerUp 32))
        "\x7b\"p\":\"BUTTON1\",\"v\":0\x7d".toList "\x7b".toList "BUTTON1".toList
        ",\"v\":0\x7d".toList "\x7b\"p\":\"BUTTON1\",".toList "\x7d".toList 0 []
        (by decide) (by decide) (by decide) (by decide) (by decide) (by decide)
        (by decide) (by decide) (Or.inr ⟨Char.ofNat 125, [], by decide, by decide⟩)
        (by decide) (by decide) (fun _ => by decide)).1).trans (by decide)⟩

/-! ### The stored pins of the AVR driver over its history -/

theorem avrInitPin_pins (chip : AvrChip) (st : AvrState) (cfg : sGpioPinConfig_t) :
    (avrInitPin chip st cfg).g_psPins =
      (if st.g_psPins.length < MAX_PINS then st.g_psPins ++ [avrPinOfConfig chip cfg]
       else st.g_psPins) ∧
    (avrInitPin chip st cfg).g_bInitialized = st.g_bInitialized := by
  constructor
  · simp only [avrInitPin, avrPinOfConfig]
  · rfl

theorem avrInit_fold_pins (chip : AvrChip) (cfgs : List sGpioPinConfig_t) :
    ∀ st : AvrState, st.g_psPins.length ≤ 32 →
      (cfgs.foldl (avrInitPin chip) st).g_psPins =
        st.g_psPins ++ (cfgs.take (32 - st.g_psPins.length)).map (avrPinOfConfig chip) ∧
      (cfgs.foldl (avrInitPin chip) st).g_bInitialized = st.g_bInitialized := by
  induction cfgs with
  | nil => intro st _; simp
  | cons c cs ih =>
    intro st hlen
    obtain ⟨hp, hi⟩ := avrInitPin_pins chip st c
    simp only [List.foldl_cons]
    by_cases hlt : st.g_psPins.length < 32
    · have hp2 : (avrInitPin chip st c).g_psPins = st.g_psPins ++ [avrPinOfConfig chip c] := by
        rw [hp]; simp [MAX_PINS, hlt]
      obtain ⟨a, b⟩ := ih (avrInitPin chip st c) (by rw [hp2]; simp; omega)
      refine ⟨?_, by rw [b, hi]⟩
      rw [a, hp2]
      obtain ⟨j, hj⟩ : ∃ j, 32 - st.g_psPins.length = j + 1 :=
        ⟨31 - st.g_psPins.length, by omega⟩
      have hj2 : 32 - (st.g_psPins ++ [avrPinOfConfig chip c]).length = j := by
        simp; omega
      rw [hj, hj2]
      simp
    · have hp2 : (avrInitPin chip st c).g_psPins = st.g_psPins := by
        rw [hp]; simp [MAX_PINS, hlt]
      obtain ⟨a, b⟩ := ih (avrInitPin chip st c) (by rw [hp2]; exact hlen)
      refine ⟨?_, by rw [b, hi]⟩
      rw [a, hp2]
      have h0 : 32 - st.g_psPins.length = 0 := by omega
      simp [h0]

/-- What start-up stores: one pin for each of the first 32 table entries. -/
theorem vGpioAVRInit_powerUp (chip : AvrChip) (cfgs : List sGpioPinConfig_t)
    (regs : AvrReg → Nat) :
    (vGpioAVRInit chip cfgs (avrStateInit regs)).g_psPins =
      (cfgs.take 32).map (avrPinOfConfig chip) ∧
    (vGpioAVRInit chip cfgs (avrStateInit regs)).g_bInitialized = true := by
  have h := avrInit_fold_pins chip cfgs { avrStateInit regs with g_bInitialized := true }
    (by simp [avrStateInit])
  simp only [vGpioAVRInit, avrStateInit, Bool.false_eq_true, if_false]
  simpa [avrStateInit] using h

theorem modify_id_eq (l : List sPinState_t) : ∀ i : Nat, l.modify id i = l := by
  induction l with
  | nil => intro i; simp
  | cons a l ih =>
    intro i
    cases i with
    | zero => simp
    | succ i => simp [ih i]

theorem mem_modify_cases (f : sPinState_t → sPinState_t) (l : List sPinState_t) :
    ∀ (i : Nat) (p : sPinState_t), p ∈ l.modify f i →
      p ∈ l ∨ ∃ q, l.get? i = some q ∧ p = f q := by
  induction l with
  | nil => intro i p h; simp at h
  | cons a l ih =>
    intro i p h
    cases i with
    | zero =>
      simp only [List.modify_zero_cons, List.mem_cons] at h
      rcases h with h | h
      · exact Or.inr ⟨a, by simp, h⟩
      · exact Or.inl (List.mem_cons_of_mem _ h)
    | succ i =>
      simp only [List.modify_succ_cons, List.mem_cons] at h
      rcases h with h | h
      · exact Or.inl (by rw [h]; exact List.mem_cons_self _ _)
      · rcases ih i p h with h2 | ⟨q, hq, hp⟩
        · exact Or.inl (List.mem_cons_of_mem _ h2)
        · exact Or.inr ⟨q, by simpa using hq, hp⟩

theorem map_modify_same {β : Type} (g : sPinState_t → β) (f : sPinState_t → sPinState_t)
    (hf : ∀ q, g (f q) = g q) (l : List sPinState_t) :
    ∀ i : Nat, (l.modify f i).map g = l.map g := by
  induction l with
  | nil => intro i; simp
  | cons a l ih =>
    intro i
    cases i with
    | zero => simp [hf]
    | succ i => simp [ih i]

theorem eGpioAVRConfigure_state (c : Option sGpioConfig_t) (st : AvrState) :
    (eGpioAVRConfigure c st).2 = st := by
  simp only [eGpioAVRConfigure]
  split
  · rfl
  · split
    · rfl
    · split
      · rfl
      · split
        · split <;> rfl
        · rfl

theorem eGpioAVRRead_state (n : Option CStr) (pb : Option Bool) (st : AvrState) :
    (eGpioAVRRead n pb st).2.2 = st ∨
    ∃ (i : Nat) (v : Bool), (eGpioAVRRead n pb st).2.2 =
      { st with g_psPins := st.g_psPins.modify (fun q => { q with bValue := v }) i } := by
  simp only [eGpioAVRRead]
  split
  · exact Or.inl rfl
  · exact Or.inl rfl
  · split
    · exact Or.inl rfl
    · split
      · exact Or.inl rfl
      · split
        · exact Or.inl rfl
        · split
          · exact Or.inl rfl
          · exact Or.inr ⟨_, _, rfl⟩

theorem eGpioAVRWrite_state (n : Option CStr) (b : Bool) (st : AvrState) :
    (eGpioAVRWrite n b st).2 = st ∨
    ∃ (i : Nat) (regs1 : AvrReg → Nat), (eGpioAVRWrite n b st).2 =
      { st with g_psPins := st.g_psPins.modify (fun q => { q with bValue := b }) i
                regs := regs1 } := by
  simp only [eGpioAVRWrite]
  split
  · exact Or.inl rfl
  · split
    · exact Or.inl rfl
    · split
      · exact Or.inl rfl
      · split
        · exact Or.inl rfl
        · split
          · exact Or.inl rfl
          · split
            · exact Or.inl rfl
            · exact Or.inr ⟨_, _, rfl⟩

theorem vGpioAVRSetSimulated_state (n : CStr) (b : Bool) (st : AvrState) :
    vGpioAVRSetSimulated n b st = st ∨
    ∃ i : Nat, psFindPin st n = some i ∧ vGpioAVRSetSimulated n b st =
      { st with g_psPins := st.g_psPins.modify (fun q => { q with bSimulatedValue := b }) i } := by
  simp only [vGpioAVRSetSimulated]
  split
  · exact Or.inl rfl
  · split
    · rename_i i hfind
      exact Or.inr ⟨i, hfind, rfl⟩
    · exact Or.inl rfl

/-- Every event keeps an initialised driver initialised and changes its pin
list at most at one index, by a function that keeps name, direction, pull and
the configured flag; the function also keeps the simulated value, unless the
event is `vGpioAVRSetSimulated(n, b)` and the pin at that index is named n. -/
theorem avrStep_frame (env : Env) (st : AvrState) (op : AvrOp)
    (hinit : st.g_bInitialized = true) :
    (avrStep env st op).g_bInitialized = true ∧
    ∃ (f : sPinState_t → sPinState_t) (i : Nat),
      (avrStep env st op).g_psPins = st.g_psPins.modify f i ∧
      (∀ q, (f q).acPinName = q.acPinName ∧ (f q).ePull = q.ePull ∧
        (f q).eDirection = q.eDirection ∧ (f q).bConfigured = q.bConfigured) ∧
      ((∀ q, (f q).bSimulatedValue = q.bSimulatedValue) ∨
        ∃ n b, op = AvrOp.setSimulated n b ∧
          ∀ q, st.g_psPins.get? i = some q → q.acPinName = n) := by
  have hid : ∀ s1 : AvrState, s1 = st →
      s1.g_bInitialized = true ∧
      ∃ (f : sPinState_t → sPinState_t) (i : Nat),
        s1.g_psPins = st.g_psPins.modify f i ∧
        (∀ q, (f q).acPinName = q.acPinName ∧ (f q).ePull = q.ePull ∧
          (f q).eDirection = q.eDirection ∧ (f q).bConfigured = q.bConfigured) ∧
        ((∀ q, (f q).bSimulatedValue = q.bSimulatedValue) ∨
          ∃ n b, op = AvrOp.setSimulated n b ∧
            ∀ q, st.g_psPins.get? i = some q → q.acPinName = n) := by
    intro s1 h
    exact ⟨by rw [h]; exact hinit, id, 0, by rw [h, modify_id_eq],
      fun q => ⟨rfl, rfl, rfl, rfl⟩, Or.inl (fun q => rfl)⟩
  cases op with
  | init => exact hid _ (by simp [avrStep, vGpioAVRInit, hinit])
  | configure c => exact hid _ (by simp only [avrStep]; exact eGpioAVRConfigure_state c st)
  | read n pb =>
    rcases eGpioAVRRead_state n pb st with h | ⟨i, v, h⟩
    · exact hid _ (by simp only [avrStep]; exact h)
    · simp only [avrStep]
      rw [h]
      exact ⟨hinit, _, i, rfl, fun q => ⟨rfl, rfl, rfl, rfl⟩, Or.inl (fun q => rfl)⟩
  | write n b =>
    rcases eGpioAVRWrite_state n b st with h | ⟨i, r1, h⟩
    · exact hid _ (by simp only [avrStep]; exact h)
    · simp only [avrStep]
      rw [h]
      exact ⟨hinit, _, i, rfl, fun q => ⟨rfl, rfl, rfl, rfl⟩, Or.inl (fun q => rfl)⟩
  | setSimulated n b =>
    rcases vGpioAVRSetSimulated_state n b st with h | ⟨i, hfind, h⟩
    · exact hid _ (by simp only [avrStep]; exact h)
    · simp only [avrStep]
      rw [h]
      refine ⟨hinit, _, i, rfl, fun q => ⟨rfl, rfl, rfl, rfl⟩, Or.inr ⟨n, b, rfl, ?_⟩⟩
      intro q hq
      obtain ⟨_, p, hp, hn⟩ := psFindPinFrom_bound n st.g_psPins 0 i hfind
      simp only [Nat.sub_zero] at hp
      rw [hp] at hq
      simp only [Option.some.injEq] at hq
      rw [← hq]; exact hn
  | pinLevels port levels =>
    simp only [avrStep]
    exact ⟨hinit, id, 0, by simp [modify_id_eq], fun q => ⟨rfl, rfl, rfl, rfl⟩,
      Or.inl (fun q => rfl)⟩

theorem avrStep_static (env : Env) (st : AvrState) (op : AvrOp)
    (hinit : st.g_bInitialized = true) :
    (avrStep env st op).g_bInitialized = true ∧
    (avrStep env st op).g_psPins.map (fun p => (p.acPinName, p.ePull)) =
      st.g_psPins.map (fun p => (p.acPinName, p.ePull)) ∧
    ((∀ p ∈ st.g_psPins, p.bConfigured = true) →
      ∀ p ∈ (avrStep env st op).g_psPins, p.bConfigured = true) := by
  obtain ⟨h1, f, i, hp, hf, _⟩ := avrStep_frame env st op hinit
  refine ⟨h1, ?_, ?_⟩
  · rw [hp]
    exact map_modify_same _ f (fun q => by rw [(hf q).1, (hf q).2.1]) _ i
  · intro hall p hmem
    rw [hp] at hmem
    rcases mem_modify_cases f _ i p hmem with h | ⟨q, hq, rfl⟩
    · exact hall p h
    · rw [(hf q).2.2.2]
      exact hall q (List.get?_mem hq)

theorem avrStep_simulated (env : Env) (st : AvrState) (op : AvrOp) (name : CStr)
    (hinit : st.g_bInitialized = true)
    (hP : ∀ p ∈ st.g_psPins, p.acPinName = name →
      p.bSimulatedValue = decide (p.ePull = GPIO_PULL_UP))
    (hop : ∀ b, op ≠ AvrOp.setSimulated name b) :
    ∀ p ∈ (avrStep env st op).g_psPins, p.acPinName = name →
      p.bSimulatedValue = decide (p.ePull = GPIO_PULL_UP) := by
  obtain ⟨_, f, i, hp, hf, hsim⟩ := avrStep_frame env st op hinit
  intro p hmem hname
  rw [hp] at hmem
  rcases mem_modify_cases f _ i p hmem with h | ⟨q, hq, rfl⟩
  · exact hP p h hname
  · rw [(hf q).1] at hname
    rcases hsim with hs | ⟨n, b, hop2, hn⟩
    · rw [hs q, (hf q).2.1]
      exact hP q (List.get?_mem hq) hname
    · have : n = name := by rw [← hn q hq, hname]
      rw [this] at hop2
      exact absurd hop2 (hop b)

theorem avrRun_static (env : Env) (ops : List AvrOp) :
    ∀ st : AvrState, st.g_bInitialized = true →
      (avrRun env ops st).g_bInitialized = true ∧
      (avrRun env ops st).g_psPins.map (fun p => (p.acPinName, p.ePull)) =
        st.g_psPins.map (fun p => (p.acPinName, p.ePull)) ∧
      ((∀ p ∈ st.g_psPins, p.bConfigured = true) →
        ∀ p ∈ (avrRun env ops st).g_psPins, p.bConfigured = true) := by
  induction ops with
  | nil => intro st h; exact ⟨h, rfl, fun hc => hc⟩
  | cons op ops ih =>
    intro st h
    obtain ⟨a1, a2, a3⟩ := avrStep_static env st op h
    obtain ⟨b1, b2, b3⟩ := ih (avrStep env st op) a1
    exact ⟨b1, b2.trans a2, fun hc => b3 (a3 hc)⟩

theorem avrRun_simulated (env : Env) (name : CStr) (ops : List AvrOp) :
    ∀ st : AvrState, st.g_bInitialized = true →
      (∀ p ∈ st.g_psPins, p.acPinName = name →
        p.bSimulatedValue = decide (p.ePull = GPIO_PULL_UP)) →
      (∀ b, AvrOp.setSimulated name b ∉ ops) →
      ∀ p ∈ (avrRun env ops st).g_psPins, p.acPinName = name →
        p.bSimulatedValue = decide (p.ePull = GPIO_PULL_UP) := by
  induction ops with
  | nil => intro st _ hP _; exact hP
  | cons op ops ih =>
    intro st h hP hno
    have hop : ∀ b, op ≠ AvrOp.setSimulated name b :=
      fun b e => hno b (by rw [e]; exact List.mem_cons_self _ _)
    exact ih (avrStep env st op) (avrStep_static env st op h).1
      (avrStep_simulated env st op name h hP hop)
      (fun b hm => hno b (List.mem_cons_of_mem _ hm))

/-- The stored pins at any point after start-up: the driver is initialised,
names and pulls are those of the first 32 table entries (names cut to 31
characters), and every stored pin is configured. -/
theorem avrAfter_static (env : Env) (regs : AvrReg → Nat) (ops : List AvrOp) :
    (avrAfter env regs ops).g_bInitialized = true ∧
    (avrAfter env regs ops).g_psPins.map (fun p => (p.acPinName, p.ePull)) =
      (env.g_psGpioPinConfigs.take 32).map (fun c => (c.pcPinName.take 31, c.ePull)) ∧
    ∀ p ∈ (avrAfter env regs ops).g_psPins, p.bConfigured = true := by
  obtain ⟨i1, i2⟩ := vGpioAVRInit_powerUp env.chip env.g_psGpioPinConfigs regs
  obtain ⟨a1, a2, a3⟩ := avrRun_static env ops _ i2
  refine ⟨a1, ?_, ?_⟩
  · rw [avrAfter, a2, i1]
    simp [avrPinOfConfig, MAX_PIN_NAME_LEN, Function.comp_def]
  · apply a3
    rw [i1]
    intro p hp
    obtain ⟨c, _, rfl⟩ := List.mem_map.mp hp
    rfl

/-- The simulated value of a pin for which `vGpioAVRSetSimulated` has not
been called since start-up is the released level of its pull. -/
theorem avrAfter_simulated (env : Env) (regs : AvrReg → Nat) (ops : List AvrOp)
    (name : CStr) (hno : ∀ b, AvrOp.setSimulated name b ∉ ops) :
    ∀ p ∈ (avrAfter env regs ops).g_psPins, p.acPinName = name →
      p.bSimulatedValue = decide (p.ePull = GPIO_PULL_UP) := by
  obtain ⟨i1, i2⟩ := vGpioAVRInit_powerUp env.chip env.g_psGpioPinConfigs regs
  apply avrRun_simulated env name ops _ i2 _ hno
  rw [i1]
  intro p hp _
  obtain ⟨c, _, rfl⟩ := List.mem_map.mp hp
  simp [avrPinOfConfig]

theorem psFindPinFrom_congr (name : CStr) (l1 : List sPinState_t) :
    ∀ (l2 : List sPinState_t) (k : Nat),
      l1.map (fun p => p.acPinName) = l2.map (fun p => p.acPinName) →
      psFindPinFrom name l1 k = psFindPinFrom name l2 k := by
  induction l1 with
  | nil =>
    intro l2 k h
    cases l2 with
    | nil => rfl
    | cons b l2 => simp at h
  | cons a l1 ih =>
    intro l2 k h
    cases l2 with
    | nil => simp at h
    | cons b l2 =>
      simp only [List.map_cons, List.cons.injEq] at h
      simp only [psFindPinFrom, h.1]
      rw [ih l2 (k + 1) h.2]

/-- The pull the helper finds in the table is the pull of the stored pin the
driver finds, when the stored names and pulls are those of a front part of
the table. -/
theorem helperFindPull_of_stored (name : CStr) (ps : List sPinState_t) :
    ∀ (cs : List sGpioPinConfig_t) (n k i : Nat),
      ps.map (fun p => (p.acPinName, p.ePull)) =
        (cs.take n).map (fun c => (c.pcPinName, c.ePull)) →
      psFindPinFrom name ps k = some i →
      ∃ p, ps.get? (i - k) = some p ∧ helperFindPull name cs = p.ePull := by
  induction ps with
  | nil => intro cs n k i _ h; simp [psFindPinFrom] at h
  | cons p ps ih =>
    intro cs n k i hmap hfind
    cases cs with
    | nil => simp at hmap
    | cons c cs =>
      cases n with
      | zero => simp at hmap
      | succ n =>
        simp only [List.take_succ_cons, List.map_cons, List.cons.injEq, Prod.mk.injEq] at hmap
        obtain ⟨⟨hn, hpl⟩, hrest⟩ := hmap
        by_cases hp : p.acPinName = name
        · simp only [psFindPinFrom, hp, if_true, Option.some.injEq] at hfind
          subst hfind
          refine ⟨p, by simp, ?_⟩
          have hc : c.pcPinName = name := by rw [← hn, hp]
          simp [helperFindPull, hc, hpl]
        · simp only [psFindPinFrom, hp, if_false] at hfind
          have hc : c.pcPinName ≠ name := by rw [← hn]; exact hp
          obtain ⟨q, hq, hpull⟩ := ih cs n (k + 1) i hrest hfind
          have hb := (psFindPinFrom_bound name ps (k + 1) i hfind).1
          refine ⟨q, ?_, ?_⟩
          · have e : i - k = (i - (k + 1)) + 1 := by omega
            rw [e]
            simpa using hq
          · simp only [helperFindPull, hc, if_false]
            exact hpull

/-- A successful `eGpioAVRRead`: the pin was found, and the state only
differs in the cached value of that pin. -/
theorem eGpioAVRRead_success (name : CStr) (c0 P : Bool) (st st1 : AvrState)
    (h : eGpioAVRRead (some name) (some c0) st = (RET_TYPE_SUCCESS, some P, st1)) :
    ∃ i p, psFindPin st name = some i ∧ st.g_psPins.get? i = some p ∧
      st1.g_psPins = st.g_psPins.modify (fun q => { q with bValue := P }) i ∧
      st1.g_bInitialized = st.g_bInitialized := by
  simp only [eGpioAVRRead] at h
  split at h
  · simp at h
  · split at h
    · simp at h
    · rename_i i hfind
      split at h
      · simp at h
      · rename_i p hp
        split at h
        · simp at h
        · simp only [Prod.mk.injEq, Option.some.injEq, true_and] at h
          obtain ⟨hP, hst⟩ := h
          refine ⟨i, p, hfind, hp, ?_, ?_⟩
          · rw [← hst, ← hP]
          · rw [← hst]

/-- The reconciled read over a driver state whose stored names and pulls are
those of the table and whose pin `name` still holds the released level: the
helper returns the sample of the driver. -/
theorem eGpioHelperRead_released (env : Env) (name : CStr) (v0 P : Bool) (out : List Char)
    (st st1 : AvrState) (hinit : st.g_bInitialized = true)
    (hmap : st.g_psPins.map (fun p => (p.acPinName, p.ePull)) =
      (env.g_psGpioPinConfigs.take 32).map (fun c => (c.pcPinName, c.ePull)))
    (hsim : ∀ p ∈ st.g_psPins, p.acPinName = name →
      p.bSimulatedValue = decide (p.ePull = GPIO_PULL_UP))
    (hrd : eGpioAVRRead (some name) (some false) st = (RET_TYPE_SUCCESS, some P, st1)) :
    (eGpioHelperRead env name v0
        { g_psGpioInterface := some (sGpioInterfaceAVR env), avr := st, out := out }).1
      = RET_TYPE_SUCCESS ∧
    (eGpioHelperRead env name v0
        { g_psGpioInterface := some (sGpioInterfaceAVR env), avr := st, out := out }).2.1
      = P := by
  obtain ⟨i, p, hfind, hp, hpins, hini1⟩ := eGpioAVRRead_success name false P st st1 hrd
  have hfind0 : psFindPinFrom name st.g_psPins 0 = some i := hfind
  obtain ⟨_, p1, hp1, hn1⟩ := psFindPinFrom_bound name st.g_psPins 0 i hfind0
  have hpp : p1 = p := by
    rw [Nat.sub_zero, hp] at hp1
    exact (Option.some.inj hp1).symm
  subst hpp
  obtain ⟨p2, hp2, hpull⟩ :=
    helperFindPull_of_stored name st.g_psPins env.g_psGpioPinConfigs 32 0 i hmap hfind0
  have hpp2 : p2 = p1 := by
    rw [Nat.sub_zero, hp] at hp2
    exact (Option.some.inj hp2).symm
  subst hpp2
  have hmem : p2 ∈ st.g_psPins := List.get?_mem hp
  have hs := hsim p2 hmem hn1
  have hfind1 : psFindPin st1 name = some i := by
    rw [psFindPin, hpins, ← hfind0]
    apply psFindPinFrom_congr
    exact map_modify_same (fun q => q.acPinName) (fun q => { q with bValue := P })
      (fun _ => rfl) st.g_psPins i
  have hget1 : st1.g_psPins.get? i = some { p2 with bValue := P } := by
    rw [hpins]
    simp only [List.get?_eq_getElem?] at hp ⊢
    simp [List.getElem?_modify_eq, hp]
  have hS : bGpioAVRGetSimulated name st1 = p2.bSimulatedValue := by
    simp only [bGpioAVRGetSimulated, hini1, hinit, hfind1, hget1]
    rfl
  simp only [eGpioHelperRead, psHalGetGpioInterface, sGpioInterfaceAVR, hrd, hS, hpull, hs]
  by_cases hu : p2.ePull = GPIO_PULL_UP
  · simp [hu]
  · simp [hu]

/-- Every one of the first 32 table entries is stored under its name when no
table name is longer than 31 characters, so the driver read of it succeeds at
every point of the history. -/
theorem eGpioAVRRead_table_pin (env : Env) (regs : AvrReg → Nat) (ops : List AvrOp)
    (c : sGpioPinConfig_t) (hc : c ∈ env.g_psGpioPinConfigs.take 32)
    (hlen : c.pcPinName.length ≤ 31) :
    ∃ P st1, eGpioAVRRead (some c.pcPinName) (some false) (avrAfter env regs ops) =
      (RET_TYPE_SUCCESS, some P, st1) := by
  obtain ⟨a1, a2, a3⟩ := avrAfter_static env regs ops
  have hmem : (c.pcPinName, c.ePull) ∈
      (avrAfter env regs ops).g_psPins.map (fun p => (p.acPinName, p.ePull)) := by
    rw [a2]
    exact List.mem_map.mpr ⟨c, hc, by rw [List.take_of_length_le hlen]⟩
  obtain ⟨p, hp, hpe⟩ := List.mem_map.mp hmem
  have hname : p.acPinName = c.pcPinName := congrArg Prod.fst hpe
  cases hf : psFindPinFrom c.pcPinName (avrAfter env regs ops).g_psPins 0 with
  | none =>
    exact absurd hname ((psFindPinFrom_none c.pcPinName _ 0).mp hf p hp)
  | some i =>
    obtain ⟨_, q, hq, _⟩ := psFindPinFrom_bound c.pcPinName _ 0 i hf
    rw [Nat.sub_zero] at hq
    have hcfg := a3 q (List.get?_mem hq)
    simp only [eGpioAVRRead, a1, psFindPin, hf, hq, hcfg]
    exact ⟨_, _, rfl⟩

set_option maxRecDepth 20000 in
/-- C15 as stated fails.  In the tables `envCollide` the 31-character pin
`A..A` (pull-up) follows an entry whose 32-character name is stored cut to the
same 31 characters: before any override the driver samples true for that name
(bit 0 of PINB is set) and the reconciled read returns false.  In the tables
`envMany` the 33rd entry `B` is not stored, and its read fails. -/
theorem C15_counterexample :
    (∀ c ∈ envCollide.g_psGpioPinConfigs, c.pcPinName = List.replicate 31 'A' →
      c.ePull = GPIO_PULL_UP) ∧
    (eGpioAVRRead (some (List.replicate 31 'A')) (some false)
      (vAppInit envCollide (worldPowerUp 1)).avr).1 = RET_TYPE_SUCCESS ∧
    (eGpioAVRRead (some (List.replicate 31 'A')) (some false)
      (vAppInit envCollide (worldPowerUp 1)).avr).2.1 = some true ∧
    (eGpioHelperRead envCollide (List.replicate 31 'A') false
      (vAppInit envCollide (worldPowerUp 1))).1 = RET_TYPE_SUCCESS ∧
    (eGpioHelperRead envCollide (List.replicate 31 'A') false
      (vAppInit envCollide (worldPowerUp 1))).2.1 = false ∧
    (eGpioAVRRead (some ['B']) (some false)
      (vAppInit envMany (worldPowerUp 2)).avr).1 = RET_TYPE_FAIL ∧
    (eGpioHelperRead envMany ['B'] false
      (vAppInit envMany (worldPowerUp 2))).1 = RET_TYPE_FAIL := by
  refine ⟨by decide, by decide, by decide, by decide, by decide, by decide, by decide⟩

/-- C15 (amended): after `vGpioAVRInit` on the power-up state and any history of
driver calls and pin-level changes in which `vGpioAVRSetSimulated` is not called
for `name`, every stored pin of that name has as simulated value the released
level of its polarity (true when its pull is GPIO_PULL_UP, false otherwise);
and when every name of the configuration table has at most 31 characters, a
read of `name` through `eGpioHelperRead` returns RET_TYPE_SUCCESS with the
sample of the driver whenever the driver read succeeds, which it does for
every pin among the first 32 entries of the table. -/
theorem C15_released_level_default (env : Env) (regs : AvrReg → Nat) (ops : List AvrOp)
    (name : CStr) (v0 : Bool) (out : List Char)
    (hno : ∀ b, AvrOp.setSimulated name b ∉ ops) :
    (∀ p ∈ (avrAfter env regs ops).g_psPins, p.acPinName = name →
      p.bSimulatedValue = decide (p.ePull = GPIO_PULL_UP)) ∧
    ((∀ c ∈ env.g_psGpioPinConfigs, c.pcPinName.length ≤ 31) →
      (∀ P st1,
        eGpioAVRRead (some name) (some false) (avrAfter env regs ops) =
          (RET_TYPE_SUCCESS, some P, st1) →
        (eGpioHelperRead env name v0
          { g_psGpioInterface := some (sGpioInterfaceAVR env),
            avr := avrAfter env regs ops, out := out }).1 = RET_TYPE_SUCCESS ∧
        (eGpioHelperRead env name v0
          { g_psGpioInterface := some (sGpioInterfaceAVR env),
            avr := avrAfter env regs ops, out := out }).2.1 = P) ∧
      ((∃ c ∈ env.g_psGpioPinConfigs.take 32, c.pcPinName = name) →
        ∃ P st1, eGpioAVRRead (some name) (some false) (avrAfter env regs ops) =
          (RET_TYPE_SUCCESS, some P, st1))) := by
  refine ⟨avrAfter_simulated env regs ops name hno, fun hnames => ⟨?_, ?_⟩⟩
  · intro P st1 hrd
    obtain ⟨a1, a2, _⟩ := avrAfter_static env regs ops
    have hmap : (avrAfter env regs ops).g_psPins.map (fun p => (p.acPinName, p.ePull)) =
        (env.g_psGpioPinConfigs.take 32).map (fun c => (c.pcPinName, c.ePull)) := by
      rw [a2]
      apply List.map_congr_left
      intro c hc
      rw [List.take_of_length_le (hnames c (List.mem_of_mem_take hc))]
    exact eGpioHelperRead_released env name v0 P out _ st1 a1 hmap
      (avrAfter_simulated env regs ops name hno) hrd
  · rintro ⟨c, hc, rfl⟩
    exact eGpioAVRRead_table_pin env regs ops c hc (hnames c (List.mem_of_mem_take hc))

/-- C15 for BUTTON1 of the repository tables, after start-up, a read, a change
of the levels of port B to 0x20 and a write to LED1: the stored BUTTON1 still
has simulated value true, and the reconciled read returns the sample true. -/
theorem C15_released_level_default_witness :
    (∀ b, AvrOp.setSimulated "BUTTON1".toList b ∉
      [AvrOp.read (some "BUTTON1".toList) (some false), AvrOp.pinLevels 1 32,
        AvrOp.write (some "LED1".toList) true]) ∧
    (∀ c ∈ envRepo.g_psGpioPinConfigs, c.pcPinName.length ≤ 31) ∧
    (eGpioAVRRead (some "BUTTON1".toList) (some false)
      (avrAfter envRepo (fun _ => 0)
        [AvrOp.read (some "BUTTON1".toList) (some false), AvrOp.pinLevels 1 32,
          AvrOp.write (some "LED1".toList) true])).2.1 = some true ∧
    (eGpioHelperRead envRepo "BUTTON1".toList false
      { g_psGpioInterface := some (sGpioInterfaceAVR envRepo),
        avr := avrAfter envRepo (fun _ => 0)
          [AvrOp.read (some "BUTTON1".toList) (some false), AvrOp.pinLevels 1 32,
            AvrOp.write (some "LED1".toList) true],
        out := [] }).2.1 = true :=
  ⟨by decide, by decide, by decide,
    (((C15_released_level_default envRepo (fun _ => 0)
      [AvrOp.read (some "BUTTON1".toList) (some false), AvrOp.pinLevels 1 32,
        AvrOp.write (some "LED1".toList) true]
      "BUTTON1".toList false [] (by decide)).2 (by decide)).1 true
      (eGpioAVRRead (some "BUTTON1".toList) (some false)
        (avrAfter envRepo (fun _ => 0)
          [AvrOp.read (some "BUTTON1".toList) (some false), AvrOp.pinLevels 1 32,
            AvrOp.write (some "LED1".toList) true])).2.2
      (Prod.ext (by decide) (Prod.ext (by decide) rfl))).2⟩

/-! ### The HTTP driver -/

/-- The retry loop entered with two iterations left. -/
theorem httpPostRetry_two (net : HttpNet) (acURL acBody : CStr) (eRet : eRetType_t)
    (pcResponse : Option CStr) (st : HttpState) :
    RetryOutcome net st { pcMethod := "POST".toList, pcURL := acURL, pcBody := some acBody }
      (httpPostRetry net acURL acBody 2 eRet pcResponse st).1
      (httpPostRetry net acURL acBody 2 eRet pcResponse st).2.2 := by
  by_cases h1 : (net st.requests.length).1 = RET_TYPE_SUCCESS
  · refine ⟨1, by omega, by omega, ?_, ?_, ?_, ?_, ?_⟩
    · simp [httpPostRetry, eHTTP_PostRequest, eHTTP_MakeRequest, h1]
    · simp [httpPostRetry, eHTTP_PostRequest, eHTTP_MakeRequest, h1]
    · intro j hj; omega
    · simp only [httpPostRetry, eHTTP_PostRequest, eHTTP_MakeRequest, h1, if_true, true_iff]
      exact ⟨0, by omega, h1⟩
    · intro hall
      exact absurd h1 (hall 0 (by omega))
  · have hlen : (st.requests ++
        [({ pcMethod := "POST".toList, pcURL := acURL, pcBody := some acBody } :
          HttpRequest)]).length = st.requests.length + 1 := by simp
    by_cases h2 : (net (st.requests.length + 1)).1 = RET_TYPE_SUCCESS
    · refine ⟨2, by omega, by omega, ?_, ?_, ?_, ?_, ?_⟩
      · simp [httpPostRetry, eHTTP_PostRequest, eHTTP_MakeRequest, h1, h2, List.replicate]
      · simp [httpPostRetry, eHTTP_PostRequest, eHTTP_MakeRequest, h1, h2]
      · intro j hj
        have : j = 0 := by omega
        subst this
        exact h1
      · simp only [httpPostRetry, eHTTP_PostRequest, eHTTP_MakeRequest, h1, if_false, hlen, h2,
          if_true, true_iff]
        exact ⟨1, by omega, h2⟩
      · intro hall
        exact absurd h2 (hall 1 (by omega))
    · refine ⟨2, by omega, by omega, ?_, ?_, ?_, ?_, ?_⟩
      · simp [httpPostRetry, eHTTP_PostRequest, eHTTP_MakeRequest, h1, h2, List.replicate]
      · simp [httpPostRetry, eHTTP_PostRequest, eHTTP_MakeRequest, h1, h2]
      · intro j hj
        have : j = 0 := by omega
        subst this
        exact h1
      · simp only [httpPostRetry, eHTTP_PostRequest, eHTTP_MakeRequest, h1, if_false, hlen, h2]
        constructor
        · intro h; exact h.elim
        · rintro ⟨j, hj, hs⟩
          have hj2 : j = 0 ∨ j = 1 := by omega
          rcases hj2 with rfl | rfl
          · exact absurd hs h1
          · exact absurd hs h2
      · intro _
        refine ⟨rfl, ?_⟩
        simp only [httpPostRetry, eHTTP_PostRequest, eHTTP_MakeRequest, h1, if_false, hlen, h2]

/-- C20: bounded retry in the HTTP driver.  For every network behaviour `net`
(the outcome of each request in turn), every initialised state and every pin
name, value and descriptor, `eGpioHTTPWrite` and `eGpioHTTPConfigure` return
(the functions are total) after issuing k POST requests with k = 1 or k = 2,
all the same request; every attempt but the last one failed, so no attempt
follows a success; the returned code is RET_TYPE_SUCCESS exactly when one of
the k attempts succeeded; and when all failed, k = 2 and the returned code is
the code of the second attempt. -/
theorem C20_http_bounded_retry (net : HttpNet) (st : HttpState) (name : CStr)
    (bValue : Bool) (eDirection : eGpioDirection_t) (ePull : eGpioPull_t)
    (hinit : st.g_bHTTPInitialized = true) :
    RetryOutcome net st
      { pcMethod := "POST".toList,
        pcURL := (HTTP_BASE_URL ++ "/api/gpio/".toList ++ name).take 255,
        pcBody := some (("\x7b\"value\":".toList ++ fmtInt (if bValue then 1 else 0) ++
          "\x7d".toList).take 127) }
      (eGpioHTTPWrite net (some name) bValue st).1
      (eGpioHTTPWrite net (some name) bValue st).2 ∧
    RetryOutcome net st
      { pcMethod := "POST".toList,
        pcURL := (HTTP_BASE_URL ++ "/api/gpio/".toList ++ name ++ "/configure".toList).take 255,
        pcBody := some (("\x7b\"direction\":".toList ++ fmtNat eDirection.toNat ++
          ",\"pull\":".toList ++ fmtNat ePull.toNat ++ "\x7d".toList).take 255) }
      (eGpioHTTPConfigure net
        (some { pcPinName := some name, eDirection := eDirection, ePull := ePull }) st).1
      (eGpioHTTPConfigure net
        (some { pcPinName := some name, eDirection := eDirection, ePull := ePull }) st).2 := by
  constructor
  · simp only [eGpioHTTPWrite, hinit, MAX_URL_LEN, Bool.not_true, Bool.false_eq_true, if_false]
    exact httpPostRetry_two net _ _ _ _ st
  · have h := httpPostRetry_two net
      ((HTTP_BASE_URL ++ "/api/gpio/".toList ++ name ++ "/configure".toList).take 255)
      (("\x7b\"direction\":".toList ++ fmtNat eDirection.toNat ++
          ",\"pull\":".toList ++ fmtNat ePull.toNat ++ "\x7d".toList).take 255)
      RET_TYPE_FAIL none st
    simp only [eGpioHTTPConfigure, hinit, MAX_URL_LEN, Bool.not_true, Bool.false_eq_true,
      if_false]
    split
    · exact h
    · exact h

/-- C20 for a write of LED1 on a network whose first request fails and whose
second succeeds: two POST requests are issued and the call succeeds; on a
network that is down the call returns the code of the second attempt. -/
theorem C20_http_bounded_retry_witness :
    httpStateReady.g_bHTTPInitialized = true ∧
    (eGpioHTTPWrite netFailThenOk (some "LED1".toList) true httpStateReady).1
      = RET_TYPE_SUCCESS ∧
    (eGpioHTTPWrite netFailThenOk (some "LED1".toList) true httpStateReady).2.requests.length
      = 2 ∧
    (eGpioHTTPWrite netDown (some "LED1".toList) true httpStateReady).1
      = RET_TYPE_MEMORY_ERROR ∧
    RetryOutcome netFailThenOk httpStateReady
      { pcMethod := "POST".toList,
        pcURL := (HTTP_BASE_URL ++ "/api/gpio/".toList ++ "LED1".toList).take 255,
        pcBody := some (("\x7b\"value\":".toList ++ fmtInt (if true then 1 else 0) ++
          "\x7d".toList).take 127) }
      (eGpioHTTPWrite netFailThenOk (some "LED1".toList) true httpStateReady).1
      (eGpioHTTPWrite netFailThenOk (some "LED1".toList) true httpStateReady).2 :=
  ⟨by decide, by decide, by decide, by decide,
    (C20_http_bounded_retry netFailThenOk httpStateReady "LED1".toList true
      GPIO_DIR_OUTPUT GPIO_PULL_NONE (by decide)).1⟩

/-! ### The file-simulated driver -/

theorem win_psFindPinFrom_bound (name : CStr) (ps : List Windows.sPinState_t) :
    ∀ (k i : Nat), Windows.psFindPinFrom name ps k = some i →
      k ≤ i ∧ ∃ p, ps.get? (i - k) = some p ∧ p.acPinName = name := by
  induction ps with
  | nil => intro k i h; simp [Windows.psFindPinFrom] at h
  | cons q qs ih =>
    intro k i h
    by_cases hq : q.acPinName = name
    · simp only [Windows.psFindPinFrom, hq, if_true, Option.some.injEq] at h
      subst h
      exact ⟨Nat.le_refl _, q, by simp, hq⟩
    · simp only [Windows.psFindPinFrom, hq, if_false] at h
      obtain ⟨hk, p, hp, hn⟩ := ih (k + 1) i h
      refine ⟨by omega, p, ?_, hn⟩
      have e : i - k = (i - (k + 1)) + 1 := by omega
      rw [e]
      simpa using hp

theorem win_psFindPinFrom_congr (name : CStr) (l1 : List Windows.sPinState_t) :
    ∀ (l2 : List Windows.sPinState_t) (k : Nat),
      l1.map (fun p => p.acPinName) = l2.map (fun p => p.acPinName) →
      Windows.psFindPinFrom name l1 k = Windows.psFindPinFrom name l2 k := by
  induction l1 with
  | nil =>
    intro l2 k h
    cases l2 with
    | nil => rfl
    | cons b l2 => simp at h
  | cons a l1 ih =>
    intro l2 k h
    cases l2 with
    | nil => simp at h
    | cons b l2 =>
      simp only [List.map_cons, List.cons.injEq] at h
      simp only [Windows.psFindPinFrom, h.1]
      rw [ih l2 (k + 1) h.2]

theorem win_map_modify_name (f : Windows.sPinState_t → Windows.sPinState_t)
    (hf : ∀ q, (f q).acPinName = q.acPinName) (l : List Windows.sPinState_t) :
    ∀ i : Nat, (l.modify f i).map (fun p => p.acPinName) = l.map (fun p => p.acPinName) := by
  induction l with
  | nil => intro i; simp
  | cons a l ih =>
    intro i
    cases i with
    | zero => simp [hf]
    | succ i => simp [ih i]

theorem win_vWritePinStateToFile_pins (name : CStr) (b : Bool) (st : Windows.WinState) :
    (Windows.vWritePinStateToFile name b st).g_psPins = st.g_psPins ∧
    (Windows.vWritePinStateToFile name b st).g_bInitialized = st.g_bInitialized := by
  simp only [Windows.vWritePinStateToFile]
  split <;> exact ⟨rfl, rfl⟩

/-- A successful `eGpioWindowsWrite`: the pin is stored, configured and an
output; its cached value is set and its state file written. -/
theorem win_eGpioWindowsWrite_success (name : CStr) (v : Bool) (st st1 : Windows.WinState)
    (h : Windows.eGpioWindowsWrite (some name) v st = (RET_TYPE_SUCCESS, st1)) :
    ∃ i p, st.g_bInitialized = true ∧ Windows.psFindPin st name = some i ∧
      st.g_psPins.get? i = some p ∧ p.bConfigured = true ∧ p.eDirection = GPIO_DIR_OUTPUT ∧
      st1 = Windows.vWritePinStateToFile name v
        { st with g_psPins := st.g_psPins.modify (fun q => { q with bValue := v }) i } := by
  simp only [Windows.eGpioWindowsWrite] at h
  split at h
  · simp at h
  · rename_i hinit
    split at h
    · simp at h
    · rename_i i hfind
      split at h
      · simp at h
      · rename_i p hp
        split at h
        · simp at h
        · rename_i hcfg
          split at h
          · simp at h
          · rename_i hdir
            simp only [Prod.mk.injEq, true_and] at h
            refine ⟨i, p, by simpa using hinit, hfind, hp, by simpa using hcfg,
              by simpa using hdir, h.symm⟩

/-- The file-simulated driver on the repository table: after
`vGpioWindowsInit`, LED1 is a configured output and
`eGpioWindowsWrite("LED1", true)` returns RET_TYPE_SUCCESS, but the following
`eGpioWindowsRead("LED1", &out)` returns RET_TYPE_INVALID_STATE and leaves out
at its previous content false. -/
theorem win_read_after_write_repo :
    (Windows.vGpioWindowsInit g_psGpioPinConfigs_repo Windows.winStateInit).g_psPins.map
      (fun p => (p.acPinName, p.bConfigured, p.eDirection)) =
      [("LED1".toList, true, GPIO_DIR_OUTPUT), ("BUTTON1".toList, true, GPIO_DIR_INPUT)] ∧
    (Windows.eGpioWindowsWrite (some "LED1".toList) true
      (Windows.vGpioWindowsInit g_psGpioPinConfigs_repo Windows.winStateInit)).1
      = RET_TYPE_SUCCESS ∧
    (Windows.eGpioWindowsRead (some "LED1".toList) (some false)
      (Windows.eGpioWindowsWrite (some "LED1".toList) true
        (Windows.vGpioWindowsInit g_psGpioPinConfigs_repo Windows.winStateInit)).2).1
      = RET_TYPE_INVALID_STATE ∧
    (Windows.eGpioWindowsRead (some "LED1".toList) (some false)
      (Windows.eGpioWindowsWrite (some "LED1".toList) true
        (Windows.vGpioWindowsInit g_psGpioPinConfigs_repo Windows.winStateInit)).2).2.1
      = some false := by
  refine ⟨by decide, by decide, by decide, by decide⟩

/-- C18 (what the code does where the claim expects the value back): read
after write on the file-simulated (Windows) driver.  For every driver state,
pin name and value v, after `eGpioWindowsWrite(pin, v)` returns
RET_TYPE_SUCCESS (which it only does for a configured output pin),
`eGpioWindowsRead(pin, &out)` returns RET_TYPE_INVALID_STATE, never
RET_TYPE_SUCCESS, and changes neither out nor the driver state, although the
written value v is the cached value of the stored pin and, when the state
file of the pin could be opened for writing, the value
`bReadPinStateFromFile` reads back from it. -/
theorem C18_read_after_write_windows (st st1 : Windows.WinState) (name : CStr) (v c0 : Bool)
    (hw : Windows.eGpioWindowsWrite (some name) v st = (RET_TYPE_SUCCESS, st1)) :
    Windows.eGpioWindowsRead (some name) (some c0) st1 =
      (RET_TYPE_INVALID_STATE, some c0, st1) ∧
    (∃ i p, Windows.psFindPin st1 name = some i ∧ st1.g_psPins.get? i = some p ∧
      p.bConfigured = true ∧ p.eDirection = GPIO_DIR_OUTPUT ∧ p.bValue = v) ∧
    (st.fopenW (Windows.acFilePath name) = true →
      Windows.bReadPinStateFromFile name st1 = v) := by
  obtain ⟨i, p, hinit, hfind, hp, hcfg, hdir, hst1⟩ :=
    win_eGpioWindowsWrite_success name v st st1 hw
  have hpins : st1.g_psPins = st.g_psPins.modify (fun q => { q with bValue := v }) i := by
    rw [hst1]
    exact (win_vWritePinStateToFile_pins name v _).1
  have hinit1 : st1.g_bInitialized = true := by
    rw [hst1, (win_vWritePinStateToFile_pins name v _).2]
    exact hinit
  have hfind1 : Windows.psFindPin st1 name = some i := by
    have hfind0 : Windows.psFindPinFrom name st.g_psPins 0 = some i := hfind
    rw [Windows.psFindPin, hpins, ← hfind0]
    apply win_psFindPinFrom_congr
    exact win_map_modify_name (fun q => { q with bValue := v }) (fun _ => rfl) st.g_psPins i
  have hget1 : st1.g_psPins.get? i = some { p with bValue := v } := by
    rw [hpins]
    simp only [List.get?_eq_getElem?] at hp ⊢
    simp [List.getElem?_modify_eq, hp]
  refine ⟨?_, ⟨i, { p with bValue := v }, hfind1, hget1, hcfg, hdir, rfl⟩, ?_⟩
  · simp only [Windows.eGpioWindowsRead, hinit1, hfind1, hget1, hcfg, hdir]
    simp
  · intro hopen
    rw [hst1]
    simp only [Windows.vWritePinStateToFile, hopen, if_true, Windows.bReadPinStateFromFile,
      List.lookup_cons, beq_self_eq_true]
    cases v <;> decide

/-- C18 at the failing input, LED1 of the repository table after
`vGpioWindowsInit`: a write of true succeeds, the read that follows returns
RET_TYPE_INVALID_STATE, and the state file reads back true.  On the AVR
driver with the same table the read that follows the write of true returns
RET_TYPE_SUCCESS with the value true. -/
theorem C18_read_after_write_windows_witness :
    Windows.eGpioWindowsWrite (some "LED1".toList) true
        (Windows.vGpioWindowsInit g_psGpioPinConfigs_repo Windows.winStateInit) =
      (RET_TYPE_SUCCESS,
        (Windows.eGpioWindowsWrite (some "LED1".toList) true
          (Windows.vGpioWindowsInit g_psGpioPinConfigs_repo Windows.winStateInit)).2) ∧
    (Windows.eGpioWindowsRead (some "LED1".toList) (some false)
      (Windows.eGpioWindowsWrite (some "LED1".toList) true
        (Windows.vGpioWindowsInit g_psGpioPinConfigs_repo Windows.winStateInit)).2).1
      = RET_TYPE_INVALID_STATE ∧
    Windows.bReadPinStateFromFile "LED1".toList
      (Windows.eGpioWindowsWrite (some "LED1".toList) true
        (Windows.vGpioWindowsInit g_psGpioPinConfigs_repo Windows.winStateInit)).2 = true ∧
    (eGpioAVRWrite (some "LED1".toList) true (vAppInit envRepo (worldPowerUp 0)).avr).1 =
      RET_TYPE_SUCCESS ∧
    (eGpioAVRRead (some "LED1".toList) (some false)
      (eGpioAVRWrite (some "LED1".toList) true (vAppInit envRepo (worldPowerUp 0)).avr).2).1 =
      RET_TYPE_SUCCESS ∧
    (eGpioAVRRead (some "LED1".toList) (some false)
      (eGpioAVRWrite (some "LED1".toList) true (vAppInit envRepo (worldPowerUp 0)).avr).2).2.1 =
      some true :=
  ⟨Prod.ext (by decide) rfl,
    congrArg Prod.fst
      (C18_read_after_write_windows
        (Windows.vGpioWindowsInit g_psGpioPinConfigs_repo Windows.winStateInit) _
        "LED1".toList true false (Prod.ext (by decide) rfl)).1,
    (C18_read_after_write_windows
        (Windows.vGpioWindowsInit g_psGpioPinConfigs_repo Windows.winStateInit) _
        "LED1".toList true false (Prod.ext (by decide) rfl)).2.2 (by decide),
    by decide, by decide, by decide⟩

/-! ### Null parameters in the drivers -/

/-- C19, evaluated: with a null pin name (for configure also a null descriptor,
for read also a null output pointer) the AVR, HTTP and file-simulated drivers
return RET_TYPE_NULL_POINTER, whatever the state (initialised or not), and
leave the state and the output cell as they were; the Arduino driver, on the
repository table and the untouched hardware, also leaves everything as it was
but returns RET_TYPE_FAIL from `eArduinoGpioRead`, `eArduinoGpioWrite` and
`eArduinoGpioConfigure`, not RET_TYPE_NULL_POINTER. -/
theorem C19_null_parameters :
    ((Arduino.eArduinoGpioRead Arduino.g_psGpioPinConfigs_repo none (some false)
        Arduino.arduinoStateInit).1 = RET_TYPE_FAIL ∧
      (Arduino.eArduinoGpioRead Arduino.g_psGpioPinConfigs_repo (some "BUTTON1".toList) none
        Arduino.arduinoStateInit).1 = RET_TYPE_FAIL ∧
      (Arduino.eArduinoGpioWrite Arduino.g_psGpioPinConfigs_repo none true
        Arduino.arduinoStateInit).1 = RET_TYPE_FAIL ∧
      (Arduino.eArduinoGpioConfigure Arduino.g_psGpioPinConfigs_repo none
        Arduino.arduinoStateInit).1 = RET_TYPE_FAIL ∧
      (Arduino.eArduinoGpioConfigure Arduino.g_psGpioPinConfigs_repo
        (some { pcPinName := none, eDirection := GPIO_DIR_INPUT, ePull := GPIO_PULL_NONE })
        Arduino.arduinoStateInit).1 = RET_TYPE_FAIL ∧
      (Arduino.eArduinoGpioRead Arduino.g_psGpioPinConfigs_repo none (some false)
        Arduino.arduinoStateInit).2.2.calls = [] ∧
      (Arduino.eArduinoGpioWrite Arduino.g_psGpioPinConfigs_repo none true
        Arduino.arduinoStateInit).2.calls = [] ∧
      (Arduino.eArduinoGpioConfigure Arduino.g_psGpioPinConfigs_repo none
        Arduino.arduinoStateInit).2.calls = []) ∧
    (∀ (st : AvrState) (name : CStr) (v : Option Bool) (b : Bool) (d : eGpioDirection_t)
        (p : eGpioPull_t),
      eGpioAVRRead none v st = (RET_TYPE_NULL_POINTER, v, st) ∧
      eGpioAVRRead (some name) none st = (RET_TYPE_NULL_POINTER, none, st) ∧
      eGpioAVRWrite none b st = (RET_TYPE_NULL_POINTER, st) ∧
      eGpioAVRConfigure none st = (RET_TYPE_NULL_POINTER, st) ∧
      eGpioAVRConfigure (some { pcPinName := none, eDirection := d, ePull := p }) st =
        (RET_TYPE_NULL_POINTER, st)) ∧
    (∀ (net : HttpNet) (st : HttpState) (name : CStr) (v : Option Bool) (b : Bool)
        (d : eGpioDirection_t) (p : eGpioPull_t),
      eGpioHTTPRead net none v st = (RET_TYPE_NULL_POINTER, v, st) ∧
      eGpioHTTPRead net (some name) none st = (RET_TYPE_NULL_POINTER, none, st) ∧
      eGpioHTTPWrite net none b st = (RET_TYPE_NULL_POINTER, st) ∧
      eGpioHTTPConfigure net none st = (RET_TYPE_NULL_POINTER, st) ∧
      eGpioHTTPConfigure net (some { pcPinName := none, eDirection := d, ePull := p }) st =
        (RET_TYPE_NULL_POINTER, st)) ∧
    (∀ (st : Windows.WinState) (name : CStr) (v : Option Bool) (b : Bool)
        (d : eGpioDirection_t) (p : eGpioPull_t),
      Windows.eGpioWindowsRead none v st = (RET_TYPE_NULL_POINTER, v, st) ∧
      Windows.eGpioWindowsRead (some name) none st = (RET_TYPE_NULL_POINTER, none, st) ∧
      Windows.eGpioWindowsWrite none b st = (RET_TYPE_NULL_POINTER, st) ∧
      Windows.eGpioWindowsConfigure none st = (RET_TYPE_NULL_POINTER, st) ∧
      Windows.eGpioWindowsConfigure (some { pcPinName := none, eDirection := d, ePull := p })
        st = (RET_TYPE_NULL_POINTER, st)) := by
  refine ⟨by decide, ?_, ?_, ?_⟩
  · intro st name v b d p
    exact ⟨by cases v <;> rfl, rfl, rfl, rfl, rfl⟩
  · intro net st name v b d p
    exact ⟨by cases v <;> rfl, rfl, rfl, rfl, rfl⟩
  · intro st name v b d p
    exact ⟨by cases v <;> rfl, rfl, rfl, rfl, rfl⟩

/-! ### The AVR driver from power-up: what every reachable state satisfies -/

theorem modify_nil_pins (f : sPinState_t → sPinState_t) (i : Nat) :
    ([] : List sPinState_t).modify f i = [] := by
  cases i <;> rfl

/-- Every event but `vGpioAVRInit` keeps the initialised flag and changes the
pin list at one index at most, by a function that keeps the static fields. -/
theorem avrStep_shape (env : Env) (st : AvrState) (op : AvrOp) (hop : op ≠ AvrOp.init) :
    (avrStep env st op).g_bInitialized = st.g_bInitialized ∧
    ∃ (f : sPinState_t → sPinState_t) (i : Nat),
      (avrStep env st op).g_psPins = st.g_psPins.modify f i ∧
      ∀ q, pinStatic (f q) = pinStatic q := by
  have hid : ∀ s1 : AvrState, s1.g_bInitialized = st.g_bInitialized →
      s1.g_psPins = st.g_psPins →
      s1.g_bInitialized = st.g_bInitialized ∧
      ∃ (f : sPinState_t → sPinState_t) (i : Nat),
        s1.g_psPins = st.g_psPins.modify f i ∧ ∀ q, pinStatic (f q) = pinStatic q := by
    intro s1 h1 h2
    exact ⟨h1, id, 0, by rw [h2, modify_id_eq], fun q => rfl⟩
  cases op with
  | init => exact absurd rfl hop
  | configure c =>
    have h := eGpioAVRConfigure_state c st
    simp only [avrStep]
    rw [h]
    exact hid st rfl rfl
  | read n pb =>
    rcases eGpioAVRRead_state n pb st with h | ⟨i, v, h⟩
    · simp only [avrStep]
      rw [h]
      exact hid st rfl rfl
    · simp only [avrStep]
      rw [h]
      exact ⟨rfl, _, i, rfl, fun q => rfl⟩
  | write n b =>
    rcases eGpioAVRWrite_state n b st with h | ⟨i, r1, h⟩
    · simp only [avrStep]
      rw [h]
      exact hid st rfl rfl
    · simp only [avrStep]
      rw [h]
      exact ⟨rfl, _, i, rfl, fun q => rfl⟩
  | setSimulated n b =>
    rcases vGpioAVRSetSimulated_state n b st with h | ⟨i, _, h⟩
    · simp only [avrStep]
      rw [h]
      exact hid st rfl rfl
    · simp only [avrStep]
      rw [h]
      exact ⟨rfl, _, i, rfl, fun q => rfl⟩
  | pinLevels port levels =>
    exact hid (avrStep env st (AvrOp.pinLevels port levels)) rfl rfl

/-- An event on an initialised driver keeps it initialised and keeps the
static fields of every stored pin, hence also the number of stored pins. -/
theorem avrStep_keeps_static (env : Env) (st : AvrState) (op : AvrOp)
    (hinit : st.g_bInitialized = true) :
    (avrStep env st op).g_bInitialized = true ∧
    (avrStep env st op).g_psPins.map pinStatic = st.g_psPins.map pinStatic := by
  by_cases hop : op = AvrOp.init
  · subst hop
    have e : avrStep env st AvrOp.init = st := by simp [avrStep, vGpioAVRInit, hinit]
    rw [e]
    exact ⟨hinit, rfl⟩
  · obtain ⟨h1, f, i, hp, hf⟩ := avrStep_shape env st op hop
    refine ⟨by rw [h1]; exact hinit, ?_⟩
    rw [hp]
    exact map_modify_same pinStatic f hf _ i

theorem avrRun_keeps_static (env : Env) (ops : List AvrOp) :
    ∀ st : AvrState, st.g_bInitialized = true →
      (avrRun env ops st).g_bInitialized = true ∧
      (avrRun env ops st).g_psPins.map pinStatic = st.g_psPins.map pinStatic := by
  induction ops with
  | nil => intro st h; exact ⟨h, rfl⟩
  | cons op ops ih =>
    intro st h
    obtain ⟨a1, a2⟩ := avrStep_keeps_static env st op h
    obtain ⟨b1, b2⟩ := ih (avrStep env st op) a1
    exact ⟨b1, b2.trans a2⟩

/-- Before `vGpioAVRInit` has run the driver is not initialised and stores no
pin; from its first run on it is initialised and the static fields of the
stored pins are those start-up gives the first 32 table entries. -/
theorem avrRun_powerUp (env : Env) (ops : List AvrOp) :
    ∀ st : AvrState, st.g_bInitialized = false → st.g_psPins = [] →
      (AvrOp.init ∉ ops ∧ (avrRun env ops st).g_bInitialized = false ∧
        (avrRun env ops st).g_psPins = []) ∨
      (AvrOp.init ∈ ops ∧ (avrRun env ops st).g_bInitialized = true ∧
        (avrRun env ops st).g_psPins.map pinStatic =
          (env.g_psGpioPinConfigs.take 32).map (fun c => pinStatic (avrPinOfConfig env.chip c))) := by
  induction ops with
  | nil => intro st h0 hp; exact Or.inl ⟨by simp, h0, hp⟩
  | cons op ops ih =>
    intro st h0 hp
    by_cases hop : op = AvrOp.init
    · subst hop
      right
      have est : st = avrStateInit st.regs := by
        cases st
        simp only [avrStateInit] at *
        simp [h0, hp]
      have hstep : avrStep env st AvrOp.init =
          vGpioAVRInit env.chip env.g_psGpioPinConfigs (avrStateInit st.regs) := by
        simp only [avrStep]
        rw [← est]
      obtain ⟨i1, i2⟩ := vGpioAVRInit_powerUp env.chip env.g_psGpioPinConfigs st.regs
      obtain ⟨a1, a2⟩ := avrRun_keeps_static env ops (avrStep env st AvrOp.init)
        (by rw [hstep]; exact i2)
      refine ⟨List.mem_cons_self _ _, a1, ?_⟩
      have e : avrRun env (AvrOp.init :: ops) st = avrRun env ops (avrStep env st AvrOp.init) :=
        rfl
      rw [e, a2, hstep, i1, List.map_map]
      rfl
    · obtain ⟨h1, f, i, hpins, _⟩ := avrStep_shape env st op hop
      have hp1 : (avrStep env st op).g_psPins = [] := by
        rw [hpins, hp, modify_nil_pins]
      have e : avrRun env (op :: ops) st = avrRun env ops (avrStep env st op) := rfl
      rcases ih (avrStep env st op) (by rw [h1]; exact h0) hp1 with ⟨n, a, b⟩ | ⟨n, a, b⟩
      · left
        refine ⟨?_, by rw [e]; exact a, by rw [e]; exact b⟩
        intro hm
        rcases List.mem_cons.mp hm with h | h
        · exact hop h.symm
        · exact n h
      · right
        exact ⟨List.mem_cons_of_mem _ n, by rw [e]; exact a, by rw [e]; exact b⟩

theorem avrFromPowerUp_inv (env : Env) (regs : AvrReg → Nat) (ops : List AvrOp) :
    (AvrOp.init ∉ ops ∧ (avrFromPowerUp env regs ops).g_bInitialized = false ∧
      (avrFromPowerUp env regs ops).g_psPins = []) ∨
    (AvrOp.init ∈ ops ∧ (avrFromPowerUp env regs ops).g_bInitialized = true ∧
      (avrFromPowerUp env regs ops).g_psPins.map pinStatic =
        (env.g_psGpioPinConfigs.take 32).map (fun c => pinStatic (avrPinOfConfig env.chip c))) :=
  avrRun_powerUp env ops (avrStateInit regs) rfl rfl

/-! ### C29: the pin table -/

/-- C29: for every configuration table (the entries before the sentinel), the
first `vGpioAVRInit` stores min(n, 32) pins, the i-th stored pin carrying the
name (cut to 31 characters), direction and pull of the i-th entry, with
configured = true and cached value false; at every point of every history
from power-up the number of stored pins is at most 32; every event after
start-up (a second `vGpioAVRInit`, configure, read, write, simulated-value
injection, a change of the pin levels) leaves the number of stored pins and
every stored name, direction and pull unchanged; and `vGpioAVRInit` on an
initialised driver changes nothing. -/
theorem C29_pin_table_invariant (env : Env) (regs : AvrReg → Nat) (ops : List AvrOp)
    (op : AvrOp) :
    (vGpioAVRInit env.chip env.g_psGpioPinConfigs (avrStateInit regs)).g_psPins.length =
      min env.g_psGpioPinConfigs.length 32 ∧
    (∀ (i : Nat) (c : sGpioPinConfig_t), i < 32 → env.g_psGpioPinConfigs.get? i = some c →
      ∃ p, (vGpioAVRInit env.chip env.g_psGpioPinConfigs (avrStateInit regs)).g_psPins.get? i =
          some p ∧
        p.acPinName = c.pcPinName.take 31 ∧ p.eDirection = c.eDirection ∧
        p.ePull = c.ePull ∧ p.bConfigured = true ∧ p.bValue = false) ∧
    (avrFromPowerUp env regs ops).g_psPins.length ≤ 32 ∧
    (avrStep env (avrAfter env regs ops) op).g_psPins.length =
      (avrAfter env regs ops).g_psPins.length ∧
    (avrStep env (avrAfter env regs ops) op).g_psPins.map
        (fun p => (p.acPinName, p.eDirection, p.ePull)) =
      (avrAfter env regs ops).g_psPins.map (fun p => (p.acPinName, p.eDirection, p.ePull)) ∧
    (avrAfter env regs ops).g_psPins.map (fun p => (p.acPinName, p.eDirection, p.ePull)) =
      (env.g_psGpioPinConfigs.take 32).map
        (fun c => (c.pcPinName.take 31, c.eDirection, c.ePull)) ∧
    vGpioAVRInit env.chip env.g_psGpioPinConfigs (avrAfter env regs ops) =
      avrAfter env regs ops := by
  obtain ⟨i1, i2⟩ := vGpioAVRInit_powerUp env.chip env.g_psGpioPinConfigs regs
  obtain ⟨a1, a2⟩ := avrRun_keeps_static env ops
    (vGpioAVRInit env.chip env.g_psGpioPinConfigs (avrStateInit regs)) i2
  have a1' : (avrAfter env regs ops).g_bInitialized = true := a1
  have a2' : (avrAfter env regs ops).g_psPins.map pinStatic =
      (vGpioAVRInit env.chip env.g_psGpioPinConfigs (avrStateInit regs)).g_psPins.map
        pinStatic := a2
  obtain ⟨b1, b2⟩ := avrStep_keeps_static env (avrAfter env regs ops) op a1'
  have proj : ∀ l1 l2 : List sPinState_t, l1.map pinStatic = l2.map pinStatic →
      l1.map (fun p => (p.acPinName, p.eDirection, p.ePull)) =
        l2.map (fun p => (p.acPinName, p.eDirection, p.ePull)) := by
    intro l1 l2 h
    have h2 := congrArg (List.map (fun t : CStr × Bool × AvrReg × AvrReg × AvrReg × Nat ×
      eGpioDirection_t × eGpioPull_t => (t.1, t.2.2.2.2.2.2.1, t.2.2.2.2.2.2.2))) h
    simpa [List.map_map, Function.comp_def, pinStatic] using h2
  refine ⟨?_, ?_, ?_, ?_, proj _ _ b2, ?_, ?_⟩
  · rw [i1]
    simp [Nat.min_comm]
  · intro i c hi hc
    refine ⟨avrPinOfConfig env.chip c, ?_, rfl, rfl, rfl, rfl, rfl⟩
    rw [i1]
    simp only [List.get?_eq_getElem?] at hc ⊢
    simp [List.getElem?_map, List.getElem?_take, hi, hc]
  · rcases avrFromPowerUp_inv env regs ops with ⟨_, _, h⟩ | ⟨_, _, h⟩
    · rw [h]; simp
    · have hl := congrArg List.length h
      simp only [List.length_map, List.length_take] at hl
      omega
  · have hl := congrArg List.length b2
    simpa using hl
  · rw [proj _ _ a2', i1]
    simp [avrPinOfConfig, MAX_PIN_NAME_LEN, Function.comp_def]
  · simp [vGpioAVRInit, a1']

/-! ### C27, C28: `eGpioAVRWrite` -/

/-- Every pin stored in a state reached from power-up carries the static
fields start-up gave to one of the first 32 table entries. -/
theorem avrFromPowerUp_pin (env : Env) (regs : AvrReg → Nat) (ops : List AvrOp)
    (i : Nat) (p : sPinState_t)
    (hp : (avrFromPowerUp env regs ops).g_psPins.get? i = some p) :
    i < 32 ∧ ∃ c, env.g_psGpioPinConfigs.get? i = some c ∧
      pinStatic p = pinStatic (avrPinOfConfig env.chip c) := by
  rcases avrFromPowerUp_inv env regs ops with ⟨_, _, h⟩ | ⟨_, _, h⟩
  · rw [h] at hp; simp at hp
  · have h2 := congrArg (fun l => l.get? i) h
    simp only [List.get?_eq_getElem?, List.getElem?_map] at h2 hp
    rw [hp] at h2
    simp only [Option.map_some'] at h2
    cases hc : (env.g_psGpioPinConfigs.take 32)[i]? with
    | none => rw [hc] at h2; simp at h2
    | some c =>
      rw [hc] at h2
      simp only [Option.map_some', Option.some.injEq] at h2
      rw [List.getElem?_take] at hc
      by_cases hi : i < 32
      · simp only [hi, if_true] at hc
        exact ⟨hi, c, by simpa using hc, h2⟩
      · simp [hi] at hc

theorem avrFromPowerUp_initialized (env : Env) (regs : AvrReg → Nat) (ops : List AvrOp) :
    (avrFromPowerUp env regs ops).g_bInitialized = true ↔ AvrOp.init ∈ ops := by
  rcases avrFromPowerUp_inv env regs ops with ⟨n, h, _⟩ | ⟨n, h, _⟩
  · constructor
    · intro h2; rw [h] at h2; exact absurd h2 (by simp)
    · intro h2; exact absurd h2 n
  · exact ⟨fun _ => n, fun _ => h⟩

/-- A call of `eGpioAVRWrite` that does not return RET_TYPE_SUCCESS leaves the
whole driver state, registers included, as it was. -/
theorem eGpioAVRWrite_failure (n : Option CStr) (b : Bool) (st : AvrState)
    (h : (eGpioAVRWrite n b st).1 ≠ RET_TYPE_SUCCESS) : (eGpioAVRWrite n b st).2 = st := by
  revert h
  simp only [eGpioAVRWrite]
  split
  · intro _; rfl
  · split
    · intro _; rfl
    · split
      · intro _; rfl
      · split
        · intro _; rfl
        · split
          · intro _; rfl
          · split
            · intro _; rfl
            · intro h; exact absurd rfl h

/-- C27: the result code of `eGpioAVRWrite(name, v)` in every state reached
from power-up, in this order of precedence: RET_TYPE_NULL_POINTER for a null
name; otherwise RET_TYPE_NOT_INITIALIZED when `vGpioAVRInit` has not run;
otherwise RET_TYPE_FAIL when no stored pin has the name; otherwise
RET_TYPE_INVALID_STATE when the direction of the pin found (the first stored
pin with the name) is input, and RET_TYPE_SUCCESS when it is output.  In each
of the four failure cases the state returned is the state before the call,
and whenever the code is not RET_TYPE_SUCCESS no register and no stored pin
has changed. -/
theorem C27_write_result_codes (env : Env) (regs : AvrReg → Nat) (ops : List AvrOp)
    (name : CStr) (v : Bool) :
    eGpioAVRWrite none v (avrFromPowerUp env regs ops) =
      (RET_TYPE_NULL_POINTER, avrFromPowerUp env regs ops) ∧
    (AvrOp.init ∉ ops →
      eGpioAVRWrite (some name) v (avrFromPowerUp env regs ops) =
        (RET_TYPE_NOT_INITIALIZED, avrFromPowerUp env regs ops)) ∧
    (AvrOp.init ∈ ops →
      (∀ p ∈ (avrFromPowerUp env regs ops).g_psPins, p.acPinName ≠ name) →
      eGpioAVRWrite (some name) v (avrFromPowerUp env regs ops) =
        (RET_TYPE_FAIL, avrFromPowerUp env regs ops)) ∧
    (AvrOp.init ∈ ops →
      ∀ (i : Nat) (p : sPinState_t), psFindPin (avrFromPowerUp env regs ops) name = some i →
        (avrFromPowerUp env regs ops).g_psPins.get? i = some p →
        (p.eDirection = GPIO_DIR_INPUT →
          eGpioAVRWrite (some name) v (avrFromPowerUp env regs ops) =
            (RET_TYPE_INVALID_STATE, avrFromPowerUp env regs ops)) ∧
        (p.eDirection = GPIO_DIR_OUTPUT →
          (eGpioAVRWrite (some name) v (avrFromPowerUp env regs ops)).1 = RET_TYPE_SUCCESS)) ∧
    (∀ n : Option CStr,
      (eGpioAVRWrite n v (avrFromPowerUp env regs ops)).1 ≠ RET_TYPE_SUCCESS →
      (eGpioAVRWrite n v (avrFromPowerUp env regs ops)).2 = avrFromPowerUp env regs ops) := by
  refine ⟨rfl, ?_, ?_, ?_, fun n h => eGpioAVRWrite_failure n v _ h⟩
  · intro hno
    have h0 : (avrFromPowerUp env regs ops).g_bInitialized = false := by
      cases h : (avrFromPowerUp env regs ops).g_bInitialized with
      | false => rfl
      | true => exact absurd ((avrFromPowerUp_initialized env regs ops).mp h) hno
    simp [eGpioAVRWrite, h0]
  · intro hin hall
    have h1 := (avrFromPowerUp_initialized env regs ops).mpr hin
    have hnone : psFindPin (avrFromPowerUp env regs ops) name = none :=
      (psFindPinFrom_none name _ 0).mpr hall
    simp [eGpioAVRWrite, h1, hnone]
  · intro hin i p hfind hp
    have h1 := (avrFromPowerUp_initialized env regs ops).mpr hin
    obtain ⟨_, c, _, hs⟩ := avrFromPowerUp_pin env regs ops i p hp
    have hcfg : p.bConfigured = true := congrArg (fun t => t.2.1) hs
    constructor
    · intro hd
      simp only [eGpioAVRWrite, h1, hfind, hp, hcfg, hd]
      simp
    · intro hd
      simp only [eGpioAVRWrite, h1, hfind, hp, hcfg, hd]
      simp

theorem regWrite_lt (regs : AvrReg → Nat) (r : AvrReg) (v : Nat)
    (h : ∀ q, regs q < 256) : ∀ q, regWrite regs r v q < 256 := by
  intro q
  simp only [regWrite]
  split
  · exact Nat.mod_lt _ (by decide)
  · exact h q

theorem avrInitPin_regs_lt (chip : AvrChip) (st : AvrState) (cfg : sGpioPinConfig_t)
    (h : ∀ q, st.regs q < 256) : ∀ q, (avrInitPin chip st cfg).regs q < 256 := by
  simp only [avrInitPin]
  split
  · exact regWrite_lt _ _ _ (regWrite_lt _ _ _ h)
  · split
    · exact regWrite_lt _ _ _ (regWrite_lt _ _ _ h)
    · exact regWrite_lt _ _ _ (regWrite_lt _ _ _ h)

theorem avrInit_fold_regs_lt (chip : AvrChip) (cfgs : List sGpioPinConfig_t) :
    ∀ st : AvrState, (∀ q, st.regs q < 256) →
      ∀ q, (cfgs.foldl (avrInitPin chip) st).regs q < 256 := by
  induction cfgs with
  | nil => intro st h; exact h
  | cons c cs ih =>
    intro st h
    exact ih (avrInitPin chip st c) (avrInitPin_regs_lt chip st c h)

/-- Every event keeps every register within 8 bits. -/
theorem avrStep_regs_lt (env : Env) (st : AvrState) (op : AvrOp)
    (h : ∀ q, st.regs q < 256) : ∀ q, (avrStep env st op).regs q < 256 := by
  cases op with
  | init =>
    simp only [avrStep, vGpioAVRInit]
    split
    · exact h
    · exact avrInit_fold_regs_lt env.chip _ _ h
  | configure c =>
    simp only [avrStep]
    rw [eGpioAVRConfigure_state]
    exact h
  | read n pb =>
    rcases eGpioAVRRead_state n pb st with e | ⟨i, v, e⟩
    · simp only [avrStep]; rw [e]; exact h
    · simp only [avrStep]; rw [e]; exact h
  | write n b =>
    simp only [avrStep, eGpioAVRWrite]
    split
    · exact h
    · split
      · exact h
      · split
        · exact h
        · split
          · exact h
          · split
            · exact h
            · split
              · exact h
              · split
                · exact regWrite_lt _ _ _ h
                · exact regWrite_lt _ _ _ h
  | setSimulated n b =>
    simp only [avrStep]
    rw [(vGpioAVRSetSimulated_effect n b st).1]
    exact h
  | pinLevels port levels =>
    simp only [avrStep]
    exact regWrite_lt _ _ _ h

theorem avrRun_regs_lt (env : Env) (ops : List AvrOp) :
    ∀ st : AvrState, (∀ q, st.regs q < 256) → ∀ q, (avrRun env ops st).regs q < 256 := by
  induction ops with
  | nil => intro st h; exact h
  | cons op ops ih =>
    intro st h
    exact ih (avrStep env st op) (avrStep_regs_lt env st op h)

theorem testBit_255 (b : Nat) : (255 : Nat).testBit b = decide (b < 8) := by
  have := Nat.testBit_two_pow_sub_one 8 b
  simpa using this

theorem testBit_of_lt_256 (x b : Nat) (hx : x < 256) (hb : ¬ b < 8) : x.testBit b = false := by
  apply Nat.testBit_eq_false_of_lt
  calc x < 2 ^ 8 := hx
    _ ≤ 2 ^ b := Nat.pow_le_pow_right (by decide) (by omega)

theorem or_mask_mod (x m : Nat) (hx : x < 256) (hm : m < 256) : (x ||| m) % 256 = x ||| m :=
  Nat.mod_eq_of_lt (Nat.or_lt_two_pow (n := 8) hx hm)

theorem and_not_mask_mod (x m : Nat) (hx : x < 256) :
    (x &&& (255 ^^^ m)) % 256 = x &&& (255 ^^^ m) :=
  Nat.mod_eq_of_lt (Nat.lt_of_le_of_lt Nat.and_le_left hx)

theorem or_mask_testBit (x m b : Nat) (h : m.testBit b = false) :
    (x ||| m).testBit b = x.testBit b := by
  simp [Nat.testBit_or, h]

theorem and_not_mask_testBit (x m b : Nat) (hx : x < 256) (h : m.testBit b = false) :
    (x &&& (255 ^^^ m)).testBit b = x.testBit b := by
  simp only [Nat.testBit_and, Nat.testBit_xor, testBit_255, h]
  by_cases hb : b < 8
  · simp [hb]
  · simp [testBit_of_lt_256 x b hx hb]

theorem or_mask_and_mask (x m : Nat) : (x ||| m) &&& m = m := by
  apply Nat.eq_of_testBit_eq
  intro i
  simp only [Nat.testBit_and, Nat.testBit_or]
  cases x.testBit i <;> cases m.testBit i <;> rfl

theorem and_not_mask_and_mask (x m : Nat) (hm : m < 256) : (x &&& (255 ^^^ m)) &&& m = 0 := by
  apply Nat.eq_of_testBit_eq
  intro i
  simp only [Nat.testBit_and, Nat.testBit_xor, testBit_255, Nat.zero_testBit]
  by_cases hb : i < 8
  · simp [hb]
  · simp [testBit_of_lt_256 m i hm hb]

theorem pinMask_ne_zero (k : Nat) (h : k ≤ 7) : (1 <<< k) % 256 ≠ 0 := by
  interval_cases k <;> decide

/-- A successful `eGpioAVRWrite`: the pin found is configured and an output;
the state after differs by the cached value of that pin and by its PORT
register. -/
theorem eGpioAVRWrite_success (name : CStr) (v : Bool) (st st1 : AvrState)
    (h : eGpioAVRWrite (some name) v st = (RET_TYPE_SUCCESS, st1)) :
    ∃ i p, st.g_bInitialized = true ∧ psFindPin st name = some i ∧
      st.g_psPins.get? i = some p ∧ p.bConfigured = true ∧ p.eDirection = GPIO_DIR_OUTPUT ∧
      st1.g_psPins = st.g_psPins.modify (fun q => { q with bValue := v }) i ∧
      st1.g_bInitialized = st.g_bInitialized ∧
      st1.regs = regWrite st.regs p.pu8PortReg
        (if v then st.regs p.pu8PortReg ||| p.u8PinMask
         else st.regs p.pu8PortReg &&& (255 ^^^ p.u8PinMask)) := by
  simp only [eGpioAVRWrite] at h
  split at h
  · simp at h
  · rename_i hinit
    split at h
    · simp at h
    · rename_i i hfind
      split at h
      · simp at h
      · rename_i p hp
        split at h
        · simp at h
        · rename_i hcfg
          split at h
          · simp at h
          · rename_i hdir
            simp only [Prod.mk.injEq, true_and] at h
            refine ⟨i, p, by simpa using hinit, hfind, hp, by simpa using hcfg,
              by simpa using hdir, by rw [← h], by rw [← h], ?_⟩
            rw [← h]
            cases v <;> rfl

/-- C28: the effect of a successful `eGpioAVRWrite(name, v)` in a state reached
from power-up over an 8-bit register file.  The pin found is the stored pin
of table entry i; its PORT register becomes (old OR mask) when v is true and
(old AND NOT mask) when v is false (NOT within 8 bits is `255 ^^^ mask`), so
every bit outside the mask keeps its value; every other register, hence every
DDR and PIN register, keeps its value; the pin list only changes in the
cached value of the pin, which becomes v; and when the pin number of the
entry is in 0..7, `eGpioAVRRead` of the same name right afterwards returns
RET_TYPE_SUCCESS with value v. -/
theorem C28_write_effect (env : Env) (regs : AvrReg → Nat) (ops : List AvrOp)
    (name : CStr) (v c0 : Bool) (st1 : AvrState)
    (hregs : ∀ r, regs r < 256)
    (hw : eGpioAVRWrite (some name) v (avrFromPowerUp env regs ops) =
      (RET_TYPE_SUCCESS, st1)) :
    ∃ (i : Nat) (p : sPinState_t) (c : sGpioPinConfig_t),
      psFindPin (avrFromPowerUp env regs ops) name = some i ∧
      (avrFromPowerUp env regs ops).g_psPins.get? i = some p ∧
      env.g_psGpioPinConfigs.get? i = some c ∧
      p.pu8PortReg = AvrReg.PORT (avrPortOf env.chip c.u8AvrPort) ∧
      p.u8PinMask = (1 <<< c.u8AvrPin) % 256 ∧
      st1.regs p.pu8PortReg =
        (if v then (avrFromPowerUp env regs ops).regs p.pu8PortReg ||| p.u8PinMask
         else (avrFromPowerUp env regs ops).regs p.pu8PortReg &&& (255 ^^^ p.u8PinMask)) ∧
      (∀ b : Nat, p.u8PinMask.testBit b = false →
        (st1.regs p.pu8PortReg).testBit b =
          ((avrFromPowerUp env regs ops).regs p.pu8PortReg).testBit b) ∧
      (∀ r, r ≠ p.pu8PortReg → st1.regs r = (avrFromPowerUp env regs ops).regs r) ∧
      (∀ k, st1.regs (AvrReg.DDR k) = (avrFromPowerUp env regs ops).regs (AvrReg.DDR k) ∧
        st1.regs (AvrReg.PIN k) = (avrFromPowerUp env regs ops).regs (AvrReg.PIN k)) ∧
      st1.g_psPins =
        (avrFromPowerUp env regs ops).g_psPins.modify (fun q => { q with bValue := v }) i ∧
      st1.g_bInitialized = (avrFromPowerUp env regs ops).g_bInitialized ∧
      (c.u8AvrPin ≤ 7 →
        (eGpioAVRRead (some name) (some c0) st1).1 = RET_TYPE_SUCCESS ∧
        (eGpioAVRRead (some name) (some c0) st1).2.1 = some v) := by
  obtain ⟨i, p, hinit, hfind, hp, hcfg, hdir, hpins, hini1, hregs1⟩ :=
    eGpioAVRWrite_success name v _ st1 hw
  obtain ⟨_, c, hc, hs⟩ := avrFromPowerUp_pin env regs ops i p hp
  have hport : p.pu8PortReg = AvrReg.PORT (avrPortOf env.chip c.u8AvrPort) :=
    congrArg (fun t => t.2.2.2.1) hs
  have hmask : p.u8PinMask = (1 <<< c.u8AvrPin) % 256 :=
    congrArg (fun t => t.2.2.2.2.2.1) hs
  have hm : p.u8PinMask < 256 := by rw [hmask]; exact Nat.mod_lt _ (by decide)
  have hold : (avrFromPowerUp env regs ops).regs p.pu8PortReg < 256 :=
    avrRun_regs_lt env ops (avrStateInit regs) hregs _
  have hnew : st1.regs p.pu8PortReg =
      (if v then (avrFromPowerUp env regs ops).regs p.pu8PortReg ||| p.u8PinMask
       else (avrFromPowerUp env regs ops).regs p.pu8PortReg &&& (255 ^^^ p.u8PinMask)) := by
    rw [hregs1]
    simp only [regWrite, if_true]
    cases v
    · simp only [Bool.false_eq_true, if_false]
      exact and_not_mask_mod _ _ hold
    · simp only [if_true]
      exact or_mask_mod _ _ hold hm
  have hother : ∀ r, r ≠ p.pu8PortReg →
      st1.regs r = (avrFromPowerUp env regs ops).regs r := by
    intro r hr
    rw [hregs1]
    simp [regWrite, hr]
  refine ⟨i, p, c, hfind, hp, hc, hport, hmask, hnew, ?_, hother, ?_, hpins, hini1, ?_⟩
  · intro b hb
    rw [hnew]
    cases v
    · simp only [Bool.false_eq_true, if_false]
      exact and_not_mask_testBit _ _ b hold hb
    · simp only [if_true]
      exact or_mask_testBit _ _ b hb
  · intro k
    exact ⟨hother _ (by rw [hport]; simp), hother _ (by rw [hport]; simp)⟩
  · intro hpin
    have hm0 : p.u8PinMask ≠ 0 := by rw [hmask]; exact pinMask_ne_zero _ hpin
    have hinit1 : st1.g_bInitialized = true := by rw [hini1]; exact hinit
    have hfind0 : psFindPinFrom name (avrFromPowerUp env regs ops).g_psPins 0 = some i := hfind
    have hfind1 : psFindPin st1 name = some i := by
      rw [psFindPin, hpins, ← hfind0]
      apply psFindPinFrom_congr
      exact map_modify_same (fun q => q.acPinName) (fun q => { q with bValue := v })
        (fun _ => rfl) _ i
    have hget1 : st1.g_psPins.get? i = some { p with bValue := v } := by
      rw [hpins]
      simp only [List.get?_eq_getElem?] at hp ⊢
      simp [List.getElem?_modify_eq, hp]
    have hval : decide ((st1.regs p.pu8PortReg &&& p.u8PinMask) ≠ 0) = v := by
      rw [hnew]
      cases v
      · simp only [Bool.false_eq_true, if_false]
        rw [and_not_mask_and_mask _ _ hm]
        simp
      · simp only [if_true]
        rw [or_mask_and_mask]
        simp [hm0]
    simp only [eGpioAVRRead, hinit1, hfind1, hget1, hcfg, hdir]
    simp [hval]

/-- C27 on the repository table after start-up: BUTTON1 is the second stored
pin and an input, so a write to it returns RET_TYPE_INVALID_STATE and changes
nothing; before start-up a write to LED1 returns RET_TYPE_NOT_INITIALIZED. -/
theorem C27_write_result_codes_witness :
    AvrOp.init ∈ [AvrOp.init] ∧
    psFindPin (avrFromPowerUp envRepo (fun _ => 0) [AvrOp.init]) "BUTTON1".toList = some 1 ∧
    eGpioAVRWrite (some "BUTTON1".toList) true
        (avrFromPowerUp envRepo (fun _ => 0) [AvrOp.init]) =
      (RET_TYPE_INVALID_STATE, avrFromPowerUp envRepo (fun _ => 0) [AvrOp.init]) ∧
    AvrOp.init ∉ ([] : List AvrOp) ∧
    eGpioAVRWrite (some "LED1".toList) true (avrFromPowerUp envRepo (fun _ => 0) []) =
      (RET_TYPE_NOT_INITIALIZED, avrFromPowerUp envRepo (fun _ => 0) []) :=
  ⟨by decide, by decide,
    ((C27_write_result_codes envRepo (fun _ => 0) [AvrOp.init] "BUTTON1".toList true).2.2.2.1
      (by decide) 1
      (avrPinOfConfig envRepo.chip
        { pcPinName := "BUTTON1".toList, eDirection := GPIO_DIR_INPUT, ePull := GPIO_PULL_UP,
          u8AvrPort := 1, u8AvrPin := 5 })
      (by decide) (by decide)).1 (by decide),
    by decide,
    (C27_write_result_codes envRepo (fun _ => 0) [] "LED1".toList true).2.1 (by decide)⟩

/-- C28 on the repository table after start-up with all registers zero: the
write of true to LED1 succeeds, sets bit 5 of PORTB, and the read that
follows returns true. -/
theorem C28_write_effect_witness :
    (∀ r : AvrReg, (fun _ : AvrReg => 0) r < 256) ∧
    (eGpioAVRWrite (some "LED1".toList) true
      (avrFromPowerUp envRepo (fun _ => 0) [AvrOp.init])).1 = RET_TYPE_SUCCESS ∧
    (eGpioAVRWrite (some "LED1".toList) true
      (avrFromPowerUp envRepo (fun _ => 0) [AvrOp.init])).2.regs (AvrReg.PORT 1) = 32 ∧
    (eGpioAVRRead (some "LED1".toList) (some false)
      (eGpioAVRWrite (some "LED1".toList) true
        (avrFromPowerUp envRepo (fun _ => 0) [AvrOp.init])).2).2.1 = some true ∧
    ∃ (i : Nat) (p : sPinState_t) (c : sGpioPinConfig_t),
      psFindPin (avrFromPowerUp envRepo (fun _ => 0) [AvrOp.init]) "LED1".toList = some i ∧
      (avrFromPowerUp envRepo (fun _ => 0) [AvrOp.init]).g_psPins.get? i = some p ∧
      envRepo.g_psGpioPinConfigs.get? i = some c ∧
      p.pu8PortReg = AvrReg.PORT (avrPortOf envRepo.chip c.u8AvrPort) ∧
      p.u8PinMask = (1 <<< c.u8AvrPin) % 256 :=
  ⟨fun _ => Nat.zero_lt_succ 255, by decide, by decide, by decide,
    (C28_write_effect envRepo (fun _ => 0) [AvrOp.init] "LED1".toList true false
      (eGpioAVRWrite (some "LED1".toList) true
        (avrFromPowerUp envRepo (fun _ => 0) [AvrOp.init])).2
      (fun _ => Nat.zero_lt_succ 255) (Prod.ext (by decide) rfl)).imp
      (fun _ => Exists.imp (fun _ => Exists.imp
        (fun _ h => ⟨h.1, h.2.1, h.2.2.1, h.2.2.2.1, h.2.2.2.2.1⟩)))⟩

/-! ### C21: first match -/

theorem psFindPinFrom_index (name : CStr) (ps : List sPinState_t) :
    ∀ (i k : Nat) (p : sPinState_t), ps.get? i = some p → p.acPinName = name →
      (∀ j q, j < i → ps.get? j = some q → q.acPinName ≠ name) →
      psFindPinFrom name ps k = some (k + i) := by
  induction ps with
  | nil => intro i k p hp; simp at hp
  | cons a ps ih =>
    intro i k p hp hn hfirst
    cases i with
    | zero =>
      simp only [List.get?_cons_zero, Option.some.injEq] at hp
      subst hp
      simp [psFindPinFrom, hn]
    | succ i =>
      have ha : a.acPinName ≠ name := hfirst 0 a (by omega) (by simp)
      simp only [List.get?_cons_succ] at hp
      simp only [psFindPinFrom, ha, if_false]
      rw [ih i (k + 1) p hp hn (fun j q hj hq => hfirst (j + 1) q (by omega) (by simpa using hq))]
      congr 1
      omega

theorem helperFindPull_index (name : CStr) (cfgs : List sGpioPinConfig_t) :
    ∀ (i : Nat) (c : sGpioPinConfig_t), cfgs.get? i = some c → c.pcPinName = name →
      (∀ j e, j < i → cfgs.get? j = some e → e.pcPinName ≠ name) →
      helperFindPull name cfgs = c.ePull := by
  induction cfgs with
  | nil => intro i c hc; simp at hc
  | cons a cfgs ih =>
    intro i c hc hn hfirst
    cases i with
    | zero =>
      simp only [List.get?_cons_zero, Option.some.injEq] at hc
      subst hc
      simp [helperFindPull, hn]
    | succ i =>
      have ha : a.pcPinName ≠ name := hfirst 0 a (by omega) (by simp)
      simp only [List.get?_cons_succ] at hc
      simp only [helperFindPull, ha, if_false]
      exact ih i c hc hn (fun j e hj he => hfirst (j + 1) e (by omega) (by simpa using he))

/-- `psFindPin` returns index k exactly when the pin stored at k has the name
and no pin stored before it has; it returns NULL exactly when no stored pin
has the name.  Names are compared character by character. -/
theorem psFindPin_iff (st : AvrState) (name : CStr) :
    (∀ k : Nat, psFindPin st name = some k ↔
      ((∃ q, st.g_psPins.get? k = some q ∧ q.acPinName = name) ∧
        ∀ j q, j < k → st.g_psPins.get? j = some q → q.acPinName ≠ name)) ∧
    (psFindPin st name = none ↔ ∀ q ∈ st.g_psPins, q.acPinName ≠ name) := by
  refine ⟨fun k => ⟨?_, ?_⟩, psFindPinFrom_none name st.g_psPins 0⟩
  · intro h
    obtain ⟨_, q, hq, hn⟩ := psFindPinFrom_bound name st.g_psPins 0 k h
    have hf := psFindPinFrom_first name st.g_psPins 0 k h
    simp only [Nat.sub_zero] at hq hf
    exact ⟨⟨q, hq, hn⟩, fun j q' hj hq' => hf j hj q' hq'⟩
  · rintro ⟨⟨q, hq, hn⟩, hfirst⟩
    have h := psFindPinFrom_index name st.g_psPins k 0 q hq hn hfirst
    simpa [psFindPin] using h

/-- The stored pin of a table entry among the first 32, at any point after
start-up. -/
theorem avrAfter_pin_of_entry (env : Env) (regs : AvrReg → Nat) (ops : List AvrOp)
    (i : Nat) (c : sGpioPinConfig_t) (hi : i < 32)
    (hc : env.g_psGpioPinConfigs.get? i = some c) :
    ∃ p, (avrAfter env regs ops).g_psPins.get? i = some p ∧
      pinStatic p = pinStatic (avrPinOfConfig env.chip c) := by
  obtain ⟨i1, i2⟩ := vGpioAVRInit_powerUp env.chip env.g_psGpioPinConfigs regs
  obtain ⟨_, a2⟩ := avrRun_keeps_static env ops
    (vGpioAVRInit env.chip env.g_psGpioPinConfigs (avrStateInit regs)) i2
  have a2' : (avrAfter env regs ops).g_psPins.map pinStatic =
      (vGpioAVRInit env.chip env.g_psGpioPinConfigs (avrStateInit regs)).g_psPins.map
        pinStatic := a2
  rw [i1] at a2'
  have h2 := congrArg (fun l => l.get? i) a2'
  simp only [List.get?_eq_getElem?, List.getElem?_map, List.getElem?_take, hi, if_true] at h2 hc
  rw [hc] at h2
  simp only [Option.map_some'] at h2
  cases hp : (avrAfter env regs ops).g_psPins[i]? with
  | none => rw [hp] at h2; simp at h2
  | some p =>
    rw [hp] at h2
    simp only [Option.map_some', Option.some.injEq] at h2
    exact ⟨p, by simpa using hp, h2⟩

set_option maxRecDepth 20000 in
/-- C21 as stated fails in its second half.  In the tables `envCollideTwice`
the name `A..A` (31 characters) is listed twice, at entries 1 and 2, both
inputs, after an output whose 32-character name is stored cut to `A..A`:
after start-up `psFindPin("A..A")` returns stored pin 0, so the write of
`A..A` succeeds and sets bit 0 of PORTB and the simulated-value injection
changes stored pin 0, while the helper takes the pull of entry 1.  In the
tables `envManyTwice` the name `B` is listed at entries 32 and 33, which are
not stored: read and write of `B` fail and act on no entry. -/
theorem C21_counterexample :
    psFindPin (avrAfter envCollideTwice (fun _ => 0) []) (List.replicate 31 'A') = some 0 ∧
    (eGpioAVRWrite (some (List.replicate 31 'A')) true
      (avrAfter envCollideTwice (fun _ => 0) [])).1 = RET_TYPE_SUCCESS ∧
    (eGpioAVRWrite (some (List.replicate 31 'A')) true
      (avrAfter envCollideTwice (fun _ => 0) [])).2.regs (AvrReg.PORT 1) = 3 ∧
    (avrAfter envCollideTwice (fun _ => 0) []).regs (AvrReg.PORT 1) = 2 ∧
    (avrAfter envCollideTwice (fun _ => 0) []).g_psPins.map (fun p => p.bSimulatedValue) =
      [false, true, false] ∧
    (vGpioAVRSetSimulated (List.replicate 31 'A') true
      (avrAfter envCollideTwice (fun _ => 0) [])).g_psPins.map (fun p => p.bSimulatedValue) =
      [true, true, false] ∧
    helperFindPull (List.replicate 31 'A') envCollideTwice.g_psGpioPinConfigs =
      GPIO_PULL_UP ∧
    psFindPin (avrAfter envManyTwice (fun _ => 0) []) ['B'] = none ∧
    (eGpioAVRWrite (some ['B']) true (avrAfter envManyTwice (fun _ => 0) [])).1 =
      RET_TYPE_FAIL ∧
    (eGpioAVRRead (some ['B']) (some false) (avrAfter envManyTwice (fun _ => 0) [])).1 =
      RET_TYPE_FAIL := by
  refine ⟨by decide, by decide, by decide, by decide, by decide, by decide, by decide,
    by decide, by decide, by decide⟩

/-- C21 (amended): `psFindPin(name)` returns the lowest-index stored pin whose
name is character for character equal to `name`, and NULL when there is none
(in every driver state).  Hence, when no name of the configuration table has
more than 31 characters and the first entry named `name` is entry i with
i < 32, then at every point after start-up `psFindPin(name)` is stored pin i,
which carries the registers, mask, direction and pull of entry i; the helper's
pull lookup gives the pull of entry i; and simulated-value injection, driver
read and driver write of `name` act on stored pin i only: injection sets its
simulated value, read samples its register and sets its cached value, write
is refused with RET_TYPE_INVALID_STATE when entry i is an input and otherwise
sets its PORT bit and cached value.  No other stored pin, so none of a later
entry with the same name, is changed. -/
theorem C21_first_match (env : Env) (regs : AvrReg → Nat) (ops : List AvrOp)
    (st0 : AvrState) (name : CStr) (i : Nat) (c : sGpioPinConfig_t) (b c0 : Bool) :
    (∀ k : Nat, psFindPin st0 name = some k ↔
      ((∃ q, st0.g_psPins.get? k = some q ∧ q.acPinName = name) ∧
        ∀ j q, j < k → st0.g_psPins.get? j = some q → q.acPinName ≠ name)) ∧
    (psFindPin st0 name = none ↔ ∀ q ∈ st0.g_psPins, q.acPinName ≠ name) ∧
    ((∀ e ∈ env.g_psGpioPinConfigs, e.pcPinName.length ≤ 31) →
      i < 32 → env.g_psGpioPinConfigs.get? i = some c → c.pcPinName = name →
      (∀ j e, j < i → env.g_psGpioPinConfigs.get? j = some e → e.pcPinName ≠ name) →
      psFindPin (avrAfter env regs ops) name = some i ∧
      helperFindPull name env.g_psGpioPinConfigs = c.ePull ∧
      ∃ p, (avrAfter env regs ops).g_psPins.get? i = some p ∧
        pinStatic p = pinStatic (avrPinOfConfig env.chip c) ∧
        vGpioAVRSetSimulated name b (avrAfter env regs ops) =
          { avrAfter env regs ops with
            g_psPins := (avrAfter env regs ops).g_psPins.modify
              (fun q => { q with bSimulatedValue := b }) i } ∧
        (∃ v, eGpioAVRRead (some name) (some c0) (avrAfter env regs ops) =
          (RET_TYPE_SUCCESS, some v,
            { avrAfter env regs ops with
              g_psPins := (avrAfter env regs ops).g_psPins.modify
                (fun q => { q with bValue := v }) i }) ∧
          v = (if c.eDirection = GPIO_DIR_INPUT then
                decide (((avrAfter env regs ops).regs p.pu8PinReg &&& p.u8PinMask) ≠ 0)
              else
                decide (((avrAfter env regs ops).regs p.pu8PortReg &&& p.u8PinMask) ≠ 0))) ∧
        (c.eDirection = GPIO_DIR_INPUT →
          eGpioAVRWrite (some name) b (avrAfter env regs ops) =
            (RET_TYPE_INVALID_STATE, avrAfter env regs ops)) ∧
        (c.eDirection = GPIO_DIR_OUTPUT →
          ∃ regs1, eGpioAVRWrite (some name) b (avrAfter env regs ops) =
            (RET_TYPE_SUCCESS,
              { avrAfter env regs ops with
                g_psPins := (avrAfter env regs ops).g_psPins.modify
                  (fun q => { q with bValue := b }) i
                regs := regs1 }) ∧
            ∀ r, r ≠ p.pu8PortReg → regs1 r = (avrAfter env regs ops).regs r) ∧
        ∀ (f : sPinState_t → sPinState_t) (j : Nat), j ≠ i →
          ((avrAfter env regs ops).g_psPins.modify f i).get? j =
            (avrAfter env regs ops).g_psPins.get? j) := by
  refine ⟨(psFindPin_iff st0 name).1, (psFindPin_iff st0 name).2, ?_⟩
  intro hnames hi hc hN hfirst
  obtain ⟨hinit, _, _⟩ := avrAfter_static env regs ops
  obtain ⟨p, hp, hs⟩ := avrAfter_pin_of_entry env regs ops i c hi hc
  have hlen : c.pcPinName.length ≤ 31 := hnames c (List.get?_mem hc)
  have hpn : p.acPinName = name := by
    have h := congrArg (fun t => t.1) hs
    simp only [pinStatic, avrPinOfConfig, MAX_PIN_NAME_LEN] at h
    rw [h, List.take_of_length_le hlen, hN]
  have hpfirst : ∀ j q, j < i → (avrAfter env regs ops).g_psPins.get? j = some q →
      q.acPinName ≠ name := by
    intro j q hj hq
    obtain ⟨_, e, he, hse⟩ := avrFromPowerUp_pin env regs (AvrOp.init :: ops) j q hq
    have h := congrArg (fun t => t.1) hse
    simp only [pinStatic, avrPinOfConfig, MAX_PIN_NAME_LEN] at h
    rw [h, List.take_of_length_le (hnames e (List.get?_mem he))]
    exact hfirst j e hj he
  have hfind : psFindPin (avrAfter env regs ops) name = some i := by
    have h := psFindPinFrom_index name _ i 0 p hp hpn hpfirst
    simpa [psFindPin] using h
  have hcfg : p.bConfigured = true := congrArg (fun t => t.2.1) hs
  have hdir : p.eDirection = c.eDirection := congrArg (fun t => t.2.2.2.2.2.2.1) hs
  refine ⟨hfind, helperFindPull_index name _ i c hc hN hfirst, p, hp, hs, ?_, ?_, ?_, ?_, ?_⟩
  · simp [vGpioAVRSetSimulated, hinit, hfind]
  · refine ⟨_, ?_, rfl⟩
    simp only [eGpioAVRRead, hinit, hfind, hp, hcfg, hdir]
    simp
  · intro hd
    simp only [eGpioAVRWrite, hinit, hfind, hp, hcfg, hdir, hd]
    simp
  · intro hd
    refine ⟨(if b then
        regWrite (avrAfter env regs ops).regs p.pu8PortReg
          ((avrAfter env regs ops).regs p.pu8PortReg ||| p.u8PinMask)
      else
        regWrite (avrAfter env regs ops).regs p.pu8PortReg
          ((avrAfter env regs ops).regs p.pu8PortReg &&& (255 ^^^ p.u8PinMask))), ?_, ?_⟩
    · simp only [eGpioAVRWrite, hinit, hfind, hp, hcfg, hdir, hd]
      simp
    · intro r hr
      cases b <;> simp [regWrite, hr]
  · intro f j hj
    simp only [List.get?_eq_getElem?]
    exact List.getElem?_modify_ne _ _ (Ne.symm hj)

/-- C21 (amended) on the tables `envTwice`, where BUTTON1 is listed at entries
1 and 2: after start-up `psFindPin("BUTTON1")` is stored pin 1 and the helper
takes the pull of entry 1, the pull-up. -/
theorem C21_first_match_witness :
    (∀ e ∈ envTwice.g_psGpioPinConfigs, e.pcPinName.length ≤ 31) ∧
    envTwice.g_psGpioPinConfigs.get? 1 =
      some { pcPinName := "BUTTON1".toList, eDirection := GPIO_DIR_INPUT,
             ePull := GPIO_PULL_UP, u8AvrPort := 1, u8AvrPin := 0 } ∧
    envTwice.g_psGpioPinConfigs.get? 2 =
      some { pcPinName := "BUTTON1".toList, eDirection := GPIO_DIR_INPUT,
             ePull := GPIO_PULL_DOWN, u8AvrPort := 1, u8AvrPin := 1 } ∧
    psFindPin (avrAfter envTwice (fun _ => 0) []) "BUTTON1".toList = some 1 ∧
    helperFindPull "BUTTON1".toList envTwice.g_psGpioPinConfigs = GPIO_PULL_UP :=
  ⟨by decide, by decide, by decide,
    ((C21_first_match envTwice (fun _ => 0) [] (avrStateInit (fun _ => 0)) "BUTTON1".toList 1
      { pcPinName := "BUTTON1".toList, eDirection := GPIO_DIR_INPUT,
        ePull := GPIO_PULL_UP, u8AvrPort := 1, u8AvrPin := 0 } true false).2.2
      (by decide) (by decide) (by decide) (by decide)
      (by
        intro j e hj he
        have hj0 : j = 0 := by omega
        subst hj0
        simp only [envTwice, List.get?_cons_zero, Option.some.injEq] at he
        subst he
        decide)).1,
    ((C21_first_match envTwice (fun _ => 0) [] (avrStateInit (fun _ => 0)) "BUTTON1".toList 1
      { pcPinName := "BUTTON1".toList, eDirection := GPIO_DIR_INPUT,
        ePull := GPIO_PULL_UP, u8AvrPort := 1, u8AvrPin := 0 } true false).2.2
      (by decide) (by decide) (by decide) (by decide)
      (by
        intro j e hj he
        have hj0 : j = 0 := by omega
        subst hj0
        simp only [envTwice, List.get?_cons_zero, Option.some.injEq] at he
        subst he
        decide)).2.1⟩

/-! ### C26: bounds of the receive buffers -/

theorem strncpy_length (dest src : List Char) (n : Nat) (h : n ≤ dest.length) :
    (strncpy dest src n).length = dest.length := by
  have h1 : ((cstrOf src).take n).length ≤ n := by
    simp only [List.length_take]
    exact Nat.min_le_left _ _
  simp only [strncpy, List.length_append, List.length_replicate, List.length_drop]
  omega

/-- One run of the receive handler keeps the index at most 127, keeps both
arrays at 128 cells and keeps the last cell of the mailbox NUL. -/
theorem ISR_USART_RX_bounds (c : Char) (s : UartRx)
    (hidx : s.u8RxIndex ≤ 127) (hsz : s.WellSized)
    (hlast : s.acPendingLine.get? 127 = some NUL) :
    (ISR_USART_RX c s).u8RxIndex ≤ 127 ∧ (ISR_USART_RX c s).WellSized ∧
    (ISR_USART_RX c s).acPendingLine.get? 127 = some NUL := by
  obtain ⟨hb, hpnd⟩ := hsz
  simp only [RX_BUFFER_SIZE] at hb hpnd
  simp only [ISR_USART_RX, RX_BUFFER_SIZE, UartRx.WellSized]
  split
  · split
    · have hl : (strncpy s.acPendingLine (s.acRxBuffer.set s.u8RxIndex NUL) (128 - 1)).length
          = 128 := by
        rw [strncpy_length _ _ _ (by omega), hpnd]
      refine ⟨by simp, ⟨by simp [hb], by simp [hl]⟩, ?_⟩
      simp only [List.get?_eq_getElem?]
      rw [List.getElem?_set_self (by omega)]
    · exact ⟨hidx, ⟨hb, hpnd⟩, hlast⟩
  · split
    · rename_i hlt
      refine ⟨?_, ⟨by simp [hb], hpnd⟩, hlast⟩
      simp only
      omega
    · exact ⟨by simp, ⟨hb, hpnd⟩, hlast⟩

theorem rxBytes_bounds (cs : List Char) :
    ∀ s : UartRx, s.u8RxIndex ≤ 127 → s.WellSized →
      s.acPendingLine.get? 127 = some NUL →
      (rxBytes cs s).u8RxIndex ≤ 127 ∧ (rxBytes cs s).WellSized ∧
      (rxBytes cs s).acPendingLine.get? 127 = some NUL := by
  induction cs with
  | nil => intro s h1 h2 h3; exact ⟨h1, h2, h3⟩
  | cons c cs ih =>
    intro s h1 h2 h3
    obtain ⟨a1, a2, a3⟩ := ISR_USART_RX_bounds c s h1 h2 h3
    exact ih (ISR_USART_RX c s) a1 a2 a3

/-- The accumulator after one run of the handler is the accumulator before
with the one write `isrAccWrite` names. -/
theorem ISR_USART_RX_acc (c : Char) (s : UartRx) :
    (ISR_USART_RX c s).acRxBuffer =
      (match isrAccWrite c s with
       | some (i, x) => s.acRxBuffer.set i x
       | none => s.acRxBuffer) := by
  simp only [ISR_USART_RX, isrAccWrite]
  split
  · split <;> rfl
  · split <;> rfl

theorem cstrOf_length_le (l : List Char) :
    ∀ k : Nat, l.get? k = some NUL → (cstrOf l).length ≤ k := by
  induction l with
  | nil => intro k h; simp at h
  | cons a l ih =>
    intro k h
    cases k with
    | zero =>
      simp only [List.get?_cons_zero, Option.some.injEq] at h
      simp [cstrOf, h]
    | succ k =>
      simp only [List.get?_cons_succ] at h
      by_cases ha : a = NUL
      · simp [cstrOf, ha]
      · have := ih k h
        simp only [cstrOf, ha, if_false, List.length_cons]
        omega

/-- C26: for every sequence `cs` of received bytes from program start and
every next byte `c`: the index `u8RxIndex` after `cs` is at most 127; both
arrays keep their 128 cells; the one accumulator write the handler performs
for `c` (the data byte, or the NUL on a terminator) is at an index below 128;
and the mailbox holds a NUL in its last cell, so the line in it has at most
127 characters and ends within the array. -/
theorem C26_receive_buffer_bound (cs : List Char) (c : Char) :
    (rxBytes cs uartRxInit).u8RxIndex ≤ 127 ∧
    (rxBytes cs uartRxInit).acRxBuffer.length = 128 ∧
    (rxBytes cs uartRxInit).acPendingLine.length = 128 ∧
    (∀ i x, isrAccWrite c (rxBytes cs uartRxInit) = some (i, x) → i < 128) ∧
    (ISR_USART_RX c (rxBytes cs uartRxInit)).acRxBuffer =
      (match isrAccWrite c (rxBytes cs uartRxInit) with
       | some (i, x) => (rxBytes cs uartRxInit).acRxBuffer.set i x
       | none => (rxBytes cs uartRxInit).acRxBuffer) ∧
    (rxBytes cs uartRxInit).acPendingLine.get? 127 = some NUL ∧
    (cstrOf (rxBytes cs uartRxInit).acPendingLine).length ≤ 127 := by
  obtain ⟨h1, ⟨h2, h3⟩, h4⟩ := rxBytes_bounds cs uartRxInit (by decide)
    (by simp [UartRx.WellSized, uartRxInit, RX_BUFFER_SIZE]) (by decide)
  simp only [RX_BUFFER_SIZE] at h2 h3
  refine ⟨h1, h2, h3, ?_, ISR_USART_RX_acc c _, h4, cstrOf_length_le _ 127 h4⟩
  intro i x hw
  simp only [isrAccWrite, RX_BUFFER_SIZE] at hw
  split at hw
  · split at hw
    · simp only [Option.some.injEq, Prod.mk.injEq] at hw
      omega
    · simp at hw
  · split at hw
    · simp only [Option.some.injEq, Prod.mk.injEq] at hw
      omega
    · simp at hw

/-! ### C22: the synchronization message and its way back through the parser -/

theorem isPrefixOf_dq_false (n l : List Char) (c : Char) (h : c ≠ DQUOTE) :
    (DQUOTE :: n).isPrefixOf (c :: l) = false := by
  simp [List.isPrefixOf, Ne.symm h]

/-- A search for a text that starts with a double quote passes over
characters that are no double quote. -/
theorem strstrFrom_skip_noquote (n : List Char) (xs : List Char) :
    ∀ (rest : List Char) (k : Nat), (∀ c ∈ xs, c ≠ DQUOTE) →
      strstrFrom (DQUOTE :: n) (xs ++ rest) k =
        strstrFrom (DQUOTE :: n) rest (k + xs.length) := by
  induction xs with
  | nil => intro rest k _; simp
  | cons a xs ih =>
    intro rest k h
    have ha := h a (List.mem_cons_self _ _)
    have e : (a :: xs) ++ rest = a :: (xs ++ rest) := rfl
    have step : strstrFrom (DQUOTE :: n) (a :: (xs ++ rest)) k =
        strstrFrom (DQUOTE :: n) (xs ++ rest) (k + 1) := by
      simp [strstrFrom, isPrefixOf_dq_false n _ a ha]
    rw [e, step, ih rest (k + 1) (fun c hc => h c (List.mem_cons_of_mem _ hc))]
    congr 1
    simp only [List.length_cons]
    omega

theorem strstr_sync_p (X : List Char) :
    strstrFrom "\"p\":\"".toList ("\x7b\"t\":\"GPIO\",\"p\":\"".toList ++ X) 0 = some 12 := by
  simp [strstrFrom, List.isPrefixOf]

theorem strstr_sync_v_head (X : List Char) :
    strstrFrom "\"v\":".toList ("\x7b\"t\":\"GPIO\",\"p\":\"".toList ++ X) 0 =
      strstrFrom "\"v\":".toList (DQUOTE :: X) 16 := by
  simp [strstrFrom, List.isPrefixOf, DQUOTE]

theorem strstr_sync_v_quote (pin Y : List Char) (hq : DQUOTE ∉ pin) :
    ("\"v\":".toList).isPrefixOf (DQUOTE :: (pin ++ ("\",\"v\":".toList ++ Y))) = false := by
  cases pin with
  | nil => simp [List.isPrefixOf, DQUOTE]
  | cons a r =>
    cases r with
    | nil => simp [List.isPrefixOf, DQUOTE]
    | cons b r =>
      have hb : b ≠ DQUOTE := fun e => hq (by rw [e]; simp)
      have hb2 : ¬ (Char.ofNat 34 = b) := fun e => hb e.symm
      simp [List.isPrefixOf, DQUOTE, hb2]

theorem strstr_sync_v_tail (Y : List Char) (k : Nat) :
    strstrFrom "\"v\":".toList ("\",\"v\":".toList ++ Y) k = some (k + 2) := by
  simp [strstrFrom, List.isPrefixOf]

/-- Where `strstr` finds the two keys in a synchronization message of kind
GPIO for a pin name without double quote. -/
theorem strstr_syncMessage (pin : CStr) (v : Int) (hq : DQUOTE ∉ pin) :
    strstr (syncMessage "GPIO".toList pin v) "\"p\":\"".toList = some 12 ∧
    strstr (syncMessage "GPIO".toList pin v) "\"v\":".toList = some (pin.length + 19) := by
  have hmsg : syncMessage "GPIO".toList pin v =
      "\x7b\"t\":\"GPIO\",\"p\":\"".toList ++
        (pin ++ ("\",\"v\":".toList ++ (fmtInt v ++ "\x7d\n".toList))) := by
    simp [syncMessage]
  constructor
  · rw [strstr, hmsg]
    exact strstr_sync_p _
  · rw [strstr, hmsg, strstr_sync_v_head]
    have hno := strstr_sync_v_quote pin (fmtInt v ++ "\x7d\n".toList) hq
    have e1 : strstrFrom "\"v\":".toList
        (DQUOTE :: (pin ++ ("\",\"v\":".toList ++ (fmtInt v ++ "\x7d\n".toList)))) 16 =
        strstrFrom "\"v\":".toList
          (pin ++ ("\",\"v\":".toList ++ (fmtInt v ++ "\x7d\n".toList))) 17 := by
      rw [strstrFrom, hno]
      simp
    have e2 := strstrFrom_skip_noquote "v\":".toList pin
      ("\",\"v\":".toList ++ (fmtInt v ++ "\x7d\n".toList)) 17
      (fun c hc e => hq (by rw [← e]; exact hc))
    have e3 : (DQUOTE :: "v\":".toList) = "\"v\":".toList := by decide
    rw [e3] at e2
    rw [e1, e2, strstr_sync_v_tail]
    congr 1
    omega

theorem isdigit_ne_nul (c : Char) (h : isdigit c = true) : c ≠ NUL := by
  intro e
  rw [e] at h
  exact absurd h (by decide)

theorem fmtInt_no_nul (v : Int) : ∀ c ∈ fmtInt v, c ≠ NUL := by
  cases v with
  | ofNat n =>
    intro c hc
    simp only [fmtInt, fmtNat_eq_decDigits] at hc
    exact isdigit_ne_nul c (decDigits_isdigit n c hc)
  | negSucc m =>
    intro c hc
    simp only [fmtInt, fmtNat_eq_decDigits, List.mem_cons] at hc
    rcases hc with h | h
    · rw [h]; decide
    · exact isdigit_ne_nul c (decDigits_isdigit (m + 1) c h)

theorem syncMessage_no_nul (pin : CStr) (v : Int) (hnul : NUL ∉ pin) :
    ∀ c ∈ syncMessage "GPIO".toList pin v, c ≠ NUL := by
  intro c hc
  simp only [syncMessage, List.mem_append] at hc
  rcases hc with (((((h | h) | h) | h) | h) | h) | h
  · intro e; rw [e] at h; exact absurd h (by decide)
  · intro e; rw [e] at h; exact absurd h (by decide)
  · intro e; rw [e] at h; exact absurd h (by decide)
  · intro e; rw [e] at h; exact hnul h
  · intro e; rw [e] at h; exact absurd h (by decide)
  · exact fmtInt_no_nul v c h
  · intro e; rw [e] at h; exact absurd h (by decide)

/-- C22: `vHelperSend(kind, pin, v)` prints exactly the text
`{"t":"<kind>","p":"<pin>","v":<v in decimal>}` and a newline, and changes
nothing else; and for every pin name of at most 31 characters with no double
quote (and, being a C string, no NUL) and every integer v (the `int` argument
of `vHelperSend`, so `INT_MIN` to `INT_MAX`), applying `vParseAndApplyInput`
to the text printed by `vHelperSend("GPIO", pin, v)`, whatever follows its
terminating NUL in memory, has exactly the effect of
`vGpioAVRSetSimulated(pin, v != 0)`. -/
theorem C22_sync_round_trip (w w2 : World) (kind pin : CStr) (v : Int) (tail : List Char) :
    vHelperSend kind pin v w =
      { w with out := w.out ++
          ("\x7b\"t\":\"".toList ++ kind ++ "\",\"p\":\"".toList ++ pin ++
            "\",\"v\":".toList ++ fmtInt v ++ "\x7d\n".toList) } ∧
    (pin.length ≤ 31 → DQUOTE ∉ pin → NUL ∉ pin → INT_MIN ≤ v → v ≤ INT_MAX →
      vParseAndApplyInput
          ((vHelperSend "GPIO".toList pin v { w with out := [] }).out ++ NUL :: tail) w2 =
        { w2 with avr := vGpioAVRSetSimulated pin (decide (v ≠ 0)) w2.avr }) := by
  refine ⟨rfl, ?_⟩
  intro hlen hq hnul hmin hmax
  have hout : (vHelperSend "GPIO".toList pin v { w with out := [] }).out =
      syncMessage "GPIO".toList pin v := by
    simp [vHelperSend, printf]
  have hcstr : cstrOf (syncMessage "GPIO".toList pin v ++ NUL :: tail) =
      syncMessage "GPIO".toList pin v :=
    cstrOf_append_nul _ _ (syncMessage_no_nul pin v hnul)
  obtain ⟨hp, hv⟩ := strstr_syncMessage pin v hq
  have hmsg1 : syncMessage "GPIO".toList pin v ++ NUL :: tail =
      "\x7b\"t\":\"GPIO\",\"p\":\"".toList ++
        (pin ++ DQUOTE :: (",\"v\":".toList ++ (fmtInt v ++ "\x7d\n".toList) ++ NUL :: tail)) := by
    simp [syncMessage, DQUOTE]
  have hdrop1 : (syncMessage "GPIO".toList pin v ++ NUL :: tail).drop (12 + 5) =
      pin ++ DQUOTE :: (",\"v\":".toList ++ (fmtInt v ++ "\x7d\n".toList) ++ NUL :: tail) := by
    rw [hmsg1]
    exact List.drop_left' (by decide)
  have hname : cstrOf (parsePinNameLoop
      ((syncMessage "GPIO".toList pin v ++ NUL :: tail).drop (12 + 5)) 0) = pin := by
    rw [hdrop1, parsePinNameLoop_name pin _ 0 hq (by omega)]
    exact cstrOf_of_no_nul pin (fun c hc e => hnul (by rw [← e]; exact hc))
  have hmsg2 : syncMessage "GPIO".toList pin v =
      ("\x7b\"t\":\"GPIO\",\"p\":\"".toList ++ pin ++ "\",\"v\":".toList) ++
        (fmtInt v ++ "\x7d\n".toList) := by
    simp [syncMessage]
  have hdrop2 : (syncMessage "GPIO".toList pin v).drop (pin.length + 19 + 4) =
      fmtInt v ++ "\x7d\n".toList := by
    rw [hmsg2]
    apply List.drop_left'
    simp
  have hval : atoi ((syncMessage "GPIO".toList pin v).drop (pin.length + 19 + 4)) = v := by
    rw [hdrop2]
    exact atoi_fmtInt v _ (Or.inr ⟨Char.ofNat 125, "\n".toList, by decide, by decide⟩)
      hmin hmax
  rw [hout]
  simp only [vParseAndApplyInput, hcstr, hp, hv, hname, hval]

/-- C22 for BUTTON1 and the value 0 after start-up: the text printed is
`{"t":"GPIO","p":"BUTTON1","v":0}` with a newline, and the parser applied to
it sets the simulated value of BUTTON1 to false. -/
theorem C22_sync_round_trip_witness :
    (vHelperSend "GPIO".toList "BUTTON1".toList 0
      { vAppInit envRepo (worldPowerUp 0) with out := [] }).out =
      "\x7b\"t\":\"GPIO\",\"p\":\"BUTTON1\",\"v\":0\x7d\n".toList ∧
    bGpioAVRGetSimulated "BUTTON1".toList (vAppInit envRepo (worldPowerUp 0)).avr = true ∧
    bGpioAVRGetSimulated "BUTTON1".toList
      (vParseAndApplyInput
        ((vHelperSend "GPIO".toList "BUTTON1".toList 0
          { vAppInit envRepo (worldPowerUp 0) with out := [] }).out ++ NUL :: [])
        (vAppInit envRepo (worldPowerUp 0))).avr = false :=
  ⟨by decide, by decide,
    (congrArg (fun x : World => bGpioAVRGetSimulated "BUTTON1".toList x.avr)
      ((C22_sync_round_trip (vAppInit envRepo (worldPowerUp 0))
        (vAppInit envRepo (worldPowerUp 0)) "GPIO".toList "BUTTON1".toList 0 []).2
        (by decide) (by decide) (by decide) (by decide) (by decide))).trans (by decide)⟩

/-! ### C30: what the pin-name loop reads -/

/-- The copy loop stores at most 31 characters in `acPinName`, whatever the
memory holds, so the NUL written after them is inside the 32-byte array. -/
theorem parsePinNameLoop_length (cells : List Char) :
    ∀ i : Nat, i ≤ 31 → (parsePinNameLoop cells i).length + i ≤ 31 := by
  induction cells with
  | nil => intro i hi; simpa [parsePinNameLoop] using hi
  | cons c cs ih =>
    intro i hi
    simp only [parsePinNameLoop]
    split
    · rename_i h
      have := ih (i + 1) (by omega)
      simp only [List.length_cons]
      omega
    · simpa using hi

set_option maxRecDepth 20000 in
/-- C30, evaluated at lines whose pin name has no closing double quote.  After
the bytes of `{"v":1,"p":"AB` and a newline from program start, the mailbox
holds that line (14 characters, NUL at offset 14) and the name starts at
offset 12; the copy loop reads 32 cells, offsets 12 to 43, so 29 cells after
the terminating NUL, and copies the NUL and what follows it into
`acPinName`.  With the 122-character line `lineUnclosedLate` the name starts
at offset 120 and the 32 cells read are offsets 120 to 151 of the memory that
starts at the mailbox: 24 of them lie behind the 128-byte array, and their
content (here `Z`) is copied into `acPinName`.  The name passed on is still
the C string `AB`. -/
theorem C30_name_loop_reads_past_line_end :
    cstrOf (rxBytes (lineUnclosed ++ ['\n']) uartRxInit).acPendingLine = lineUnclosed ∧
    lineUnclosed.length = 14 ∧
    strstr lineUnclosed "\"p\":\"".toList = some 7 ∧
    strstr lineUnclosed "\"v\":".toList = some 1 ∧
    parsePinNameReads
      ((rxBytes (lineUnclosed ++ ['\n']) uartRxInit).acPendingLine.drop (7 + 5)) 0 = 32 ∧
    parsePinNameLoop
      ((rxBytes (lineUnclosed ++ ['\n']) uartRxInit).acPendingLine.drop (7 + 5)) 0 =
      'A' :: 'B' :: List.replicate 29 NUL ∧
    cstrOf (rxBytes (lineUnclosedLate ++ ['\n']) uartRxInit).acPendingLine =
      lineUnclosedLate ∧
    lineUnclosedLate.length = 122 ∧
    (rxBytes (lineUnclosedLate ++ ['\n']) uartRxInit).acPendingLine.length = 128 ∧
    strstr lineUnclosedLate "\"p\":\"".toList = some 115 ∧
    parsePinNameReads
      (((rxBytes (lineUnclosedLate ++ ['\n']) uartRxInit).acPendingLine ++
        List.replicate 40 'Z').drop (115 + 5)) 0 = 32 ∧
    parsePinNameLoop
      (((rxBytes (lineUnclosedLate ++ ['\n']) uartRxInit).acPendingLine ++
        List.replicate 40 'Z').drop (115 + 5)) 0 =
      'A' :: 'B' :: (List.replicate 6 NUL ++ List.replicate 23 'Z') ∧
    cstrOf (parsePinNameLoop
      (((rxBytes (lineUnclosedLate ++ ['\n']) uartRxInit).acPendingLine ++
        List.replicate 40 'Z').drop (115 + 5)) 0) = ['A', 'B'] := by
  refine ⟨by decide, by decide, by decide, by decide, by decide, by decide, by decide,
    by decide, by decide, by decide, by decide, by decide, by decide⟩

/-! ### C23: the receive interrupt inside the dispatcher -/

theorem scanToolLen_le_length (l : CStr) : scanToolLen l 0 ≤ l.length := by
  obtain ⟨r, hr, _⟩ := firstWord_split l
  have h1 : (firstWord l).length ≤ l.length := by
    have := congrArg List.length hr
    simp only [List.length_append] at this
    omega
  rw [scanToolLen_zero]
  omega

theorem dropWhile_blank_append_nul (a r : List Char) :
    (a ++ NUL :: r).dropWhile (fun c => c = ' ') =
      a.dropWhile (fun c => c = ' ') ++ NUL :: r := by
  induction a with
  | nil =>
    have h : ¬ (NUL = ' ') := by decide
    simp [List.dropWhile, h]
  | cons x a ih =>
    by_cases hx : x = ' '
    · simp [List.dropWhile, hx, ih]
    · simp [List.dropWhile, hx]

/-- Without an interrupt between the first loop and `memcpy`, the second part
of `vMcpHandleLine` run on the line array completes `vMcpHandleLine`. -/
theorem vMcpHandleLineAfterScan_uninterrupted (env : Env) (l r : List Char) (w : World)
    (hl : ∀ c ∈ l, c ≠ NUL) (hne : l ≠ []) :
    vMcpHandleLineAfterScan env (scanToolLen l 0) (l ++ NUL :: r) w =
      vMcpHandleLine env l w := by
  have hn := scanToolLen_le_length l
  have htake : (l ++ NUL :: r).take (scanToolLen l 0) = l.take (scanToolLen l 0) :=
    List.take_append_of_le_length hn
  have hdrop : (l ++ NUL :: r).drop (scanToolLen l 0) =
      l.drop (scanToolLen l 0) ++ NUL :: r := List.drop_append_of_le_length hn
  have h1 : cstrOf ((l ++ NUL :: r).take (scanToolLen l 0)) = l.take (scanToolLen l 0) := by
    rw [htake]
    exact cstrOf_of_no_nul _ (fun c hc => hl c (List.mem_of_mem_take hc))
  have h2 : cstrOf (((l ++ NUL :: r).drop (scanToolLen l 0)).dropWhile (fun c => c = ' ')) =
      (l.drop (scanToolLen l 0)).dropWhile (fun c => c = ' ') := by
    rw [hdrop, dropWhile_blank_append_nul]
    apply cstrOf_append_nul
    intro c hc
    exact hl c (List.mem_of_mem_drop ((List.dropWhile_sublist _).subset hc))
  simp only [vMcpHandleLineAfterScan, vMcpHandleLine, h1, h2, hne, if_false, mcpTool, mcpParams]

/-- With no byte arriving during the call, the interrupted dispatcher is
`bUartDispatchPendingLine` with `vOnUartLineReceived` on the mailbox. -/
theorem bUartDispatchPendingLineInterrupted_nil (env : Env) (s : UartRx) (w : World)
    (l r : List Char) (hm : s.acPendingLine = l ++ NUL :: r) (hl : ∀ c ∈ l, c ≠ NUL) :
    bUartDispatchPendingLineInterrupted env [] s w =
      (if s.u8LineReady = 0 then (false, s, w)
       else (true, { s with u8LineReady := 0 }, vOnUartLineReceived env s.acPendingLine w)) := by
  by_cases hf : s.u8LineReady = 0
  · simp [bUartDispatchPendingLineInterrupted, hf, rxBytes_nil]
  · simp only [bUartDispatchPendingLineInterrupted, hf, if_false, rxBytes_nil]
    cases l with
    | nil =>
      simp [hm, vOnUartLineReceived]
    | cons c l =>
      have hc : c ≠ NUL := hl c (List.mem_cons_self _ _)
      have hcs : cstrOf (c :: l ++ NUL :: r) = c :: l := cstrOf_append_nul (c :: l) r hl
      rw [hm]
      by_cases hb : c = Char.ofNat 123
      · have hnb : ¬ (Char.ofNat 123 = NUL) := by decide
        simp [vOnUartLineReceived, hb, hnb]
      · simp only [List.cons_append, vOnUartLineReceived, hc, hb, if_false]
        have h := vMcpHandleLineAfterScan_uninterrupted env (c :: l) r w hl (by simp)
        simp only [List.cons_append] at h hcs
        rw [hcs, h]

set_option maxRecDepth 40000 in
/-- C23, evaluated at two schedules in which a whole line arrives while
`bUartDispatchPendingLine` is inside `vMcpHandleLine`, between its first loop
and `memcpy` (nothing in the code masks the interrupt there).  First: the
line `gpio_read BUTTON1` is pending and `gpio_write LED1 1` arrives; the
dispatcher takes the tool length 9 from the first line and the characters
from the second and prints `ERR unknown tool gpio_writ`, a mixture of two
lines; no response to `gpio_read BUTTON1` is ever printed.  Second: the line
`gpio_write LED1 0` is pending and `gpio_write LED1 1` arrives; this call
carries out `gpio_write LED1 1`, the flag is set again, and the next call
carries out `gpio_write LED1 1` a second time, while `gpio_write LED1 0` is
never carried out although the dispatcher had taken it. -/
theorem C23_interrupt_inside_dispatch :
    (rxBytes ("gpio_read BUTTON1".toList ++ ['\n']) uartRxInit).u8LineReady = 1 ∧
    cstrOf (rxBytes ("gpio_read BUTTON1".toList ++ ['\n']) uartRxInit).acPendingLine =
      "gpio_read BUTTON1".toList ∧
    (bUartDispatchPendingLineInterrupted envRepo ("gpio_write LED1 1".toList ++ ['\n'])
      (rxBytes ("gpio_read BUTTON1".toList ++ ['\n']) uartRxInit)
      { vAppInit envRepo (worldPowerUp 0) with out := [] }).2.2.out =
      "ERR unknown tool gpio_writ\n".toList ∧
    (bUartDispatchPendingLineInterrupted envRepo ("gpio_write LED1 1".toList ++ ['\n'])
      (rxBytes ("gpio_read BUTTON1".toList ++ ['\n']) uartRxInit)
      { vAppInit envRepo (worldPowerUp 0) with out := [] }).2.1.u8LineReady = 1 ∧
    (bUartDispatchPendingLineInterrupted envRepo []
      (rxBytes ("gpio_read BUTTON1".toList ++ ['\n']) uartRxInit)
      { vAppInit envRepo (worldPowerUp 0) with out := [] }).2.2.out =
      "\x7b\"t\":\"GPIO\",\"p\":\"BUTTON1\",\"v\":0\x7d\nGPIO_READ BUTTON1 0\n".toList ∧
    (rxBytes ("gpio_write LED1 0".toList ++ ['\n']) uartRxInit).u8LineReady = 1 ∧
    cstrOf (rxBytes ("gpio_write LED1 0".toList ++ ['\n']) uartRxInit).acPendingLine =
      "gpio_write LED1 0".toList ∧
    (bUartDispatchPendingLineInterrupted envRepo ("gpio_write LED1 1".toList ++ ['\n'])
      (rxBytes ("gpio_write LED1 0".toList ++ ['\n']) uartRxInit)
      { vAppInit envRepo (worldPowerUp 0) with out := [] }).2.2.out =
      "OK\n\x7b\"t\":\"GPIO\",\"p\":\"LED1\",\"v\":1\x7d\n".toList ∧
    (bUartDispatchPendingLineInterrupted envRepo ("gpio_write LED1 1".toList ++ ['\n'])
      (rxBytes ("gpio_write LED1 0".toList ++ ['\n']) uartRxInit)
      { vAppInit envRepo (worldPowerUp 0) with out := [] }).2.1.u8LineReady = 1 ∧
    (bUartDispatchPendingLineInterrupted envRepo []
      (bUartDispatchPendingLineInterrupted envRepo ("gpio_write LED1 1".toList ++ ['\n'])
        (rxBytes ("gpio_write LED1 0".toList ++ ['\n']) uartRxInit)
        { vAppInit envRepo (worldPowerUp 0) with out := [] }).2.1
      (bUartDispatchPendingLineInterrupted envRepo ("gpio_write LED1 1".toList ++ ['\n'])
        (rxBytes ("gpio_write LED1 0".toList ++ ['\n']) uartRxInit)
        { vAppInit envRepo (worldPowerUp 0) with out := [] }).2.2).2.2.out =
      ("OK\n\x7b\"t\":\"GPIO\",\"p\":\"LED1\",\"v\":1\x7d\n" ++
        "OK\n\x7b\"t\":\"GPIO\",\"p\":\"LED1\",\"v\":1\x7d\n").toList := by
  refine ⟨by decide, by decide, by decide, by decide, by decide, by decide, by decide,
    by decide, by decide, by decide⟩

/-! ### C24, C25: the logging library -/

/-- The output function of the current mode changes neither level, mode,
initialised flag nor build version. -/
theorem logOutputByMode_settings (b : LogBuild) (msg : CStr) (st : LogState) :
    (logOutputByMode b msg st).g_eCurrentLogLevel = st.g_eCurrentLogLevel ∧
    (logOutputByMode b msg st).g_eLogMode = st.g_eLogMode ∧
    (logOutputByMode b msg st).g_bInitialized = st.g_bInitialized ∧
    (logOutputByMode b msg st).g_acBuildVersion = st.g_acBuildVersion := by
  simp only [logOutputByMode]
  split
  · simp only [vOutputToFile, vOutputToConsole, logEmit]
    split
    · split
      · exact ⟨rfl, rfl, rfl, rfl⟩
      · split
        · split
          · exact ⟨rfl, rfl, rfl, rfl⟩
          · have hh : logHasPlatformOutput st = false := by
              rename_i h _ _
              simpa using h
            simp [hh]
        · exact ⟨rfl, rfl, rfl, rfl⟩
    · split <;> exact ⟨rfl, rfl, rfl, rfl⟩
  · simp only [vOutputToHttp, logEmit]
    split <;> exact ⟨rfl, rfl, rfl, rfl⟩
  · simp only [vOutputToConsole, logEmit]
    split <;> exact ⟨rfl, rfl, rfl, rfl⟩

/-- The output function of the current mode lets exactly one record leave the
library, carrying the message, except in the file mode of a `PLATFORM_AVR`
build with no platform output function registered, where `vOutputToFile` does
nothing. -/
theorem logOutputByMode_events (b : LogBuild) (msg : CStr) (st : LogState) :
    ((b.PLATFORM_AVR = false ∨ st.g_eLogMode ≠ LOG_MODE_FILE ∨
        logHasPlatformOutput st = true) →
      ∃ e, (logOutputByMode b msg st).events = st.events ++ [e] ∧
        (e = LogEvent.platformOutput msg ∨ e = LogEvent.stderrLine msg ∨
          e = LogEvent.fileLine st.g_acLogFilePath msg ∨ ∃ cmd, e = LogEvent.shell cmd)) ∧
    (b.PLATFORM_AVR = true → st.g_eLogMode = LOG_MODE_FILE →
      logHasPlatformOutput st = false → logOutputByMode b msg st = st) := by
  constructor
  · intro h
    by_cases hp : logHasPlatformOutput st = true
    · refine ⟨LogEvent.platformOutput msg, ?_, Or.inl rfl⟩
      cases hm : st.g_eLogMode <;>
        simp [logOutputByMode, hm, vOutputToFile, vOutputToHttp, vOutputToConsole, hp, logEmit]
    · have hp2 : logHasPlatformOutput st = false := by simpa using hp
      cases hm : st.g_eLogMode with
      | LOG_MODE_CONSOLE =>
        exact ⟨LogEvent.stderrLine msg, by simp [logOutputByMode, hm, vOutputToConsole, hp2, logEmit],
          Or.inr (Or.inl rfl)⟩
      | LOG_MODE_HTTP =>
        exact ⟨_, by simp only [logOutputByMode, hm, vOutputToHttp, hp2, logEmit]; rfl,
          Or.inr (Or.inr (Or.inr ⟨_, rfl⟩))⟩
      | LOG_MODE_FILE =>
        have havr : b.PLATFORM_AVR = false := by
          rcases h with h | h | h
          · exact h
          · exact absurd hm h
          · exact absurd h hp
        by_cases hf : st.g_psLogFile = true
        · exact ⟨LogEvent.fileLine st.g_acLogFilePath msg,
            by simp [logOutputByMode, hm, vOutputToFile, havr, hp2, hf, logEmit],
            Or.inr (Or.inr (Or.inl rfl))⟩
        · have hf2 : st.g_psLogFile = false := by simpa using hf
          by_cases ho : b.fopenAppend st.g_acLogFilePath = true
          · exact ⟨LogEvent.fileLine st.g_acLogFilePath msg,
              by simp [logOutputByMode, hm, vOutputToFile, havr, hp2, hf2, ho, logEmit],
              Or.inr (Or.inr (Or.inl rfl))⟩
          · have ho2 : b.fopenAppend st.g_acLogFilePath = false := by simpa using ho
            exact ⟨LogEvent.stderrLine msg,
              by simp [logOutputByMode, hm, vOutputToFile, vOutputToConsole, havr, hp2, hf2,
                ho2, logEmit],
              Or.inr (Or.inl rfl)⟩
  · intro havr hm hp
    simp [logOutputByMode, hm, vOutputToFile, havr, hp]

/-- C24: `vLogOutputInternal` hands the text built for a message of level L to
the output function of the current mode exactly when the logger is
initialised, the format string is not NULL and L is at most the current level;
otherwise it returns with the whole state as it was.  The output function
then lets exactly one record carrying the text leave the library (in every
case but the file mode of a `PLATFORM_AVR` build with no platform output
function, where it does nothing) and changes no setting.  `eLogGetLevel`
returns the level last set by `vLogSetLevel` or by `eLogInit` with a
configuration.  So on an initialised logger, after
`vLogSetLevel(LOG_LEVEL_WARNING)` messages of level ERROR and WARNING are
handed to the output function and messages of level INFO and DEBUG change
nothing. -/
theorem C24_log_level_filter (b : LogBuild) (L l : eLogLevel_t) (pcFormat : Option CStr)
    (render : CStr → CStr) (st : LogState) (cfg : sLogConfig_t) :
    ((st.g_bInitialized = true ∧ pcFormat ≠ none ∧
        L.toNat ≤ st.g_eCurrentLogLevel.toNat) →
      vLogOutputInternal b L pcFormat render st =
        logOutputByMode b (render st.g_acBuildVersion) st) ∧
    (¬ (st.g_bInitialized = true ∧ pcFormat ≠ none ∧
        L.toNat ≤ st.g_eCurrentLogLevel.toNat) →
      vLogOutputInternal b L pcFormat render st = st) ∧
    ((b.PLATFORM_AVR = false ∨ st.g_eLogMode ≠ LOG_MODE_FILE ∨
        logHasPlatformOutput st = true) →
      ∃ e, (logOutputByMode b (render st.g_acBuildVersion) st).events = st.events ++ [e] ∧
        (e = LogEvent.platformOutput (render st.g_acBuildVersion) ∨
          e = LogEvent.stderrLine (render st.g_acBuildVersion) ∨
          e = LogEvent.fileLine st.g_acLogFilePath (render st.g_acBuildVersion) ∨
          ∃ cmd, e = LogEvent.shell cmd)) ∧
    ((logOutputByMode b (render st.g_acBuildVersion) st).g_eCurrentLogLevel =
        st.g_eCurrentLogLevel ∧
      (logOutputByMode b (render st.g_acBuildVersion) st).g_eLogMode = st.g_eLogMode ∧
      (logOutputByMode b (render st.g_acBuildVersion) st).g_bInitialized =
        st.g_bInitialized) ∧
    eLogGetLevel (vLogSetLevel l st) = l ∧
    (st.g_bInitialized = false → eLogGetLevel (eLogInit (some cfg) st).2 = cfg.eLevel) ∧
    (st.g_bInitialized = true → pcFormat ≠ none →
      vLogOutputInternal b LOG_LEVEL_ERROR pcFormat render (vLogSetLevel LOG_LEVEL_WARNING st) =
        logOutputByMode b (render st.g_acBuildVersion) (vLogSetLevel LOG_LEVEL_WARNING st) ∧
      vLogOutputInternal b LOG_LEVEL_WARNING pcFormat render
          (vLogSetLevel LOG_LEVEL_WARNING st) =
        logOutputByMode b (render st.g_acBuildVersion) (vLogSetLevel LOG_LEVEL_WARNING st) ∧
      vLogOutputInternal b LOG_LEVEL_INFO pcFormat render (vLogSetLevel LOG_LEVEL_WARNING st) =
        vLogSetLevel LOG_LEVEL_WARNING st ∧
      vLogOutputInternal b LOG_LEVEL_DEBUG pcFormat render (vLogSetLevel LOG_LEVEL_WARNING st) =
        vLogSetLevel LOG_LEVEL_WARNING st) := by
  refine ⟨?_, ?_, (logOutputByMode_events b _ st).1, ?_, rfl, ?_, ?_⟩
  · rintro ⟨hi, hf, hl⟩
    have hl2 : ¬ (L.toNat > st.g_eCurrentLogLevel.toNat) := by omega
    simp [vLogOutputInternal, hl2, hi, hf]
  · intro h
    by_cases hl : L.toNat > st.g_eCurrentLogLevel.toNat
    · simp [vLogOutputInternal, hl]
    · by_cases hi : st.g_bInitialized = true
      · by_cases hf : pcFormat = none
        · simp [vLogOutputInternal, hf]
        · exact absurd ⟨hi, hf, by omega⟩ h
      · have hi2 : st.g_bInitialized = false := by simpa using hi
        simp [vLogOutputInternal, hi2]
  · obtain ⟨a, b2, c, _⟩ := logOutputByMode_settings b (render st.g_acBuildVersion) st
    exact ⟨a, b2, c⟩
  · intro hi
    simp [eLogGetLevel, eLogInit, hi]
  · intro hi hf
    refine ⟨?_, ?_, ?_, ?_⟩
    · simp [vLogOutputInternal, vLogSetLevel, eLogLevel_t.toNat, hi, hf]
    · simp [vLogOutputInternal, vLogSetLevel, eLogLevel_t.toNat, hi, hf]
    · simp [vLogOutputInternal, vLogSetLevel, eLogLevel_t.toNat]
    · simp [vLogOutputInternal, vLogSetLevel, eLogLevel_t.toNat]

/-- C24 on the example program: after `eLogInit` with level INFO and console
mode and `vLogSetLevel(LOG_LEVEL_WARNING)`, an ERROR message leaves on
`stderr` and an INFO message changes nothing. -/
theorem C24_log_level_filter_witness :
    (vLogOutputInternal logBuildDesktop
      LOG_LEVEL_ERROR (some "This ERROR will be shown".toList) (fun _ => "E".toList)
      (vLogSetLevel LOG_LEVEL_WARNING
        (eLogInit (some logConfigExample)
          logStateInit).2)).events = [LogEvent.stderrLine "E".toList] ∧
    vLogOutputInternal logBuildDesktop
      LOG_LEVEL_INFO (some "This INFO will be filtered".toList) (fun _ => "I".toList)
      (vLogSetLevel LOG_LEVEL_WARNING
        (eLogInit (some logConfigExample)
          logStateInit).2) =
      vLogSetLevel LOG_LEVEL_WARNING
        (eLogInit (some logConfigExample)
          logStateInit).2 :=
  ⟨by decide,
    ((C24_log_level_filter logBuildDesktop
      LOG_LEVEL_INFO LOG_LEVEL_INFO (some "This INFO will be filtered".toList)
      (fun _ => "I".toList)
      (eLogInit (some logConfigExample)
          logStateInit).2
      logConfigExample).2.2.2.2.2.2
      (by decide) (by decide)).2.2.1⟩

/-- C25, evaluated.  On the logger as it is at program start `eLogInit(NULL)`
returns RET_TYPE_SUCCESS and leaves it initialised in console mode at level
INFO, and on an initialised logger `eLogInit` with any argument returns
RET_TYPE_ALREADY_EXISTS and changes nothing.  But `eLogInit(NULL)` assigns no
default: after `vLogSetLevel(LOG_LEVEL_DEBUG)` on the logger at program start,
and after `eLogInit` with level DEBUG and file mode followed by
`vLogCleanup`, the logger is not initialised, and `eLogInit(NULL)` returns
RET_TYPE_SUCCESS leaving level DEBUG (and, in the second case, file mode). -/
theorem C25_init_null_keeps_settings :
    eLogInit none logStateInit =
      (RET_TYPE_SUCCESS, { logStateInit with g_bInitialized := true }) ∧
    (eLogInit none logStateInit).2.g_eLogMode = LOG_MODE_CONSOLE ∧
    (eLogInit none logStateInit).2.g_eCurrentLogLevel = LOG_LEVEL_INFO ∧
    (∀ (st : LogState) (psConfig : Option sLogConfig_t), st.g_bInitialized = true →
      eLogInit psConfig st = (RET_TYPE_ALREADY_EXISTS, st)) ∧
    (vLogSetLevel LOG_LEVEL_DEBUG logStateInit).g_bInitialized = false ∧
    (eLogInit none (vLogSetLevel LOG_LEVEL_DEBUG logStateInit)).1 = RET_TYPE_SUCCESS ∧
    (eLogInit none (vLogSetLevel LOG_LEVEL_DEBUG logStateInit)).2.g_eCurrentLogLevel =
      LOG_LEVEL_DEBUG ∧
    (vLogCleanup (eLogInit (some logConfigDebugFile) logStateInit).2).g_bInitialized = false ∧
    (eLogInit none
      (vLogCleanup (eLogInit (some logConfigDebugFile) logStateInit).2)).1 = RET_TYPE_SUCCESS ∧
    (eLogInit none
      (vLogCleanup (eLogInit (some logConfigDebugFile) logStateInit).2)).2.g_eLogMode = LOG_MODE_FILE ∧
    (eLogInit none
      (vLogCleanup (eLogInit (some logConfigDebugFile) logStateInit).2)).2.g_eCurrentLogLevel = LOG_LEVEL_DEBUG := by
  refine ⟨by decide, by decide, by decide, ?_, by decide, by decide, by decide, by decide,
    by decide, by decide, by decide⟩
  intro st psConfig h
  simp [eLogInit, h]

end HalMcp
